import Mathlib

/-!
OAuth2 provider controller (goadesign/oauth2)

A shallow embedding of the authorization-code provider: the error taxonomy
(`errors.go`), the credential context (`context.go`), the generated payload and
media types (`app/`), and the controller flows `Authorize`, `GetToken`,
`exchange` and `refresh` (`provider.go`).

Conventions of the embedding.

* A Go `string` is a sequence of bytes.  It is embedded as the Lean `String`
  whose characters are those bytes (code points below 256); ASCII literals are
  therefore written as they are in the source.  `url.isBytes` says of a string
  that it is such a sequence.
* A Go `error` is `Option error`, `none` standing for `nil`.
* A pointer to a string (`*string`) is `Option String`, `none` standing for `nil`.
* The backend (`Provider`) is a record of functions.  Every flow calls the
  backend at most once, so a function of the arguments describes any backend;
  the calls a flow makes are recorded, in order, in the outcome of the flow.
* A flow returns its `Outcome`: the headers of the response writer, the status
  and the body handed to `Service.Send`, and the backend calls.  The `error`
  that `Service.Send` returns, that of the encoder of the body, is not modelled.
* The package `goa` is not part of the repository.  Of it the embedding has the
  error class that `ErrUnauthorized` is (`goa.NewErrorClass`), the type of a
  handler, and the errors a generated `Validate` merges, as the list of the
  failures found.
* `net/url` of the Go standard library is embedded in the namespace `url`, as far
  as the controller uses it: `Parse`, `URL.Query`, `Values.Get`, `Values.Set`,
  `Values.Encode` and `URL.String`, with the functions these call.  The
  embedding follows the current standard library; where releases differ (a
  semicolon in a query, control bytes in a URL) the claims proved here use no
  input on which they do.
-/

set_option autoImplicit false
set_option linter.dupNamespace false

namespace oauth2

/-! ## The standard library: `strings` helpers on byte lists -/

namespace strings

/-- The function `strings.Cut` for a one-byte separator: the text before the first
separator, the text after it, and whether the separator was found. -/
def Cut (sep : Char) : List Char → List Char × List Char × Bool
  | [] => ([], [], false)
  | c :: cs =>
    if c = sep then ([], cs, true)
    else
      let r := Cut sep cs
      (c :: r.1, r.2.1, r.2.2)

/-- Splits at the last occurrence of a one-byte separator (`strings.LastIndex`):
`some (s[:i], s[i+1:])`, or `none` when the separator does not occur. -/
def cutLast (sep : Char) : List Char → Option (List Char × List Char)
  | [] => none
  | c :: cs =>
    match cutLast sep cs with
    | some (before, after) => some (c :: before, after)
    | none => if c = sep then some ([], cs) else none

/-- Splits at the first occurrence of a substring (`strings.Index`):
`some (s[:i], s[i:])`, or `none` when the substring does not occur. -/
def cutAt (pat : List Char) : List Char → Option (List Char × List Char)
  | [] => if pat = [] then some ([], []) else none
  | c :: cs =>
    if pat.isPrefixOf (c :: cs) then some ([], c :: cs)
    else (cutAt pat cs).map fun r => (c :: r.1, r.2)

/-- The pieces of a text between occurrences of a one-byte separator. -/
def splitOn (sep : Char) : List Char → List (List Char)
  | [] => [[]]
  | c :: cs =>
    match splitOn sep cs with
    | [] => [[c]]
    | p :: ps => if c = sep then [] :: p :: ps else (c :: p) :: ps

/-- Bytewise lexicographic order, the order of `sort.Strings`. -/
def le : List Char → List Char → Bool
  | [], _ => true
  | _ :: _, [] => false
  | a :: as, b :: bs => a.toNat < b.toNat || (a.toNat = b.toNat && le as bs)

/-- Insertion into a list sorted by `le`. -/
def insertSorted (k : String) : List String → List String
  | [] => [k]
  | x :: xs => if le k.data x.data then k :: x :: xs else x :: insertSorted k xs

/-- The function `sort.Strings`. -/
def sort : List String → List String
  | [] => []
  | k :: ks => insertSorted k (sort ks)

end strings

/-! ## The standard library: `net/url` -/

namespace url

/-- The escaping modes of `net/url`. -/
inductive encoding where
  | encodePath
  | encodePathSegment
  | encodeHost
  | encodeZone
  | encodeUserPassword
  | encodeQueryComponent
  | encodeFragment
deriving DecidableEq, Repr

def ishex (c : Char) : Bool :=
  ('0' ≤ c && c ≤ '9') || ('a' ≤ c && c ≤ 'f') || ('A' ≤ c && c ≤ 'F')

def unhex (c : Char) : Nat :=
  if '0' ≤ c ∧ c ≤ '9' then c.toNat - '0'.toNat
  else if 'a' ≤ c ∧ c ≤ 'f' then c.toNat - 'a'.toNat + 10
  else if 'A' ≤ c ∧ c ≤ 'F' then c.toNat - 'A'.toNat + 10
  else 0

/-- The digit table `upperhex` at index `n`. -/
def upperhex (n : Nat) : Char :=
  "0123456789ABCDEF".data.getD n '0'

/-- The apostrophe, byte 39. -/
def apostrophe : Char := Char.ofNat 39

/-- The bytes a host may hold unescaped besides letters and digits: the
sub-delimiters, the colon of the port, the brackets of an IPv6 literal, and
the angle brackets and double quote. -/
def hostByte (c : Char) : Bool :=
  "!$&()*+,;=:[]<>\"".data.contains c || c = apostrophe

/-- Reports whether byte `c` must be escaped in the given mode. -/
def shouldEscape (c : Char) (mode : encoding) : Bool :=
  if c.isAlphanum then false
  else if (mode = .encodeHost ∨ mode = .encodeZone) ∧ hostByte c then false
  else if "-_.~".data.contains c then false
  else if "$&+,/:;=?@".data.contains c then
    match mode with
    | .encodePath => c = '?'
    | .encodePathSegment => c = '/' || c = ';' || c = ',' || c = '?'
    | .encodeUserPassword => c = '@' || c = '/' || c = '?' || c = ':'
    | .encodeQueryComponent => true
    | .encodeFragment => false
    | _ => true
  else if mode = .encodeFragment ∧ "!()*".data.contains c then false
  else true

/-- The first pass of `unescape`: every `%` is followed by two hex digits, and
in a host only the bytes a host may hold appear. -/
def unescapeOk (mode : encoding) : List Char → Bool
  | [] => true
  | '%' :: a :: b :: rest =>
    if !(ishex a && ishex b) then false
    else if mode = .encodeHost ∧ unhex a < 8 ∧ ¬ (a = '2' ∧ b = '5') then false
    else if mode = .encodeZone ∧ ¬ (a = '2' ∧ b = '5') ∧ unhex a * 16 + unhex b ≠ 32
        ∧ shouldEscape (Char.ofNat (unhex a * 16 + unhex b)) .encodeHost then false
    else unescapeOk mode rest
  | '%' :: _ => false
  | c :: rest =>
    if (mode = .encodeHost ∨ mode = .encodeZone) ∧ c.toNat < 128
        ∧ shouldEscape c .encodeHost then false
    else unescapeOk mode rest

/-- The second pass of `unescape`: `%XX` becomes the byte `XX`, and `+` a space
in a query component. -/
def unescapeBytes (mode : encoding) : List Char → List Char
  | [] => []
  | '%' :: a :: b :: rest => Char.ofNat (unhex a * 16 + unhex b) :: unescapeBytes mode rest
  | '+' :: rest => (if mode = .encodeQueryComponent then ' ' else '+') :: unescapeBytes mode rest
  | c :: rest => c :: unescapeBytes mode rest

/-- The function `unescape`; `none` is an `EscapeError` or `InvalidHostError`. -/
def unescape (s : List Char) (mode : encoding) : Option (List Char) :=
  if unescapeOk mode s then some (unescapeBytes mode s) else none

/-- The function `escape`: a space becomes `+` in a query component, every other
byte that must be escaped becomes `%XX` with upper-case hex digits. -/
def escape (s : List Char) (mode : encoding) : List Char :=
  match s with
  | [] => []
  | c :: rest =>
    if c = ' ' ∧ mode = .encodeQueryComponent then '+' :: escape rest mode
    else if shouldEscape c mode then
      '%' :: upperhex (c.toNat / 16) :: upperhex (c.toNat % 16) :: escape rest mode
    else c :: escape rest mode

/-- The function `QueryEscape`. -/
def QueryEscape (s : String) : String :=
  ⟨escape s.data .encodeQueryComponent⟩

/-- The function `QueryUnescape`. -/
def QueryUnescape (s : List Char) : Option String :=
  (unescape s .encodeQueryComponent).map String.mk

/-! ### Query values -/

/-- The type `Values`, a `map[string][]string`: each key occurs at most once. -/
abbrev Values := List (String × List String)

/-- The map read `v[key]`; a missing key reads as the empty slice. -/
def Values.lookup (v : Values) (key : String) : List String :=
  match v with
  | [] => []
  | (k, vs) :: rest => if k = key then vs else Values.lookup rest key

/-- The map write `v[key] = vs`. -/
def Values.store (v : Values) (key : String) (vs : List String) : Values :=
  match v with
  | [] => [(key, vs)]
  | (k, ws) :: rest =>
    if k = key then (k, vs) :: rest else (k, ws) :: Values.store rest key vs

/-- The method `Values.Get`: the first value of the key, or the empty string. -/
def Values.Get (v : Values) (key : String) : String :=
  match v.lookup key with
  | [] => ""
  | x :: _ => x

/-- The method `Values.Set`: the key gets the one value, replacing any it had. -/
def Values.Set (v : Values) (key value : String) : Values :=
  v.store key [value]

/-- The method `Values.Add`: the value is appended to those of the key. -/
def Values.Add (v : Values) (key value : String) : Values :=
  v.store key (v.lookup key ++ [value])

/-- One turn of the loop of `parseQuery`: a piece holding a semicolon, an empty
piece, and a piece whose key or value does not unescape are skipped. -/
def parseQueryPiece (m : Values) (piece : List Char) : Values :=
  if piece.contains ';' then m
  else if piece = [] then m
  else
    let kv := strings.Cut '=' piece
    match QueryUnescape kv.1 with
    | none => m
    | some key =>
      match QueryUnescape kv.2.1 with
      | none => m
      | some value => m.Add key value

/-- The function `ParseQuery`, its error dropped as `URL.Query` drops it. -/
def ParseQuery (query : String) : Values :=
  (strings.splitOn '&' query.data).foldl parseQueryPiece []

/-- One turn of the inner loop of `Values.Encode`. -/
def encodePair (keyEscaped : String) (buf : String) (value : String) : String :=
  (if buf = "" then buf else buf ++ "&") ++ keyEscaped ++ "=" ++ QueryEscape value

/-- The method `Values.Encode`: the keys in sorted order, each value of a key as
`key=value`, both escaped, joined by `&`. -/
def Values.Encode (v : Values) : String :=
  (strings.sort (v.map Prod.fst)).foldl
    (fun buf k => (v.lookup k).foldl (encodePair (QueryEscape k)) buf) ""

/-! ### URLs -/

/-- The type `Userinfo`. -/
structure Userinfo where
  username : String
  password : String
  passwordSet : Bool
deriving DecidableEq, Repr

/-- The type `URL`. -/
structure URL where
  Scheme : String := ""
  Opaque : String := ""
  User : Option Userinfo := none
  Host : String := ""
  Path : String := ""
  RawPath : String := ""
  OmitHost : Bool := false
  ForceQuery : Bool := false
  RawQuery : String := ""
  Fragment : String := ""
  RawFragment : String := ""
deriving DecidableEq, Repr

/-- The function `getScheme`: `some (scheme, rest)`, or `none` for the error
"missing protocol scheme". -/
def getScheme (rawURL : List Char) : Option (List Char × List Char) :=
  let rec go (i : Nat) (acc : List Char) : List Char → Option (List Char × List Char)
    | [] => some ([], rawURL)
    | c :: cs =>
      if c.isAlpha then go (i + 1) (acc ++ [c]) cs
      else if c.isDigit ∨ c = '+' ∨ c = '-' ∨ c = '.' then
        if i = 0 then some ([], rawURL) else go (i + 1) (acc ++ [c]) cs
      else if c = ':' then
        if i = 0 then none else some (acc, cs)
      else some ([], rawURL)
  go 0 [] rawURL

def validOptionalPort (port : List Char) : Bool :=
  match port with
  | [] => true
  | c :: digits => c = ':' && digits.all Char.isDigit

def validUserinfo (s : List Char) : Bool :=
  s.all fun r => r.isAlphanum || "-._:~!$&()*+,;=%@".data.contains r || r = apostrophe

/-- The function `parseHost`. -/
def parseHost (host : List Char) : Option (List Char) :=
  if host.head? = some '[' then
    match strings.cutLast ']' host with
    | none => none
    | some (literal, colonPort) =>
      if !validOptionalPort colonPort then none
      else
        match strings.cutAt "%25".data literal with
        | some (address, zone) => do
          let host1 ← unescape address .encodeHost
          let host2 ← unescape zone .encodeZone
          let host3 ← unescape (']' :: colonPort) .encodeHost
          pure (host1 ++ host2 ++ host3)
        | none => unescape host .encodeHost
  else
    match strings.cutLast ':' host with
    | some (_, port) =>
      if !validOptionalPort (':' :: port) then none else unescape host .encodeHost
    | none => unescape host .encodeHost

/-- The function `parseAuthority`. -/
def parseAuthority (authority : List Char) : Option (Option Userinfo × List Char) :=
  match strings.cutLast '@' authority with
  | none => (parseHost authority).map fun host => (none, host)
  | some (userinfo, hostport) => do
    let host ← parseHost hostport
    if !validUserinfo userinfo then none
    else if !userinfo.contains ':' then do
      let username ← unescape userinfo .encodeUserPassword
      pure (some ⟨⟨username⟩, "", false⟩, host)
    else do
      let up := strings.Cut ':' userinfo
      let username ← unescape up.1 .encodeUserPassword
      let password ← unescape up.2.1 .encodeUserPassword
      pure (some ⟨⟨username⟩, ⟨password⟩, true⟩, host)

/-- The method `URL.setPath`. -/
def URL.setPath (u : URL) (p : List Char) : Option URL :=
  (unescape p .encodePath).map fun path =>
    { u with Path := ⟨path⟩, RawPath := if p = escape path .encodePath then "" else ⟨p⟩ }

/-- The method `URL.setFragment`. -/
def URL.setFragment (u : URL) (f : List Char) : Option URL :=
  (unescape f .encodeFragment).map fun frag =>
    { u with Fragment := ⟨frag⟩,
             RawFragment := if f = escape frag .encodeFragment then "" else ⟨f⟩ }

def stringContainsCTLByte (s : List Char) : Bool :=
  s.any fun b => b.toNat < 32 || b.toNat = 127

/-- The function `parse` with `viaRequest` false. -/
def parse (rawURL : List Char) : Option URL :=
  if stringContainsCTLByte rawURL then none
  else if rawURL = ['*'] then some { Path := "*" }
  else
    match getScheme rawURL with
    | none => none
    | some (scheme, rest0) =>
      let url : URL := { Scheme := ⟨scheme.map Char.toLower⟩ }
      let forceQuery : Bool := rest0.getLast? = some '?' && rest0.count '?' = 1
      let cut := strings.Cut '?' rest0
      let rest : List Char := if forceQuery then rest0.dropLast else cut.1
      let url : URL :=
        if forceQuery then { url with ForceQuery := true }
        else { url with RawQuery := ⟨cut.2.1⟩ }
      if rest.head? ≠ some '/' ∧ url.Scheme ≠ "" then
        some { url with Opaque := ⟨rest⟩ }
      else if rest.head? ≠ some '/' ∧ (strings.Cut '/' rest).1.contains ':' then
        none
      else if "//".data.isPrefixOf rest
          ∧ (url.Scheme ≠ "" ∨ ¬ "///".data.isPrefixOf rest) then
        let authority := (rest.drop 2).takeWhile (· ≠ '/')
        let rest := (rest.drop 2).dropWhile (· ≠ '/')
        match parseAuthority authority with
        | none => none
        | some (user, host) => { url with User := user, Host := ⟨host⟩ }.setPath rest
      else if url.Scheme ≠ "" ∧ rest.head? = some '/' then
        { url with OmitHost := true }.setPath rest
      else url.setPath rest

/-- The function `Parse`; `none` is a parse error. -/
def Parse (rawURL : String) : Option URL :=
  let cut := strings.Cut '#' rawURL.data
  match parse cut.1 with
  | none => none
  | some url => if cut.2.1 = [] then some url else url.setFragment cut.2.1

/-- The method `URL.Query`. -/
def URL.Query (u : URL) : Values :=
  ParseQuery u.RawQuery

/-- The method `Userinfo.String`. -/
def Userinfo.String (u : Userinfo) : String :=
  ⟨escape u.username.data .encodeUserPassword⟩
    ++ (if u.passwordSet then ":" ++ ⟨escape u.password.data .encodeUserPassword⟩ else "")

/-- The function `validEncoded`. -/
def validEncoded (s : List Char) (mode : encoding) : Bool :=
  s.all fun c =>
    "!$&()*+,;=:@[]%".data.contains c || c = apostrophe || !shouldEscape c mode

/-- The method `URL.EscapedPath`. -/
def URL.EscapedPath (u : URL) : String :=
  if u.RawPath ≠ "" ∧ validEncoded u.RawPath.data .encodePath
      ∧ unescape u.RawPath.data .encodePath = some u.Path.data then u.RawPath
  else if u.Path = "*" then "*"
  else ⟨escape u.Path.data .encodePath⟩

/-- The method `URL.EscapedFragment`. -/
def URL.EscapedFragment (u : URL) : String :=
  if u.RawFragment ≠ "" ∧ validEncoded u.RawFragment.data .encodeFragment
      ∧ unescape u.RawFragment.data .encodeFragment = some u.Fragment.data then u.RawFragment
  else ⟨escape u.Fragment.data .encodeFragment⟩

/-- The method `URL.String`. -/
def URL.String (u : URL) : String :=
  let buf := if u.Scheme ≠ "" then u.Scheme ++ ":" else ""
  let buf :=
    if u.Opaque ≠ "" then buf ++ u.Opaque
    else
      let buf :=
        if u.Scheme ≠ "" ∨ u.Host ≠ "" ∨ u.User ≠ none then
          if u.OmitHost ∧ u.Host = "" ∧ u.User = none then buf
          else
            let buf := if u.Host ≠ "" ∨ u.Path ≠ "" ∨ u.User ≠ none then buf ++ "//" else buf
            let buf :=
              match u.User with
              | some ui => buf ++ ui.String ++ "@"
              | none => buf
            if u.Host ≠ "" then buf ++ String.mk (escape u.Host.data .encodeHost) else buf
        else buf
      let path := u.EscapedPath
      let buf := if path ≠ "" ∧ path.data.head? ≠ some '/' ∧ u.Host ≠ "" then buf ++ "/" else buf
      let buf :=
        if buf = "" ∧ (strings.Cut '/' path.data).1.contains ':' then buf ++ "./" else buf
      buf ++ path
  let buf := if u.ForceQuery ∨ u.RawQuery ≠ "" then buf ++ "?" ++ u.RawQuery else buf
  if u.Fragment ≠ "" then buf ++ "#" ++ u.EscapedFragment else buf

/-! ### The text of a URL around its query: auxiliary definitions -/

/-- The text of a URL up to its query: its scheme, authority and path. -/
def beforeQuery (u : URL) : String :=
  ({ u with ForceQuery := false, RawQuery := "", Fragment := "" } : URL).String

/-- The part of the text of a URL that holds its query. -/
def queryText (u : URL) : String :=
  if u.ForceQuery ∨ u.RawQuery ≠ "" then "?" ++ u.RawQuery else ""

/-- The text of a URL after its query: its fragment. -/
def afterQuery (u : URL) : String :=
  if u.Fragment ≠ "" then "#" ++ u.EscapedFragment else ""

/-! ### Reading back an encoded query: auxiliary definitions -/

/-- A string of bytes. -/
def isBytes (s : List Char) : Prop := ∀ c ∈ s, c.toNat < 256

instance (s : List Char) : Decidable (isBytes s) := by
  unfold isBytes
  infer_instance

/-- The pieces `key=value` joined by `&`, each after the first preceded by the
separator. -/
def joinPieces : List (List Char) → List Char
  | [] => []
  | p :: ps => p ++ (ps.map fun q => '&' :: q).flatten

/-- One more piece written to the buffer of `Values.Encode`. -/
def addPiece (buf piece : List Char) : List Char :=
  if buf = [] then piece else buf ++ '&' :: piece

/-- The piece `key=value` that `Values.Encode` writes for one value of a key. -/
def pieceOf (p : String × String) : List Char :=
  (QueryEscape p.1).data ++ '=' :: (QueryEscape p.2).data

/-- The pairs of key and value of a map, the keys taken in the given order. -/
def pairsOf (v : Values) : List String → List (String × String)
  | [] => []
  | k :: ks => (v.lookup k).map (fun x => (k, x)) ++ pairsOf v ks

/-- One pair added to a map, as `parseQuery` adds it. -/
def addPair (m : Values) (p : String × String) : Values :=
  m.Add p.1 p.2

/-- The keys of a map are distinct and its keys and values are strings of
bytes. -/
def Values.wellFormed (v : Values) : Prop :=
  (v.map Prod.fst).Nodup ∧ ∀ p ∈ v, isBytes p.1.data ∧ ∀ x ∈ p.2, isBytes x.data

instance (v : Values) : Decidable v.wellFormed := by
  unfold Values.wellFormed
  infer_instance

end url

/-! ## The standard library: `net/http` -/

namespace http

def StatusOK : Nat := 200

def StatusFound : Nat := 302

def StatusBadRequest : Nat := 400

def StatusUnauthorized : Nat := 401

/-- The header map of a response, one value per key as `Header.Set` leaves it. -/
abbrev Header := List (String × String)

/-- The method `Header.Set`: the key gets the one value, replacing any it had. -/
def Header.Set (h : Header) (key value : String) : Header :=
  match h with
  | [] => [(key, value)]
  | (k, v) :: rest => if k = key then (k, value) :: rest else (k, v) :: Header.Set rest key value

/-- The method `Header.Get`; `none` when the key is not in the map. -/
def Header.Get (h : Header) (key : String) : Option String :=
  match h with
  | [] => none
  | (k, v) :: rest => if k = key then some v else Header.Get rest key

/-- The response writer handed to a flow: the headers written so far. -/
structure ResponseWriter where
  Header : Header := []
deriving DecidableEq, Repr

/-- The request handed to a flow: its URL, what its method `BasicAuth` returns
(the user name and password of an `Authorization` header that holds Basic
credentials, `none` when the method reports `ok` false), and its body. -/
structure Request where
  URL : url.URL := {}
  BasicAuth : Option (String × String) := none
  Body : String := ""
deriving DecidableEq, Repr

end http

/-! ## Package `goa`: validation errors -/

namespace goa

/-- A failure found by a generated `Validate`: `goa.MissingAttributeError(ctx,
name)` or `goa.InvalidEnumValueError(ctx, value, allowed)`. -/
inductive ValidationError where
  | MissingAttributeError (ctx name : String)
  | InvalidEnumValueError (ctx value : String) (allowed : List String)
deriving DecidableEq, Repr

/-- The error a `Validate` returns, the merge by `goa.MergeErrors` of the
failures it found: it is embedded as their list, in order, `[]` standing for
`nil`. -/
abbrev ValidationErrors := List ValidationError

/-- The function `goa.MergeErrors` on a merged error and one more failure. -/
def MergeErrors (err : ValidationErrors) (other : ValidationError) : ValidationErrors :=
  err ++ [other]

end goa

/-! ## Package `app`: media types and payloads -/

namespace app

/-- The media type `OAuth2ErrorMedia`. -/
structure OAuth2ErrorMedia where
  Error : String
  ErrorDescription : Option String := none
  ErrorURI : Option String := none
deriving DecidableEq, Repr

/-- The method `OAuth2ErrorMedia.Validate`. -/
def OAuth2ErrorMedia.Validate (mt : OAuth2ErrorMedia) : goa.ValidationErrors :=
  let err : goa.ValidationErrors := []
  let err :=
    if mt.Error = "" then goa.MergeErrors err (.MissingAttributeError "response" "error")
    else err
  let err :=
    if ¬ (mt.Error = "invalid_request" ∨ mt.Error = "invalid_client"
        ∨ mt.Error = "invalid_grant" ∨ mt.Error = "unauthorized_client"
        ∨ mt.Error = "unsupported_grant_type") then
      goa.MergeErrors err (.InvalidEnumValueError "response.error" mt.Error
        ["invalid_request", "invalid_client", "invalid_grant", "unauthorized_client",
         "unsupported_grant_type"])
    else err
  err

/-- The media type `TokenMedia`. -/
structure TokenMedia where
  AccessToken : String
  ExpiresIn : Option Int := none
  RefreshToken : Option String := none
  Scope : Option String := none
  TokenType : String
deriving DecidableEq, Repr

/-- The method `TokenMedia.Validate`. -/
def TokenMedia.Validate (mt : TokenMedia) : goa.ValidationErrors :=
  let err : goa.ValidationErrors := []
  let err :=
    if mt.AccessToken = "" then
      goa.MergeErrors err (.MissingAttributeError "response" "access_token")
    else err
  let err :=
    if mt.TokenType = "" then
      goa.MergeErrors err (.MissingAttributeError "response" "token_type")
    else err
  err

/-- The struct `tokenPayload`, the payload as it is decoded. -/
structure tokenPayload where
  Code : Option String := none
  GrantType : Option String := none
  RedirectURI : Option String := none
  RefreshToken : Option String := none
  Scope : Option String := none
deriving DecidableEq, Repr

/-- The struct `TokenPayload`, the payload handed to the controller. -/
structure TokenPayload where
  Code : Option String := none
  GrantType : String := ""
  RedirectURI : Option String := none
  RefreshToken : Option String := none
  Scope : Option String := none
deriving DecidableEq, Repr

/-- The method `tokenPayload.Validate`. -/
def tokenPayload.Validate (ut : tokenPayload) : goa.ValidationErrors :=
  let err : goa.ValidationErrors := []
  let err :=
    if ut.GrantType = none then
      goa.MergeErrors err (.MissingAttributeError "response" "grant_type")
    else err
  let err :=
    match ut.GrantType with
    | some grantType =>
      if ¬ (grantType = "authorization_code" ∨ grantType = "refresh_token") then
        goa.MergeErrors err (.InvalidEnumValueError "response.grant_type" grantType
          ["authorization_code", "refresh_token"])
      else err
    | none => err
  err

/-- The method `tokenPayload.Publicize`. -/
def tokenPayload.Publicize (ut : tokenPayload) : TokenPayload :=
  let pub : TokenPayload := {}
  let pub := if ut.Code ≠ none then { pub with Code := ut.Code } else pub
  let pub :=
    match ut.GrantType with
    | some grantType => { pub with GrantType := grantType }
    | none => pub
  let pub := if ut.RedirectURI ≠ none then { pub with RedirectURI := ut.RedirectURI } else pub
  let pub := if ut.RefreshToken ≠ none then { pub with RefreshToken := ut.RefreshToken } else pub
  let pub := if ut.Scope ≠ none then { pub with Scope := ut.Scope } else pub
  pub

/-- The method `TokenPayload.Validate`. -/
def TokenPayload.Validate (ut : TokenPayload) : goa.ValidationErrors :=
  let err : goa.ValidationErrors := []
  let err :=
    if ut.GrantType = "" then
      goa.MergeErrors err (.MissingAttributeError "response" "grant_type")
    else err
  let err :=
    if ¬ (ut.GrantType = "authorization_code" ∨ ut.GrantType = "refresh_token") then
      goa.MergeErrors err (.InvalidEnumValueError "response.grant_type" ut.GrantType
        ["authorization_code", "refresh_token"])
    else err
  err

end app

/-! ## `errors.go` -/

/-- The type `ErrorCode`. -/
abbrev ErrorCode := String

def ErrInvalidRequest : ErrorCode := "invalid_request"

def ErrInvalidClient : ErrorCode := "invalid_client"

def ErrInvalidGrant : ErrorCode := "invalid_grant"

def ErrUnauthorizedClient : ErrorCode := "unauthorized_client"

def ErrUnsupportedGrantType : ErrorCode := "unsupported_grant_type"

def ErrInvalidScope : ErrorCode := "invalid_scope"

/-- The struct `oauth2Error`. -/
structure oauth2Error where
  ErrorCode : ErrorCode
  ErrorDescription : String
  ErrorURI : String
deriving DecidableEq, Repr

def oauth2Error.Code (e : oauth2Error) : oauth2.ErrorCode := e.ErrorCode

def oauth2Error.Description (e : oauth2Error) : String := e.ErrorDescription

def oauth2Error.URI (e : oauth2Error) : String := e.ErrorURI

/-- The method `oauth2Error.Error`, `fmt.Sprintf("%v %s", code, description)`. -/
def oauth2Error.Error (e : oauth2Error) : String := e.ErrorCode ++ " " ++ e.ErrorDescription

/-- A value of the interface `Error`: what its four methods return. -/
structure Error where
  Code : ErrorCode
  Description : String
  URI : String
  Error : String
deriving DecidableEq, Repr

/-- A non-nil value of the Go interface `error`: one that implements `Error`, or
any other error, of which only the message is known. -/
inductive error where
  | implementsError (e : Error)
  | other (message : String)
deriving DecidableEq, Repr

/-- The message of an `error`, its method `Error()`. -/
def error.Error : error → String
  | .implementsError e => e.Error
  | .other message => message

/-- The struct `goa.ErrorResponse`, the error an error class builds.  Its
identifier `ID`, drawn at random, and its `Meta` are left out. -/
structure goa.ErrorResponse where
  Code : String
  Status : Nat
  Detail : String
deriving DecidableEq, Repr

/-- The message handed to an error class (`msg interface{}`): the controller
hands it a string or an `error`. -/
inductive goa.Message where
  | text (s : String)
  | err (e : error)
deriving DecidableEq, Repr

/-- Modelled from the spec: the function `goa.NewErrorClass` of the package
`goa`, which is not part of the repository.  By section 4.4 the gate fails with
an error of the class, which has the code and the status of the class, carrying
the message it is given: the string, or the message `Error()` of the error. -/
def goa.NewErrorClass (code : String) (status : Nat) (msg : goa.Message) : goa.ErrorResponse :=
  { Code := code, Status := status,
    Detail := match msg with
      | .text s => s
      | .err e => e.Error }

/-- The error class `ErrUnauthorized`. -/
def ErrUnauthorized : goa.Message → goa.ErrorResponse :=
  goa.NewErrorClass "unauthorized" 401

/-- An `oauth2Error` seen through the interface `Error`. -/
def oauth2Error.toError (e : oauth2Error) : oauth2.Error :=
  { Code := e.Code, Description := e.Description, URI := e.URI, Error := e.Error }

/-- The function `NewError`. -/
def NewError (code : ErrorCode) (description uri : String) : Error :=
  (oauth2Error.mk code description uri).toError

/-- The function `errorToMedia`. -/
def errorToMedia (e : error) : app.OAuth2ErrorMedia :=
  match e with
  | .other _ => { Error := "invalid_request" }
  | .implementsError err =>
    let m : app.OAuth2ErrorMedia := { Error := err.Code }
    let m := if err.Description ≠ "" then { m with ErrorDescription := some err.Description } else m
    let m := if err.URI ≠ "" then { m with ErrorURI := some err.URI } else m
    m

def MissingClientID : app.OAuth2ErrorMedia :=
  errorToMedia (.implementsError (NewError ErrInvalidRequest "missing client ID" ""))

def MissingCode : app.OAuth2ErrorMedia :=
  errorToMedia (.implementsError (NewError ErrInvalidRequest "missing authorization code" ""))

def BadResponseType : app.OAuth2ErrorMedia :=
  errorToMedia (.implementsError
    (NewError ErrInvalidGrant "only \"code\" response type is supported" ""))

def MissingRedirect : app.OAuth2ErrorMedia :=
  errorToMedia (.implementsError (NewError ErrInvalidRequest "missing redirect URI" ""))

def InvalidRedirect : app.OAuth2ErrorMedia :=
  errorToMedia (.implementsError
    (NewError ErrInvalidRequest "redirect URI must be a valid absolute URL" ""))

def MalformedBody : app.OAuth2ErrorMedia :=
  errorToMedia (.implementsError (NewError ErrInvalidRequest "malformed body" ""))

def InvalidGrantType : app.OAuth2ErrorMedia :=
  errorToMedia (.implementsError
    (NewError ErrInvalidGrant
      "invalid grant type, must be \"authorization_code\" or \"refresh_token\"" ""))

def MissingRefreshToken : app.OAuth2ErrorMedia :=
  errorToMedia (.implementsError
    (NewError ErrInvalidGrant
      "grant type \"refresh_token\" requires a \"refresh_token\" value" ""))

/-! ## `context.go` -/

/-- A context key: a value of the private type `key`, or a key of another type. -/
inductive ContextKey where
  | key (n : Int)
  | foreign (name : String)
deriving DecidableEq, Repr

def clientIDKey : ContextKey := .key 1

/-- A `context.Context`: the chain of `WithValue` links, the innermost first.
The values under keys of type `key` are strings, `WithClientID` being the only
function that stores them. -/
abbrev Context := List (ContextKey × String)

/-- The method `Context.Value`; `none` is `nil`. -/
def Context.Value (ctx : Context) (k : ContextKey) : Option String :=
  match ctx with
  | [] => none
  | (k1, v) :: parent => if k1 = k then some v else Context.Value parent k

/-- The function `WithClientID`. -/
def WithClientID (ctx : Context) (clientID : String) : Context :=
  (clientIDKey, clientID) :: ctx

/-- The function `ContextClientID`. -/
def ContextClientID (ctx : Context) : String :=
  match ctx.Value clientIDKey with
  | some cid => cid
  | none => ""

/-- A value stored in a context, an `interface{}`: a string, or a value of
another type. -/
inductive ContextValue where
  | string (s : String)
  | other (description : String)
deriving DecidableEq, Repr

/-- A context as `context.WithValue` builds it, with values of any type: the
chain of links, the innermost first. -/
abbrev RawContext := List (ContextKey × ContextValue)

/-- The method `Context.Value` on a context with values of any type. -/
def RawContext.Value (ctx : RawContext) (k : ContextKey) : Option ContextValue :=
  match ctx with
  | [] => none
  | (k1, v) :: parent => if k1 = k then some v else RawContext.Value parent k

/-- The function `WithClientID` on a context with values of any type. -/
def RawContext.WithClientID (ctx : RawContext) (clientID : String) : RawContext :=
  (clientIDKey, .string clientID) :: ctx

/-- The function `ContextClientID` on a context with values of any type; `none`
is the panic of the type assertion `cid.(string)` on a value that is not a
string. -/
def RawContext.ContextClientID (ctx : RawContext) : Option String :=
  match ctx.Value clientIDKey with
  | some (.string cid) => some cid
  | some (.other _) => none
  | none => some ""

/-- The contexts a program can build: from the empty context, by `WithClientID`
and by `context.WithValue` under a key of another type than the private type
`key`, which no other package can name. -/
inductive RawContext.Built : RawContext → Prop where
  | background : RawContext.Built []
  | withClientID (ctx : RawContext) (clientID : String) :
      RawContext.Built ctx → RawContext.Built (ctx.WithClientID clientID)
  | withValue (ctx : RawContext) (name : String) (v : ContextValue) :
      RawContext.Built ctx → RawContext.Built ((ContextKey.foreign name, v) :: ctx)

/-- A context of strings as a context with values of any type. -/
def Context.toRaw (ctx : Context) : RawContext :=
  ctx.map fun kv => (kv.1, ContextValue.string kv.2)

/-! ## `provider.go` -/

/-- What `Provider.Authorize` returns: `(code string, err error)`. -/
structure AuthorizeResult where
  code : String
  err : Option error
deriving DecidableEq, Repr

/-- What `Provider.Exchange` and `Provider.Refresh` return:
`(refreshToken, accessToken string, expiresIn int, err error)`. -/
structure TokenResult where
  refreshToken : String
  accessToken : String
  expiresIn : Int
  err : Option error
deriving DecidableEq, Repr

/-- The interface `Provider`, the backend supplied by the embedding application. -/
structure Provider where
  Authorize : (clientID scope redirectURI : String) → AuthorizeResult
  Exchange : (clientID code redirectURI : String) → TokenResult
  Refresh : (refreshToken scope : String) → TokenResult
  Authenticate : (clientID clientSecret : String) → Option error

/-- A call of a method of the backend, with its arguments. -/
inductive Call where
  | Authorize (clientID scope redirectURI : String)
  | Exchange (clientID code redirectURI : String)
  | Refresh (refreshToken scope : String)
  | Authenticate (clientID clientSecret : String)
deriving DecidableEq, Repr

/-- The body handed to `Service.Send`. -/
inductive Body where
  | null
  | errorMedia (m : app.OAuth2ErrorMedia)
  | tokenMedia (m : app.TokenMedia)
deriving DecidableEq, Repr

/-- What a flow has done when it returns: the headers of the response writer,
the status and body it sent, and the calls it made to the backend, in order. -/
structure Outcome where
  Header : http.Header
  Status : Nat
  Body : Body
  Calls : List Call
deriving DecidableEq, Repr

/-- The struct `ProviderController`. -/
structure ProviderController where
  provider : Provider

/-- The call `c.Service.Send(ctx, code, body)`: the status and the body are sent
on the response writer; `calls` are the backend calls made before it. -/
def ProviderController.Send (_c : ProviderController) (_ctx : Context)
    (rw : http.ResponseWriter) (calls : List Call) (code : Nat) (body : Body) : Outcome :=
  { Header := rw.Header, Status := code, Body := body, Calls := calls }

/-- The method `ProviderController.Authorize`. -/
def ProviderController.Authorize (c : ProviderController) (ctx : Context)
    (rw : http.ResponseWriter) (req : http.Request) : Outcome :=
  let query := req.URL.Query
  let clientID := query.Get "client_id"
  let responseType := query.Get "response_type"
  let redirectURI := query.Get "redirect_uri"
  let scope := query.Get "scope"
  let state := query.Get "state"
  -- Ensure there is a client identifier
  if clientID = "" then
    c.Send ctx rw [] http.StatusBadRequest (.errorMedia MissingClientID)
  -- Validate grant type
  else if responseType ≠ "code" then
    c.Send ctx rw [] http.StatusBadRequest (.errorMedia BadResponseType)
  -- Ensure there is a redirect URI
  else if redirectURI = "" then
    c.Send ctx rw [] http.StatusBadRequest (.errorMedia MissingRedirect)
  else
    -- Validate redirect URI
    match url.Parse redirectURI with
    | none => c.Send ctx rw [] http.StatusBadRequest (.errorMedia InvalidRedirect)
    | some u =>
      if u.Scheme = "" ∨ u.Host = "" then
        c.Send ctx rw [] http.StatusBadRequest (.errorMedia InvalidRedirect)
      else
        -- Retrieve auth code
        let calls := [Call.Authorize clientID scope redirectURI]
        let r := c.provider.Authorize clientID scope redirectURI
        match r.err with
        | some err => c.Send ctx rw calls http.StatusBadRequest (.errorMedia (errorToMedia err))
        | none =>
          -- Write code to URL query
          let q := u.Query
          let q := q.Set "code" r.code
          -- Keep state originally provided by client if any
          let q := if state ≠ "" then q.Set "state" state else q
          let u := { u with RawQuery := q.Encode }
          let rw := { rw with Header := rw.Header.Set "Location" u.String }
          c.Send ctx rw calls http.StatusFound .null

/-- The method `ProviderController.exchange`. -/
def ProviderController.exchange (c : ProviderController) (ctx : Context)
    (rw : http.ResponseWriter) (code redirectURI : Option String) : Outcome :=
  -- Ensure there is a client identifier
  let clientID := ContextClientID ctx
  if clientID = "" then
    c.Send ctx rw [] http.StatusBadRequest (.errorMedia MissingClientID)
  else
    -- Ensure there is a code
    match code with
    | none => c.Send ctx rw [] http.StatusBadRequest (.errorMedia MissingCode)
    | some code =>
      -- Ensure there is a redirect URI
      match redirectURI with
      | none => c.Send ctx rw [] http.StatusBadRequest (.errorMedia MissingRedirect)
      | some redirectURI =>
        -- Validate redirect URI
        match url.Parse redirectURI with
        | none => c.Send ctx rw [] http.StatusBadRequest (.errorMedia InvalidRedirect)
        | some u =>
          if u.Scheme = "" ∨ u.Host = "" then
            c.Send ctx rw [] http.StatusBadRequest (.errorMedia InvalidRedirect)
          else
            -- Retrieve tokens code
            let calls := [Call.Exchange clientID code redirectURI]
            let r := c.provider.Exchange clientID code redirectURI
            match r.err with
            | some err =>
              c.Send ctx rw calls http.StatusBadRequest (.errorMedia (errorToMedia err))
            | none =>
              let m : app.TokenMedia := { AccessToken := r.accessToken, TokenType := "Bearer" }
              let m := if r.refreshToken ≠ "" then { m with RefreshToken := some r.refreshToken } else m
              let m := if r.expiresIn ≠ 0 then { m with ExpiresIn := some r.expiresIn } else m
              let rw := { rw with Header := rw.Header.Set "Content-Type" "application/json" }
              c.Send ctx rw calls http.StatusOK (.tokenMedia m)

/-- The method `ProviderController.refresh`. -/
def ProviderController.refresh (c : ProviderController) (ctx : Context)
    (rw : http.ResponseWriter) (refreshToken scope : Option String) : Outcome :=
  -- Ensure there is a refresh token
  match refreshToken with
  | none => c.Send ctx rw [] http.StatusBadRequest (.errorMedia MissingRefreshToken)
  | some refreshToken =>
    -- Retrieve tokens
    let s : String := match scope with
      | some scope => scope
      | none => ""
    let calls := [Call.Refresh refreshToken s]
    let r := c.provider.Refresh refreshToken s
    match r.err with
    | some err => c.Send ctx rw calls http.StatusBadRequest (.errorMedia (errorToMedia err))
    | none =>
      let m : app.TokenMedia := { AccessToken := r.accessToken, TokenType := "Bearer" }
      let m := if r.refreshToken ≠ "" then { m with RefreshToken := some r.refreshToken } else m
      let m := if r.expiresIn ≠ 0 then { m with ExpiresIn := some r.expiresIn } else m
      let m := if scope ≠ none then { m with Scope := scope } else m
      let rw := { rw with Header := rw.Header.Set "Content-Type" "application/json" }
      c.Send ctx rw calls http.StatusOK (.tokenMedia m)

/-- The method `ProviderController.GetToken`. -/
def ProviderController.GetToken (c : ProviderController) (ctx : Context)
    (rw : http.ResponseWriter) (grantType : String)
    (code redirectURI refreshToken scope : Option String) : Outcome :=
  if grantType = "authorization_code" then c.exchange ctx rw code redirectURI
  else if grantType = "refresh_token" then c.refresh ctx rw refreshToken scope
  else c.Send ctx rw [] http.StatusBadRequest (.errorMedia InvalidGrantType)

/-- The type `goa.Handler`; `α` is what a handler returns and has done. -/
abbrev goa.Handler (α : Type) := Context → http.ResponseWriter → http.Request → α

/-- What the handler built by the middleware returns: an error of its own, or
what the next handler returned. -/
inductive GateReturn (α : Type) where
  | err (e : goa.ErrorResponse)
  | next (returned : α)
deriving DecidableEq, Repr

/-- What the handler built by the middleware has done when it returns: the
calls it made to the backend, the invocations of the next handler with their
arguments, both in order, and what it returns. -/
structure GateOutcome (α : Type) where
  Calls : List Call
  Next : List (Context × http.ResponseWriter × http.Request)
  Returned : GateReturn α

/-- The function `NewOAuth2ClientBasicAuthMiddleware`: the middleware of a
provider, applied to the next handler `h`. -/
def NewOAuth2ClientBasicAuthMiddleware {α : Type} (provider : Provider) (h : goa.Handler α) :
    goa.Handler (GateOutcome α) :=
  fun ctx rw req =>
    -- Retrieve basic auth info
    match req.BasicAuth with
    | none => { Calls := [], Next := [], Returned := .err (ErrUnauthorized (.text "missing auth")) }
    | some (clientID, clientSecret) =>
      -- Validate creds
      match provider.Authenticate clientID clientSecret with
      | some err =>
        { Calls := [Call.Authenticate clientID clientSecret], Next := [],
          Returned := .err (ErrUnauthorized (.err err)) }
      | none =>
        -- Store client ID in context and proceed
        let ctx := WithClientID ctx clientID
        { Calls := [Call.Authenticate clientID clientSecret], Next := [(ctx, rw, req)],
          Returned := .next (h ctx rw req) }

/-! ## Definitions used in the statements -/

/-- The query values `Authorize` encodes into the redirect: those of the parsed
redirect URI with `code` set, and `state` set when the state is not empty. -/
def redirectQuery (u : url.URL) (code state : String) : url.Values :=
  if state ≠ "" then (u.Query.Set "code" code).Set "state" state else u.Query.Set "code" code

/-- A backend for the examples: it issues the code `ABC123` and the access
token `tok`, and refreshes to the access token `tok2`. -/
def exampleProvider : Provider where
  Authorize := fun _ _ _ => { code := "ABC123", err := none }
  Exchange := fun _ _ _ => { refreshToken := "", accessToken := "tok", expiresIn := 0, err := none }
  Refresh := fun _ _ => { refreshToken := "", accessToken := "tok2", expiresIn := 0, err := none }
  Authenticate := fun _ _ => none

/-- The authorize request of the example: client `c1`, response type `code`,
redirect URI `https://client.example/cb`, state `xyz`. -/
def exampleAuthorizeRequest : http.Request where
  URL := { Path := "/authorize",
           RawQuery := "client_id=c1&response_type=code&redirect_uri=https%3A%2F%2Fclient.example%2Fcb&state=xyz" }

/-- An authorize request that fails the response type check and has no redirect
URI. -/
def exampleBadAuthorizeRequest : http.Request where
  URL := { Path := "/authorize", RawQuery := "client_id=c1&response_type=token" }

/-- An authorize request with a response type other than `code` and no client
id. -/
def exampleNoClientRequest : http.Request where
  URL := { Path := "/authorize", RawQuery := "response_type=token" }

/-- The test `Authorize` and `exchange` apply to a redirect URI
(`err != nil || u.Scheme == "" || u.Host == ""` rejects): it parses, with a
scheme and a host. -/
def absoluteURL (redirectURI : String) : Bool :=
  match url.Parse redirectURI with
  | some u => u.Scheme ≠ "" && u.Host ≠ ""
  | none => false

/-- The token media `exchange` and `refresh` build from what the backend
returned: the refresh token is kept when it is not empty, the lifetime when it
is not zero. -/
def tokenMediaOf (r : TokenResult) : app.TokenMedia :=
  { AccessToken := r.accessToken, TokenType := "Bearer",
    RefreshToken := if r.refreshToken ≠ "" then some r.refreshToken else none,
    ExpiresIn := if r.expiresIn ≠ 0 then some r.expiresIn else none }

/-- An authorize request whose redirect URI is the relative `/relative/path`. -/
def exampleRelativeRedirectRequest : http.Request where
  URL := { Path := "/authorize",
           RawQuery := "client_id=c1&response_type=code&redirect_uri=%2Frelative%2Fpath" }

/-- An authorize request with no state whose redirect URI,
`https://client.example/cb?state=abc`, has a `state` parameter of its own. -/
def exampleStateInRedirectRequest : http.Request where
  URL := { Path := "/authorize",
           RawQuery := "client_id=c1&response_type=code&redirect_uri=https%3A%2F%2Fclient.example%2Fcb%3Fstate%3Dabc" }

/-- An authorize request with no state and a redirect URI with no query. -/
def exampleNoStateRequest : http.Request where
  URL := { Path := "/authorize",
           RawQuery := "client_id=c1&response_type=code&redirect_uri=https%3A%2F%2Fclient.example%2Fcb" }

/-- The six error codes of the taxonomy, the constants of `errors.go`. -/
def taxonomy : List ErrorCode :=
  [ErrInvalidRequest, ErrInvalidClient, ErrInvalidGrant, ErrUnauthorizedClient,
   ErrUnsupportedGrantType, ErrInvalidScope]

/-- An error keeps to the taxonomy: when it implements `Error` its code is one of
the six, as the interface asks of `Code` ("must have one of the values defines
by the package constants"). -/
def error.inTaxonomy : error → Prop
  | .implementsError e => e.Code ∈ taxonomy
  | .other _ => True

/-- A backend keeps to the taxonomy: every error its `Authorize`, `Exchange` and
`Refresh` return does. -/
def Provider.inTaxonomy (p : Provider) : Prop :=
  (∀ clientID scope redirectURI err,
      (p.Authorize clientID scope redirectURI).err = some err → err.inTaxonomy)
  ∧ (∀ clientID code redirectURI err,
      (p.Exchange clientID code redirectURI).err = some err → err.inTaxonomy)
  ∧ (∀ refreshToken scope err, (p.Refresh refreshToken scope).err = some err → err.inTaxonomy)

/-- A backend that knows the client `c1` with secret `s3cret` only, and whose
other operations fail: `Authorize` with an error of the taxonomy, `Exchange` as
for an authorization code that was used already, `Refresh` with an error that
does not implement `Error`. -/
def exampleStrictProvider : Provider where
  Authorize := fun _ _ _ =>
    { code := "", err := some (.implementsError
        (NewError ErrUnauthorizedClient "client may not use this grant" "")) }
  Exchange := fun _ _ _ =>
    { refreshToken := "", accessToken := "", expiresIn := 0,
      err := some (.implementsError (NewError ErrInvalidGrant "authorization code already used" "")) }
  Refresh := fun _ _ =>
    { refreshToken := "", accessToken := "", expiresIn := 0,
      err := some (.other "connection refused") }
  Authenticate := fun clientID clientSecret =>
    if clientID = "c1" ∧ clientSecret = "s3cret" then none
    else some (.other "bad credentials")

/-- A backend whose `Exchange` fails with an error that implements `Error` and
has a code outside the taxonomy. -/
def exampleRogueProvider : Provider where
  Authorize := fun _ _ _ => { code := "ABC123", err := none }
  Exchange := fun _ _ _ =>
    { refreshToken := "", accessToken := "", expiresIn := 0,
      err := some (.implementsError (NewError "server_error" "boom" "")) }
  Refresh := fun _ _ => { refreshToken := "", accessToken := "tok2", expiresIn := 0, err := none }
  Authenticate := fun _ _ => none

/-- A token request with the Basic credentials of client `c1`. -/
def exampleTokenRequest : http.Request where
  URL := { Path := "/token" }
  BasicAuth := some ("c1", "s3cret")
  Body := "grant_type=authorization_code&code=ABC123&redirect_uri=https%3A%2F%2Fclient.example%2Fcb"

/-- A token request with Basic credentials the strict backend refuses. -/
def exampleBadSecretRequest : http.Request where
  URL := { Path := "/token" }
  BasicAuth := some ("c1", "guess")
  Body := "grant_type=refresh_token&refresh_token=r1"

/-- A token request with no Basic credentials. -/
def exampleNoAuthRequest : http.Request where
  URL := { Path := "/token" }
  Body := "grant_type=refresh_token&refresh_token=r1"

/-- A token request whose Basic credentials have an empty user name and an
empty password, as the header `Authorization: Basic Og==` gives them. -/
def exampleEmptyClientRequest : http.Request where
  URL := { Path := "/token" }
  BasicAuth := some ("", "")
  Body := "grant_type=authorization_code&code=ABC123&redirect_uri=https%3A%2F%2Fclient.example%2Fcb"

/-- The token handler behind the gate, on a payload already decoded: `GetToken`
of a controller on the fields of the payload. -/
def tokenHandler (c : ProviderController) (grantType : String)
    (code redirectURI refreshToken scope : Option String) : goa.Handler Outcome :=
  fun ctx rw _ => c.GetToken ctx rw grantType code redirectURI refreshToken scope

/-- The token handler behind the gate on a payload: `GetToken` of a controller
on the fields of the payload. -/
def payloadHandler (c : ProviderController) (payload : app.TokenPayload) : goa.Handler Outcome :=
  fun ctx rw _ =>
    c.GetToken ctx rw payload.GrantType payload.Code payload.RedirectURI payload.RefreshToken
      payload.Scope

/-- The answer of `GetToken` to a grant type that is neither of the two: the
payload `InvalidGrantType` sent with 400, with no call to the backend. -/
def invalidGrantTypeOutcome (rw : http.ResponseWriter) : Outcome :=
  { Header := rw.Header, Status := 400, Body := Body.errorMedia InvalidGrantType, Calls := [] }

/-- An authorize request with state `xyz` whose redirect URI,
`https://client.example/cb?code=old&x=1&x=2&state=s0`, has parameters of its
own, a `code` and a `state` among them. -/
def exampleQueryInRedirectRequest : http.Request where
  URL := { Path := "/authorize",
           RawQuery := "client_id=c1&response_type=code&state=xyz&redirect_uri=https%3A%2F%2Fclient.example%2Fcb%3Fcode%3Dold%26x%3D1%26x%3D2%26state%3Ds0" }

/-- A backend whose `Exchange` and `Refresh` succeed with an empty access
token. -/
def exampleEmptyTokenProvider : Provider where
  Authorize := fun _ _ _ => { code := "ABC123", err := none }
  Exchange := fun _ _ _ => { refreshToken := "r1", accessToken := "", expiresIn := 3600, err := none }
  Refresh := fun _ _ => { refreshToken := "", accessToken := "", expiresIn := 0, err := none }
  Authenticate := fun _ _ => none

/-- A backend whose `Exchange` fails with an error of its own that has the
code and the description of the payload `InvalidGrantType`. -/
def exampleEchoProvider : Provider where
  Authorize := fun _ _ _ => { code := "ABC123", err := none }
  Exchange := fun _ _ _ =>
    { refreshToken := "", accessToken := "", expiresIn := 0,
      err := some (.implementsError
        (NewError ErrInvalidGrant
          "invalid grant type, must be \"authorization_code\" or \"refresh_token\"" "")) }
  Refresh := fun _ _ => { refreshToken := "", accessToken := "tok2", expiresIn := 0, err := none }
  Authenticate := fun _ _ => none

/-- The payload of an exchange: grant type `authorization_code`, code `ABC123`,
redirect URI `https://client.example/cb`. -/
def exampleExchangePayload : app.TokenPayload where
  GrantType := "authorization_code"
  Code := some "ABC123"
  RedirectURI := some "https://client.example/cb"

/-- An authorize request whose redirect URI,
`https://client.example/cb?bad=%zz&keep=1`, has a parameter `bad` with an
invalid percent escape. -/
def exampleBadEscapeRedirectRequest : http.Request where
  URL := { Path := "/authorize",
           RawQuery := "client_id=c1&response_type=code&redirect_uri=https%3A%2F%2Fclient.example%2Fcb%3Fbad%3D%25zz%26keep%3D1" }

/-! # Theorems -/

/-! ## The standard library model -/

namespace url

theorem Values.lookup_store_self (v : Values) (key : String) (vs : List String) :
    (Values.store v key vs).lookup key = vs := by
  induction v with
  | nil => simp [Values.store, Values.lookup]
  | cons p rest ih =>
    obtain ⟨k, ws⟩ := p
    by_cases h : k = key
    · simp [Values.store, Values.lookup, h]
    · simp [Values.store, Values.lookup, h, ih]

theorem Values.lookup_store_other (v : Values) (key other : String) (vs : List String)
    (h : other ≠ key) : (Values.store v key vs).lookup other = v.lookup other := by
  induction v with
  | nil => simp [Values.store, Values.lookup, Ne.symm h]
  | cons p rest ih =>
    obtain ⟨k, ws⟩ := p
    by_cases hk : k = key
    · subst hk
      simp [Values.store, Values.lookup, Ne.symm h]
    · by_cases ho : k = other
      · subst ho
        simp [Values.store, Values.lookup, hk]
      · simp [Values.store, Values.lookup, hk, ho, ih]

theorem Values.lookup_Set_self (v : Values) (key value : String) :
    (v.Set key value).lookup key = [value] :=
  Values.lookup_store_self v key [value]

theorem Values.lookup_Set_other (v : Values) (key other value : String) (h : other ≠ key) :
    (v.Set key value).lookup other = v.lookup other :=
  Values.lookup_store_other v key other [value] h

theorem Values.Get_Set_self (v : Values) (key value : String) :
    (v.Set key value).Get key = value := by
  simp [Values.Get, Values.lookup_Set_self]

theorem Parse_empty : Parse "" = some {} := by rfl

theorem upperhex_lt (n : Nat) (h : n < 16) : unhex (upperhex n) = n ∧ ishex (upperhex n) = true := by
  interval_cases n <;> decide

theorem plain_query_byte (c : Char) (h : shouldEscape c .encodeQueryComponent = false) :
    c ≠ '%' ∧ c ≠ '+' ∧ c ≠ '&' ∧ c ≠ '=' ∧ c ≠ ';' ∧ c ≠ ' ' := by
  refine ⟨?_, ?_, ?_, ?_, ?_, ?_⟩ <;> (intro hc; subst hc; revert h; decide)

theorem unescape_escape_query (s : List Char) (hs : isBytes s) :
    unescapeOk .encodeQueryComponent (escape s .encodeQueryComponent) = true
    ∧ unescapeBytes .encodeQueryComponent (escape s .encodeQueryComponent) = s := by
  induction s with
  | nil => simp [escape, unescapeOk, unescapeBytes]
  | cons c rest ih =>
    have hrest : isBytes rest := fun x hx => hs x (List.mem_cons_of_mem _ hx)
    have hc : c.toNat < 256 := hs c (List.mem_cons_self _ _)
    obtain ⟨ih1, ih2⟩ := ih hrest
    by_cases hsp : c = ' '
    · subst hsp
      simp [escape, unescapeOk, unescapeBytes, ih1, ih2]
    · by_cases he : shouldEscape c .encodeQueryComponent = true
      · have h1 := upperhex_lt (c.toNat / 16) (by omega)
        have h2 := upperhex_lt (c.toNat % 16) (by omega)
        have hval : Char.ofNat (c.toNat / 16 * 16 + c.toNat % 16) = c := by
          rw [Nat.div_add_mod']
          exact Char.ofNat_toNat c
        simp [escape, unescapeOk, unescapeBytes, ih1, ih2, hsp, he, h1.1, h1.2, h2.1, h2.2, hval]
      · have he2 : shouldEscape c .encodeQueryComponent = false := by simpa using he
        obtain ⟨p1, p2, -, -, -, -⟩ := plain_query_byte c he2
        simp [escape, unescapeOk, unescapeBytes, ih1, ih2, hsp, he2, p1, p2]

theorem upperhex_isAlphanum (n : Nat) : (upperhex n).isAlphanum = true := by
  by_cases h : n < 16
  · interval_cases n <;> decide
  · have hlen : "0123456789ABCDEF".data.length ≤ n := by
      have : "0123456789ABCDEF".data.length = 16 := by decide
      omega
    simp only [upperhex, List.getD_eq_default _ _ hlen]
    decide

theorem isAlphanum_not_separator (c : Char) (h : c.isAlphanum = true) :
    c ≠ '&' ∧ c ≠ '=' ∧ c ≠ ';' := by
  refine ⟨?_, ?_, ?_⟩ <;> (intro hc; subst hc; revert h; decide)

/-- The escaped form of a query component holds none of the separators of a
query. -/
theorem escape_query_no_separator (s : List Char) :
    ∀ c ∈ escape s .encodeQueryComponent, c ≠ '&' ∧ c ≠ '=' ∧ c ≠ ';' := by
  induction s with
  | nil => simp [escape]
  | cons a rest ih =>
    intro c hc
    by_cases hsp : a = ' '
    · subst hsp
      simp only [escape, and_self, if_true, List.mem_cons] at hc
      rcases hc with hc | hc
      · subst hc
        decide
      · exact ih c hc
    · by_cases he : shouldEscape a .encodeQueryComponent = true
      · simp only [escape, hsp, false_and, if_false, he, if_true, List.mem_cons] at hc
        rcases hc with hc | hc | hc | hc
        · subst hc
          decide
        · subst hc
          exact isAlphanum_not_separator _ (upperhex_isAlphanum _)
        · subst hc
          exact isAlphanum_not_separator _ (upperhex_isAlphanum _)
        · exact ih c hc
      · have he2 : shouldEscape a .encodeQueryComponent = false := by simpa using he
        simp only [escape, hsp, false_and, if_false, he2, Bool.false_eq_true,
          List.mem_cons] at hc
        rcases hc with hc | hc
        · subst hc
          obtain ⟨-, -, p3, p4, p5, -⟩ := plain_query_byte c he2
          exact ⟨p3, p4, p5⟩
        · exact ih c hc

theorem Cut_append_sep (sep : Char) (a b : List Char) (h : sep ∉ a) :
    strings.Cut sep (a ++ sep :: b) = (a, b, true) := by
  induction a with
  | nil => simp [strings.Cut]
  | cons x rest ih =>
    have hx : x ≠ sep := fun hx => h (by simp [hx])
    have hrest : sep ∉ rest := fun hr => h (List.mem_cons_of_mem _ hr)
    simp [strings.Cut, hx, ih hrest]

theorem splitOn_no_sep (sep : Char) (a : List Char) (h : sep ∉ a) :
    strings.splitOn sep a = [a] := by
  induction a with
  | nil => simp [strings.splitOn]
  | cons x rest ih =>
    have hx : x ≠ sep := fun hx => h (by simp [hx])
    have hrest : sep ∉ rest := fun hr => h (List.mem_cons_of_mem _ hr)
    simp [strings.splitOn, hx, ih hrest]

theorem splitOn_ne_nil (sep : Char) (a : List Char) : strings.splitOn sep a ≠ [] := by
  cases a with
  | nil => simp [strings.splitOn]
  | cons x rest =>
    simp only [strings.splitOn]
    cases strings.splitOn sep rest with
    | nil => simp
    | cons p ps => by_cases hx : x = sep <;> simp [hx]

theorem splitOn_append_sep (sep : Char) (a b : List Char) (h : sep ∉ a) :
    strings.splitOn sep (a ++ sep :: b) = a :: strings.splitOn sep b := by
  induction a with
  | nil =>
    simp only [List.nil_append, strings.splitOn]
    cases hb : strings.splitOn sep b with
    | nil => exact absurd hb (splitOn_ne_nil sep b)
    | cons p ps => simp
  | cons x rest ih =>
    have hx : x ≠ sep := fun hx => h (by simp [hx])
    have hrest : sep ∉ rest := fun hr => h (List.mem_cons_of_mem _ hr)
    simp [strings.splitOn, hx, ih hrest]

theorem foldl_addPiece (buf : List Char) (ps : List (List Char)) (hbuf : buf ≠ []) :
    ps.foldl addPiece buf = buf ++ (ps.map fun q => '&' :: q).flatten := by
  induction ps generalizing buf with
  | nil => simp
  | cons p rest ih =>
    have hstep : addPiece buf p = buf ++ '&' :: p := by simp [addPiece, hbuf]
    rw [List.foldl_cons, hstep, ih _ (by simp)]
    simp

theorem foldl_addPiece_nil (ps : List (List Char)) (hps : ∀ p ∈ ps, p ≠ []) :
    ps.foldl addPiece [] = joinPieces ps := by
  cases ps with
  | nil => rfl
  | cons p rest =>
    have hp : p ≠ [] := hps p (List.mem_cons_self _ _)
    simp only [List.foldl, addPiece, if_true, joinPieces]
    exact foldl_addPiece p rest hp

theorem splitOn_join (p : List Char) (ps : List (List Char))
    (hp : '&' ∉ p) (hps : ∀ q ∈ ps, '&' ∉ q) :
    strings.splitOn '&' (p ++ (ps.map fun q => '&' :: q).flatten) = p :: ps := by
  induction ps generalizing p with
  | nil => simpa using splitOn_no_sep '&' p hp
  | cons q rest ih =>
    have hq : '&' ∉ q := hps q (List.mem_cons_self _ _)
    have hrest : ∀ r ∈ rest, '&' ∉ r := fun r hr => hps r (List.mem_cons_of_mem _ hr)
    simp only [List.map_cons, List.flatten_cons, List.cons_append]
    rw [splitOn_append_sep '&' p _ hp, ih q hq hrest]

theorem encodePair_data (keyEscaped buf value : String) :
    (encodePair keyEscaped buf value).data
      = addPiece buf.data (keyEscaped.data ++ '=' :: (QueryEscape value).data) := by
  by_cases h : buf = ""
  · subst h
    simp [encodePair, addPiece, String.data_append]
  · have hd : buf.data ≠ [] := fun hd => h (String.ext hd)
    simp [encodePair, addPiece, h, hd, String.data_append]

theorem foldl_encodePair_data (key : String) (xs : List String) (buf : String) :
    (xs.foldl (encodePair (QueryEscape key)) buf).data
      = ((xs.map fun x => (key, x)).map pieceOf).foldl addPiece buf.data := by
  induction xs generalizing buf with
  | nil => rfl
  | cons x rest ih =>
    simp only [List.foldl_cons, List.map_cons, ih, encodePair_data, pieceOf]

theorem foldl_keys_data (v : Values) (ks : List String) (buf : String) :
    (ks.foldl (fun buf k => (v.lookup k).foldl (encodePair (QueryEscape k)) buf) buf).data
      = ((pairsOf v ks).map pieceOf).foldl addPiece buf.data := by
  induction ks generalizing buf with
  | nil => rfl
  | cons k rest ih =>
    simp only [List.foldl_cons, pairsOf, List.map_append, List.foldl_append, ih,
      foldl_encodePair_data]

theorem pieceOf_ne_nil (p : String × String) : pieceOf p ≠ [] := by
  simp [pieceOf]

theorem pieceOf_no_amp (p : String × String) : '&' ∉ pieceOf p := by
  intro h
  simp only [pieceOf, QueryEscape, List.mem_append, List.mem_cons] at h
  rcases h with h | h | h
  · exact (escape_query_no_separator _ _ h).1 rfl
  · exact absurd h (by decide)
  · exact (escape_query_no_separator _ _ h).1 rfl

theorem pieceOf_no_semicolon (p : String × String) : ';' ∉ pieceOf p := by
  intro h
  simp only [pieceOf, QueryEscape, List.mem_append, List.mem_cons] at h
  rcases h with h | h | h
  · exact (escape_query_no_separator _ _ h).2.2 rfl
  · exact absurd h (by decide)
  · exact (escape_query_no_separator _ _ h).2.2 rfl

/-- The encoded query as the joined pieces of its pairs. -/
theorem Encode_data (v : Values) :
    v.Encode.data = joinPieces ((pairsOf v (strings.sort (v.map Prod.fst))).map pieceOf) := by
  unfold Values.Encode
  rw [foldl_keys_data]
  exact foldl_addPiece_nil _ (by
    intro p hp
    obtain ⟨q, -, rfl⟩ := List.mem_map.1 hp
    exact pieceOf_ne_nil q)

theorem QueryUnescape_QueryEscape (s : String) (hs : isBytes s.data) :
    QueryUnescape (QueryEscape s).data = some s := by
  obtain ⟨h1, h2⟩ := unescape_escape_query s.data hs
  simp [QueryUnescape, QueryEscape, unescape, h1, h2]

theorem parseQueryPiece_pieceOf (m : Values) (p : String × String)
    (h1 : isBytes p.1.data) (h2 : isBytes p.2.data) :
    parseQueryPiece m (pieceOf p) = addPair m p := by
  have hsemi : (pieceOf p).contains ';' = false := by
    have := pieceOf_no_semicolon p
    simpa using this
  have hne := pieceOf_ne_nil p
  have hcut : strings.Cut '=' (pieceOf p) = ((QueryEscape p.1).data, (QueryEscape p.2).data, true) :=
    Cut_append_sep '=' _ _ (fun h => (escape_query_no_separator _ _ h).2.1 rfl)
  simp only [parseQueryPiece, hsemi, hne, hcut, QueryUnescape_QueryEscape _ h1,
    QueryUnescape_QueryEscape _ h2, addPair]
  simp

theorem foldl_parseQueryPiece_pieces (m : Values) (ps : List (String × String))
    (hps : ∀ p ∈ ps, isBytes p.1.data ∧ isBytes p.2.data) :
    (ps.map pieceOf).foldl parseQueryPiece m = ps.foldl addPair m := by
  induction ps generalizing m with
  | nil => rfl
  | cons p rest ih =>
    have hp := hps p (List.mem_cons_self _ _)
    simp only [List.map_cons, List.foldl_cons, parseQueryPiece_pieceOf m p hp.1 hp.2]
    exact ih _ (fun q hq => hps q (List.mem_cons_of_mem _ hq))

/-- Parsing an encoded query adds its pairs, in their order, to the empty map. -/
theorem ParseQuery_Encode_pairs (v : Values)
    (hv : ∀ p ∈ pairsOf v (strings.sort (v.map Prod.fst)), isBytes p.1.data ∧ isBytes p.2.data) :
    ParseQuery v.Encode
      = (pairsOf v (strings.sort (v.map Prod.fst))).foldl addPair [] := by
  unfold ParseQuery
  rw [Encode_data, ← foldl_parseQueryPiece_pieces [] _ hv]
  cases hps : pairsOf v (strings.sort (v.map Prod.fst)) with
  | nil => simp [joinPieces, strings.splitOn, parseQueryPiece]
  | cons p rest =>
    simp only [List.map_cons, joinPieces]
    rw [splitOn_join (pieceOf p) (rest.map pieceOf) (pieceOf_no_amp p) (by
      intro q hq
      obtain ⟨r, -, rfl⟩ := List.mem_map.1 hq
      exact pieceOf_no_amp r)]

theorem lookup_addPair (m : Values) (p : String × String) (key : String) :
    (addPair m p).lookup key
      = if p.1 = key then m.lookup key ++ [p.2] else m.lookup key := by
  by_cases h : p.1 = key
  · subst h
    simp [addPair, Values.Add, Values.lookup_store_self]
  · have h2 : key ≠ p.1 := fun h2 => h h2.symm
    simp [addPair, Values.Add, h, Values.lookup_store_other _ _ _ _ h2]

theorem lookup_foldl_addPair (m : Values) (ps : List (String × String)) (key : String) :
    (ps.foldl addPair m).lookup key
      = m.lookup key ++ (ps.filter fun p => p.1 = key).map Prod.snd := by
  induction ps generalizing m with
  | nil => simp
  | cons p rest ih =>
    rw [List.foldl_cons, ih, lookup_addPair]
    by_cases h : p.1 = key
    · simp [h, List.filter_cons]
    · simp [h, List.filter_cons]

theorem lookup_eq_nil_of_not_mem (v : Values) (key : String) (h : key ∉ v.map Prod.fst) :
    v.lookup key = [] := by
  induction v with
  | nil => rfl
  | cons p rest ih =>
    obtain ⟨k, vs⟩ := p
    have hk : k ≠ key := fun hk => h (by simp [hk])
    have hrest : key ∉ rest.map Prod.fst := fun hr => h (by simp at hr ⊢; exact Or.inr hr)
    simp [Values.lookup, hk, ih hrest]

theorem filter_pairsOf (v : Values) (ks : List String) (key : String) (hks : ks.Nodup) :
    ((pairsOf v ks).filter fun p => p.1 = key).map Prod.snd
      = if key ∈ ks then v.lookup key else [] := by
  induction ks with
  | nil => simp [pairsOf]
  | cons k rest ih =>
    have hk : k ∉ rest := (List.nodup_cons.1 hks).1
    have hrest : rest.Nodup := (List.nodup_cons.1 hks).2
    simp only [pairsOf, List.filter_append, List.map_append, ih hrest]
    by_cases h : k = key
    · subst h
      have hall : ((v.lookup k).map fun x => (k, x)).filter (fun p => p.1 = k)
          = (v.lookup k).map fun x => (k, x) := by
        apply List.filter_eq_self.2
        intro p hp
        obtain ⟨x, -, rfl⟩ := List.mem_map.1 hp
        simp
      simp [hall, hk, Function.comp_def]
    · have hnone : ((v.lookup k).map fun x => (k, x)).filter (fun p => p.1 = key) = [] := by
        apply List.filter_eq_nil_iff.2
        intro p hp
        obtain ⟨x, -, rfl⟩ := List.mem_map.1 hp
        simpa using h
      have hne : key ≠ k := fun hk2 => h hk2.symm
      simp [hnone, hne]

theorem insertSorted_perm (k : String) (xs : List String) :
    (strings.insertSorted k xs).Perm (k :: xs) := by
  induction xs with
  | nil => exact List.Perm.refl _
  | cons x rest ih =>
    by_cases h : strings.le k.data x.data = true
    · simp [strings.insertSorted, h]
    · simp only [strings.insertSorted, h, if_false]
      exact ((List.Perm.cons x ih).trans (List.Perm.swap k x rest))

theorem sort_perm (xs : List String) : (strings.sort xs).Perm xs := by
  induction xs with
  | nil => exact List.Perm.refl _
  | cons x rest ih =>
    exact (insertSorted_perm x (strings.sort rest)).trans (List.Perm.cons x ih)

theorem mem_lookup (v : Values) (key x : String) (h : x ∈ v.lookup key) :
    ∃ p ∈ v, p.1 = key ∧ x ∈ p.2 := by
  induction v with
  | nil => simp [Values.lookup] at h
  | cons p rest ih =>
    obtain ⟨k, vs⟩ := p
    by_cases hk : k = key
    · simp only [Values.lookup, hk, if_true] at h
      exact ⟨(k, vs), List.mem_cons_self _ _, hk, h⟩
    · simp only [Values.lookup, hk, if_false] at h
      obtain ⟨q, hq, hq2⟩ := ih h
      exact ⟨q, List.mem_cons_of_mem _ hq, hq2⟩

/-- Reading back an encoded query: every key has in `ParseQuery (Encode v)` the
values it has in `v`. -/
theorem ParseQuery_Encode (v : Values) (hv : v.wellFormed) (key : String) :
    (ParseQuery v.Encode).lookup key = v.lookup key := by
  have hperm := sort_perm (v.map Prod.fst)
  have hnodup : (strings.sort (v.map Prod.fst)).Nodup := hperm.nodup_iff.2 hv.1
  have hpairs : ∀ p ∈ pairsOf v (strings.sort (v.map Prod.fst)),
      isBytes p.1.data ∧ isBytes p.2.data := by
    have hgen : ∀ ks : List String, (∀ k ∈ ks, k ∈ v.map Prod.fst) →
        ∀ p ∈ pairsOf v ks, isBytes p.1.data ∧ isBytes p.2.data := by
      intro ks
      induction ks with
      | nil => intro _ p hp; simp [pairsOf] at hp
      | cons k rest ih =>
        intro hks p hp
        simp only [pairsOf, List.mem_append] at hp
        rcases hp with hp | hp
        · obtain ⟨x, hx, rfl⟩ := List.mem_map.1 hp
          obtain ⟨q, hq, hq1, hq2⟩ := mem_lookup v k x hx
          have hb := hv.2 q hq
          exact ⟨hq1 ▸ hb.1, hb.2 x hq2⟩
        · exact ih (fun k2 hk2 => hks k2 (List.mem_cons_of_mem _ hk2)) p hp
    exact hgen _ (fun k hk => hperm.mem_iff.1 hk)
  rw [ParseQuery_Encode_pairs v hpairs, lookup_foldl_addPair, filter_pairsOf v _ key hnodup]
  by_cases hmem : key ∈ strings.sort (v.map Prod.fst)
  · simp [hmem, Values.lookup]
  · have hmem2 : key ∉ v.map Prod.fst := fun h => hmem (hperm.mem_iff.2 h)
    simp [hmem, Values.lookup, lookup_eq_nil_of_not_mem v key hmem2]

theorem toNat_ofNat_byte (n : Nat) (h : n < 256) : (Char.ofNat n).toNat < 256 := by
  interval_cases n <;> decide

theorem unhex_le (c : Char) : unhex c ≤ 15 := by
  unfold unhex
  split
  · rename_i h
    have h2 : c.toNat ≤ '9'.toNat := h.2
    have h3 : '9'.toNat = 57 := by decide
    have h4 : '0'.toNat = 48 := by decide
    omega
  · split
    · rename_i h
      have h2 : c.toNat ≤ 'f'.toNat := h.2
      have h3 : 'f'.toNat = 102 := by decide
      have h4 : 'a'.toNat = 97 := by decide
      omega
    · split
      · rename_i h
        have h2 : c.toNat ≤ 'F'.toNat := h.2
        have h3 : 'F'.toNat = 70 := by decide
        have h4 : 'A'.toNat = 65 := by decide
        omega
      · omega

theorem unescapeBytes_isBytes (mode : encoding) (s : List Char) (hs : isBytes s) :
    isBytes (unescapeBytes mode s) := by
  induction s using unescapeBytes.induct mode with
  | case1 => simp [unescapeBytes, isBytes]
  | case2 a b rest ih =>
    intro c hc
    simp only [unescapeBytes, List.mem_cons] at hc
    rcases hc with hc | hc
    · subst hc
      have ha := unhex_le a
      have hb := unhex_le b
      exact toNat_ofNat_byte _ (by omega)
    · exact ih (fun x hx => hs x (by simp [hx])) c hc
  | case3 rest ih =>
    intro c hc
    simp only [unescapeBytes, List.mem_cons] at hc
    rcases hc with hc | hc
    · subst hc
      split <;> decide
    · exact ih (fun x hx => hs x (by simp [hx])) c hc
  | case4 a rest h1 h2 ih =>
    intro c hc
    rw [unescapeBytes] at hc
    · simp only [List.mem_cons] at hc
      rcases hc with hc | hc
      · subst hc
        exact hs c (by simp)
      · exact ih (fun x hx => hs x (by simp [hx])) c hc
    all_goals assumption

theorem Cut_subset (sep : Char) (s : List Char) :
    (∀ c ∈ (strings.Cut sep s).1, c ∈ s) ∧ (∀ c ∈ (strings.Cut sep s).2.1, c ∈ s) := by
  induction s with
  | nil => simp [strings.Cut]
  | cons x rest ih =>
    by_cases hx : x = sep
    · simp [strings.Cut, hx]
      intro c hc
      exact Or.inr hc
    · simp only [strings.Cut, hx, if_false, List.mem_cons]
      constructor
      · intro c hc
        rcases hc with hc | hc
        · exact Or.inl hc
        · exact Or.inr (ih.1 c hc)
      · intro c hc
        exact Or.inr (ih.2 c hc)

theorem splitOn_subset (sep : Char) (s : List Char) :
    ∀ piece ∈ strings.splitOn sep s, ∀ c ∈ piece, c ∈ s := by
  induction s with
  | nil => simp [strings.splitOn]
  | cons x rest ih =>
    intro piece hpiece c hc
    simp only [strings.splitOn] at hpiece
    cases hsplit : strings.splitOn sep rest with
    | nil => exact absurd hsplit (splitOn_ne_nil sep rest)
    | cons p ps =>
      rw [hsplit] at hpiece ih
      by_cases hx : x = sep
      · simp only [hx, if_true, List.mem_cons] at hpiece
        rcases hpiece with h | h | h
        · subst h
          simp at hc
        · subst h
          exact List.mem_cons_of_mem _ (ih piece (List.mem_cons_self _ _) c hc)
        · exact List.mem_cons_of_mem _ (ih piece (List.mem_cons_of_mem _ h) c hc)
      · simp only [hx, if_false, List.mem_cons] at hpiece
        rcases hpiece with h | h
        · subst h
          simp only [List.mem_cons] at hc
          rcases hc with hc | hc
          · subst hc
            exact List.mem_cons_self _ _
          · exact List.mem_cons_of_mem _ (ih p (List.mem_cons_self _ _) c hc)
        · exact List.mem_cons_of_mem _ (ih piece (List.mem_cons_of_mem _ h) c hc)

theorem mem_store (v : Values) (key : String) (vs : List String) (p : String × List String)
    (hp : p ∈ Values.store v key vs) : p = (key, vs) ∨ p ∈ v := by
  induction v with
  | nil =>
    simp only [Values.store, List.mem_singleton] at hp
    exact Or.inl hp
  | cons q rest ih =>
    obtain ⟨k, ws⟩ := q
    by_cases hk : k = key
    · simp only [Values.store, hk, if_true, List.mem_cons] at hp
      rcases hp with hp | hp
      · exact Or.inl hp
      · exact Or.inr (List.mem_cons_of_mem _ hp)
    · simp only [Values.store, hk, if_false, List.mem_cons] at hp
      rcases hp with hp | hp
      · exact Or.inr (hp ▸ List.mem_cons_self _ _)
      · rcases ih hp with h | h
        · exact Or.inl h
        · exact Or.inr (List.mem_cons_of_mem _ h)

theorem keys_store (v : Values) (key : String) (vs : List String) :
    (Values.store v key vs).map Prod.fst
      = if key ∈ v.map Prod.fst then v.map Prod.fst else v.map Prod.fst ++ [key] := by
  induction v with
  | nil => simp [Values.store]
  | cons q rest ih =>
    obtain ⟨k, ws⟩ := q
    by_cases hk : k = key
    · simp [Values.store, hk]
    · have hk2 : key ≠ k := fun h => hk h.symm
      by_cases hmem : key ∈ rest.map Prod.fst
      · simp only [Values.store, hk, if_false, List.map_cons, ih, hmem, if_true, List.mem_cons,
          or_true]
      · simp only [Values.store, hk, if_false, List.map_cons, ih, hmem, List.mem_cons, hk2,
          or_self, List.cons_append]

theorem store_wellFormed (v : Values) (key : String) (vs : List String)
    (hv : v.wellFormed) (hkey : isBytes key.data) (hvs : ∀ x ∈ vs, isBytes x.data) :
    (Values.store v key vs).wellFormed := by
  constructor
  · rw [keys_store]
    by_cases hmem : key ∈ v.map Prod.fst
    · simpa [hmem] using hv.1
    · simp only [hmem, if_false]
      exact List.nodup_append.2 ⟨hv.1, List.nodup_singleton _, by
        intro a ha hb
        simp only [List.mem_singleton] at hb
        exact hmem (hb ▸ ha)⟩
  · intro p hp
    rcases mem_store v key vs p hp with h | h
    · subst h
      exact ⟨hkey, hvs⟩
    · exact hv.2 p h

theorem Set_wellFormed (v : Values) (key value : String)
    (hv : v.wellFormed) (hkey : isBytes key.data) (hvalue : isBytes value.data) :
    (v.Set key value).wellFormed :=
  store_wellFormed v key [value] hv hkey (by
    intro x hx
    simp only [List.mem_singleton] at hx
    exact hx ▸ hvalue)

theorem Add_wellFormed (v : Values) (key value : String)
    (hv : v.wellFormed) (hkey : isBytes key.data) (hvalue : isBytes value.data) :
    (v.Add key value).wellFormed :=
  store_wellFormed v key _ hv hkey (by
    intro x hx
    simp only [List.mem_append, List.mem_singleton] at hx
    rcases hx with hx | hx
    · obtain ⟨p, hp, -, hxp⟩ := mem_lookup v key x hx
      exact (hv.2 p hp).2 x hxp
    · exact hx ▸ hvalue)

theorem QueryUnescape_isBytes (s : List Char) (t : String) (hs : isBytes s)
    (h : QueryUnescape s = some t) : isBytes t.data := by
  unfold QueryUnescape unescape at h
  by_cases hok : unescapeOk .encodeQueryComponent s = true
  · simp only [hok, if_true, Option.map_some', Option.some.injEq] at h
    subst h
    exact unescapeBytes_isBytes _ s hs
  · simp [hok] at h

theorem parseQueryPiece_wellFormed (m : Values) (piece : List Char)
    (hm : m.wellFormed) (hpiece : isBytes piece) : (parseQueryPiece m piece).wellFormed := by
  unfold parseQueryPiece
  split
  · exact hm
  · split
    · exact hm
    · have hcut := Cut_subset '=' piece
      simp only []
      cases hkey : QueryUnescape (strings.Cut '=' piece).1 with
      | none => exact hm
      | some key =>
        cases hvalue : QueryUnescape (strings.Cut '=' piece).2.1 with
        | none => exact hm
        | some value =>
          exact Add_wellFormed m key value hm
            (QueryUnescape_isBytes _ key (fun c hc => hpiece c (hcut.1 c hc)) hkey)
            (QueryUnescape_isBytes _ value (fun c hc => hpiece c (hcut.2 c hc)) hvalue)

/-- The values parsed from a query of bytes are well formed. -/
theorem ParseQuery_wellFormed (query : String) (hq : isBytes query.data) :
    (ParseQuery query).wellFormed := by
  unfold ParseQuery
  have hgen : ∀ (pieces : List (List Char)) (m : Values), m.wellFormed →
      (∀ piece ∈ pieces, isBytes piece) → (pieces.foldl parseQueryPiece m).wellFormed := by
    intro pieces
    induction pieces with
    | nil => intro m hm _; exact hm
    | cons piece rest ih =>
      intro m hm hp
      exact ih _ (parseQueryPiece_wellFormed m piece hm (hp piece (List.mem_cons_self _ _)))
        (fun q hq2 => hp q (List.mem_cons_of_mem _ hq2))
  exact hgen _ [] ⟨List.nodup_nil, by simp⟩
    (fun piece hpiece c hc => hq c (splitOn_subset '&' _ piece hpiece c hc))

end url

/-! ## The authorize flow -/

/-- What `Authorize` does with a request that passes its four checks: the one
backend call, and on success the redirect. -/
theorem Authorize_valid (c : ProviderController) (ctx : Context) (rw : http.ResponseWriter)
    (req : http.Request) (u : url.URL)
    (hid : req.URL.Query.Get "client_id" ≠ "")
    (hrt : req.URL.Query.Get "response_type" = "code")
    (hparse : url.Parse (req.URL.Query.Get "redirect_uri") = some u)
    (hscheme : u.Scheme ≠ "") (hhost : u.Host ≠ "") :
    c.Authorize ctx rw req =
      let clientID := req.URL.Query.Get "client_id"
      let redirectURI := req.URL.Query.Get "redirect_uri"
      let scope := req.URL.Query.Get "scope"
      let state := req.URL.Query.Get "state"
      let calls := [Call.Authorize clientID scope redirectURI]
      let r := c.provider.Authorize clientID scope redirectURI
      match r.err with
      | some err => c.Send ctx rw calls http.StatusBadRequest (.errorMedia (errorToMedia err))
      | none =>
        let location : url.URL := { u with RawQuery := (redirectQuery u r.code state).Encode }
        c.Send ctx { rw with Header := rw.Header.Set "Location" location.String }
          calls http.StatusFound .null := by
  have hne : req.URL.Query.Get "redirect_uri" ≠ "" := by
    intro h0
    rw [h0, url.Parse_empty] at hparse
    cases hparse
    exact hscheme rfl
  simp only [ProviderController.Authorize, hid, hrt, hne, hparse, hscheme, hhost, redirectQuery]
  simp

theorem http.Header.Get_after_Set (h : http.Header) (key value : String) :
    http.Header.Get (http.Header.Set h key value) key = some value := by
  induction h with
  | nil => simp [http.Header.Set, http.Header.Get]
  | cons p rest ih =>
    obtain ⟨k, v⟩ := p
    by_cases hk : k = key
    · simp [http.Header.Set, http.Header.Get, hk]
    · simp [http.Header.Set, http.Header.Get, hk, ih]

/-- Every key of the query `Authorize` encodes: `code` has the one issued value,
`state` the one supplied value when a state is supplied, and any other key the
values it has in the redirect URI. -/
theorem redirectQuery_lookup (u : url.URL) (code state key : String) :
    (redirectQuery u code state).lookup key =
      if key = "code" then [code]
      else if key = "state" ∧ state ≠ "" then [state]
      else u.Query.lookup key := by
  unfold redirectQuery
  by_cases hs : state = ""
  · by_cases hk : key = "code"
    · simp [hs, hk, url.Values.lookup_Set_self]
    · simp [hs, hk, url.Values.lookup_Set_other]
  · by_cases hk : key = "code"
    · subst hk
      simp [hs, url.Values.lookup_Set_self, url.Values.lookup_Set_other]
    · by_cases hk2 : key = "state"
      · subst hk2
        simp [hs, url.Values.lookup_Set_self]
      · simp [hs, hk, hk2, url.Values.lookup_Set_other]

/-- The values `Authorize` encodes are well formed when the query of the
redirect URI, the code and the state are strings of bytes. -/
theorem redirectQuery_wellFormed (u : url.URL) (code state : String)
    (hu : url.isBytes u.RawQuery.data) (hcode : url.isBytes code.data)
    (hstate : url.isBytes state.data) : (redirectQuery u code state).wellFormed := by
  have hq : u.Query.wellFormed := url.ParseQuery_wellFormed u.RawQuery hu
  have hk1 : url.isBytes "code".data := by decide
  have hk2 : url.isBytes "state".data := by decide
  have h1 := url.Set_wellFormed u.Query "code" code hq hk1 hcode
  unfold redirectQuery
  by_cases hs : state = ""
  · simpa [hs] using h1
  · simpa [hs] using url.Set_wellFormed _ "state" state h1 hk2 hstate

/-- C1. An authorize request with a client id, response type `code` and an
absolute redirect URI, for which the backend issues a code with no error, is
answered 302 with an empty body, and the `Location` header is the text of a URL
that is the parsed redirect URI but for its query, which is re-encoded from
values in which `code` is the issued code, `state` is the supplied state when
that is not empty, and every other key is as in the redirect URI; read back, the
query of that URL has these same values (the strings being strings of bytes).
For client `c1`, redirect URI `https://client.example/cb`, state `xyz` and code
`ABC123` the header is `https://client.example/cb?code=ABC123&state=xyz`. -/
theorem Authorize_success_redirect (c : ProviderController) (ctx : Context)
    (rw : http.ResponseWriter) (req : http.Request) (u : url.URL) (code : String)
    (hid : req.URL.Query.Get "client_id" ≠ "")
    (hrt : req.URL.Query.Get "response_type" = "code")
    (hparse : url.Parse (req.URL.Query.Get "redirect_uri") = some u)
    (hscheme : u.Scheme ≠ "") (hhost : u.Host ≠ "")
    (hbackend : c.provider.Authorize (req.URL.Query.Get "client_id")
        (req.URL.Query.Get "scope") (req.URL.Query.Get "redirect_uri")
      = { code := code, err := none }) :
    (c.Authorize ctx rw req).Status = 302
    ∧ (c.Authorize ctx rw req).Body = Body.null
    ∧ (∃ location : url.URL,
        (c.Authorize ctx rw req).Header.Get "Location" = some location.String
        ∧ location = { u with RawQuery := location.RawQuery }
        ∧ (∃ q : url.Values, location.RawQuery = q.Encode
            ∧ q.Get "code" = code
            ∧ ∀ key : String, q.lookup key =
                if key = "code" then [code]
                else if key = "state" ∧ req.URL.Query.Get "state" ≠ ""
                  then [req.URL.Query.Get "state"]
                else u.Query.lookup key)
        ∧ (url.isBytes u.RawQuery.data → url.isBytes code.data
            → url.isBytes (req.URL.Query.Get "state").data
            → ∀ key : String, location.Query.lookup key =
                if key = "code" then [code]
                else if key = "state" ∧ req.URL.Query.Get "state" ≠ ""
                  then [req.URL.Query.Get "state"]
                else u.Query.lookup key))
    ∧ (req.URL.Query.Get "client_id" = "c1"
        → req.URL.Query.Get "redirect_uri" = "https://client.example/cb"
        → req.URL.Query.Get "state" = "xyz"
        → code = "ABC123"
        → (c.Authorize ctx rw req).Header.Get "Location"
            = some "https://client.example/cb?code=ABC123&state=xyz") := by
  have hout := Authorize_valid c ctx rw req u hid hrt hparse hscheme hhost
  simp only [hbackend] at hout
  rw [hout]
  refine ⟨rfl, rfl,
    ⟨{ u with RawQuery := (redirectQuery u code (req.URL.Query.Get "state")).Encode },
      ?_, rfl, ⟨redirectQuery u code (req.URL.Query.Get "state"), rfl, ?_, ?_⟩, ?_⟩, ?_⟩
  · simp [ProviderController.Send, http.Header.Get_after_Set]
  · simp [url.Values.Get, redirectQuery_lookup]
  · intro key
    exact redirectQuery_lookup u code _ key
  · intro hu hcode hstate key
    have hwf := redirectQuery_wellFormed u code _ hu hcode hstate
    show (url.ParseQuery (redirectQuery u code (req.URL.Query.Get "state")).Encode).lookup key = _
    rw [url.ParseQuery_Encode _ hwf key]
    exact redirectQuery_lookup u code _ key
  · intro _ hredirect hstate hcode
    rw [hredirect] at hparse
    have hu : u = { Scheme := "https", Host := "client.example", Path := "/cb" } := by
      have h0 : url.Parse "https://client.example/cb"
          = some { Scheme := "https", Host := "client.example", Path := "/cb" } := by rfl
      rw [h0] at hparse
      exact (Option.some.inj hparse).symm
    subst hu
    subst hcode
    rw [hstate]
    simp only [ProviderController.Send, http.Header.Get_after_Set]
    rfl

/-- C1, at the request of the example: the `Location` header, and the `code`
and `state` read back from the query of the URL it holds. -/
theorem Authorize_success_redirect_witness :
    (ProviderController.Authorize { provider := exampleProvider } [] {}
        exampleAuthorizeRequest).Status = 302
    ∧ (ProviderController.Authorize { provider := exampleProvider } [] {}
        exampleAuthorizeRequest).Header.Get "Location"
      = some "https://client.example/cb?code=ABC123&state=xyz"
    ∧ ∃ location : url.URL,
        (ProviderController.Authorize { provider := exampleProvider } [] {}
          exampleAuthorizeRequest).Header.Get "Location" = some location.String
        ∧ location.Query.lookup "code" = ["ABC123"]
        ∧ location.Query.lookup "state" = ["xyz"] :=
  have h := Authorize_success_redirect { provider := exampleProvider } [] {}
    exampleAuthorizeRequest { Scheme := "https", Host := "client.example", Path := "/cb" }
    "ABC123" (by decide) (by decide) (by rfl) (by decide) (by decide) (by rfl)
  ⟨h.1, h.2.2.2 (by rfl) (by rfl) (by rfl) rfl,
   h.2.2.1.elim fun location hl =>
    ⟨location, hl.1,
     hl.2.2.2 (by decide) (by decide)
       (by decide) "code",
     hl.2.2.2 (by decide) (by decide)
       (by decide) "state"⟩⟩

/-- The four checks of `Authorize` in their order: the response to a request
that fails one of them. -/
theorem Authorize_invalid (c : ProviderController) (ctx : Context) (rw : http.ResponseWriter)
    (req : http.Request)
    (hfail : req.URL.Query.Get "client_id" = ""
      ∨ req.URL.Query.Get "response_type" ≠ "code"
      ∨ req.URL.Query.Get "redirect_uri" = ""
      ∨ ∀ u, url.Parse (req.URL.Query.Get "redirect_uri") = some u → u.Scheme = "" ∨ u.Host = "") :
    c.Authorize ctx rw req =
      { Header := rw.Header, Status := 400, Calls := [],
        Body := Body.errorMedia
          (if req.URL.Query.Get "client_id" = "" then MissingClientID
           else if req.URL.Query.Get "response_type" ≠ "code" then BadResponseType
           else if req.URL.Query.Get "redirect_uri" = "" then MissingRedirect
           else InvalidRedirect) } := by
  unfold ProviderController.Authorize
  by_cases h1 : req.URL.Query.Get "client_id" = ""
  · simp [h1, ProviderController.Send, http.StatusBadRequest]
  · by_cases h2 : req.URL.Query.Get "response_type" = "code"
    · by_cases h3 : req.URL.Query.Get "redirect_uri" = ""
      · simp [h1, h2, h3, ProviderController.Send, http.StatusBadRequest]
      · have h4 : ∀ u, url.Parse (req.URL.Query.Get "redirect_uri") = some u
            → u.Scheme = "" ∨ u.Host = "" := by
          rcases hfail with h | h | h | h
          · exact absurd h h1
          · exact absurd h2 h
          · exact absurd h h3
          · exact h
        cases hp : url.Parse (req.URL.Query.Get "redirect_uri") with
        | none => simp [h1, h2, h3, hp, ProviderController.Send, http.StatusBadRequest]
        | some u =>
          have h5 := h4 u hp
          simp [h1, h2, h3, hp, h5, ProviderController.Send, http.StatusBadRequest]
    · simp [h1, h2, ProviderController.Send, http.StatusBadRequest]

/-- C2. `Authorize` reports only the first failing check, in the order client
id, response type, redirect URI present, redirect URI absolute: a request that
fails a check is answered 400 with the payload of the first check it fails, the
backend is not called and the headers of the response are left as they were, so
no `Location` is set.  The four payloads carry `invalid_request` "missing client
ID", `invalid_grant` "only "code" response type is supported", `invalid_request`
"missing redirect URI" and `invalid_request` "redirect URI must be a valid
absolute URL". -/
theorem Authorize_first_failing_check (c : ProviderController) (ctx : Context)
    (rw : http.ResponseWriter) (req : http.Request)
    (hfail : req.URL.Query.Get "client_id" = ""
      ∨ req.URL.Query.Get "response_type" ≠ "code"
      ∨ req.URL.Query.Get "redirect_uri" = ""
      ∨ ∀ u, url.Parse (req.URL.Query.Get "redirect_uri") = some u → u.Scheme = "" ∨ u.Host = "") :
    (c.Authorize ctx rw req).Status = 400
    ∧ (c.Authorize ctx rw req).Body = Body.errorMedia
        (if req.URL.Query.Get "client_id" = "" then MissingClientID
         else if req.URL.Query.Get "response_type" ≠ "code" then BadResponseType
         else if req.URL.Query.Get "redirect_uri" = "" then MissingRedirect
         else InvalidRedirect)
    ∧ (c.Authorize ctx rw req).Calls = []
    ∧ (c.Authorize ctx rw req).Header = rw.Header
    ∧ MissingClientID = { Error := "invalid_request",
                          ErrorDescription := some "missing client ID" }
    ∧ BadResponseType = { Error := "invalid_grant",
                          ErrorDescription := some "only \"code\" response type is supported" }
    ∧ MissingRedirect = { Error := "invalid_request",
                          ErrorDescription := some "missing redirect URI" }
    ∧ InvalidRedirect = { Error := "invalid_request",
                          ErrorDescription := some "redirect URI must be a valid absolute URL" } := by
  rw [Authorize_invalid c ctx rw req hfail]
  exact ⟨rfl, rfl, rfl, rfl, by decide, by decide, by decide, by decide⟩

/-- C2, at a request that fails the second check and the third: the second is
reported. -/
theorem Authorize_first_failing_check_witness :
    (ProviderController.Authorize { provider := exampleProvider } [] {}
        exampleBadAuthorizeRequest).Body = Body.errorMedia BadResponseType
    ∧ (ProviderController.Authorize { provider := exampleProvider } [] {}
        exampleBadAuthorizeRequest).Calls = [] :=
  have h := Authorize_first_failing_check { provider := exampleProvider } [] {}
    exampleBadAuthorizeRequest (Or.inr (Or.inl (by decide)))
  ⟨h.2.1, h.2.2.1⟩

/-- C3 as stated fails: a request whose response type is not `code` and which
has no client id is answered with the code `invalid_request`, not
`invalid_grant`. -/
theorem Authorize_bad_response_type_counterexample :
    exampleNoClientRequest.URL.Query.Get "response_type" ≠ "code"
    ∧ (ProviderController.Authorize { provider := exampleProvider } [] {}
        exampleNoClientRequest).Body = Body.errorMedia MissingClientID
    ∧ MissingClientID.Error = "invalid_request"
    ∧ MissingClientID.Error ≠ "invalid_grant" := by
  refine ⟨by decide, by rfl, by decide, by decide⟩

/-- C3, amended. An authorize request with a client id whose response type is
not `code` is answered 400 with the error code `invalid_grant`. -/
theorem Authorize_bad_response_type (c : ProviderController) (ctx : Context)
    (rw : http.ResponseWriter) (req : http.Request)
    (hid : req.URL.Query.Get "client_id" ≠ "")
    (hrt : req.URL.Query.Get "response_type" ≠ "code") :
    (c.Authorize ctx rw req).Status = 400
    ∧ ∃ m : app.OAuth2ErrorMedia,
        (c.Authorize ctx rw req).Body = Body.errorMedia m ∧ m.Error = "invalid_grant" := by
  rw [Authorize_invalid c ctx rw req (Or.inr (Or.inl hrt))]
  refine ⟨rfl, BadResponseType, ?_, by decide⟩
  simp [hid, hrt]

/-- C3 amended, at a request with client `c1` and response type `token`. -/
theorem Authorize_bad_response_type_witness :
    (ProviderController.Authorize { provider := exampleProvider } [] {}
        exampleBadAuthorizeRequest).Status = 400 :=
  (Authorize_bad_response_type { provider := exampleProvider } [] {}
    exampleBadAuthorizeRequest (by decide) (by decide)).1

/-! ## The redirect URI check -/

theorem absoluteURL_eq_false_iff (redirectURI : String) :
    absoluteURL redirectURI = false ↔
      (url.Parse redirectURI = none
        ∨ ∃ u, url.Parse redirectURI = some u ∧ (u.Scheme = "" ∨ u.Host = "")) := by
  unfold absoluteURL
  cases h : url.Parse redirectURI with
  | none => simp
  | some u =>
    by_cases hs : u.Scheme = "" <;> by_cases hh : u.Host = "" <;> simp [hs, hh]

theorem absoluteURL_eq_true_iff (redirectURI : String) :
    absoluteURL redirectURI = true ↔
      ∃ u, url.Parse redirectURI = some u ∧ u.Scheme ≠ "" ∧ u.Host ≠ "" := by
  unfold absoluteURL
  cases h : url.Parse redirectURI with
  | none => simp
  | some u => simp

theorem not_absoluteURL_parse (redirectURI : String) (h : absoluteURL redirectURI = false) :
    ∀ u, url.Parse redirectURI = some u → u.Scheme = "" ∨ u.Host = "" := by
  intro u hu
  rcases (absoluteURL_eq_false_iff redirectURI).1 h with h0 | ⟨v, hv, hbad⟩
  · rw [h0] at hu
    cases hu
  · rw [hv] at hu
    cases hu
    exact hbad

/-! ## The exchange and refresh flows -/

/-- The four checks of `exchange` in their order: the response to a request that
fails one of them. -/
theorem exchange_invalid (c : ProviderController) (ctx : Context) (rw : http.ResponseWriter)
    (code redirectURI : Option String)
    (hfail : ContextClientID ctx = "" ∨ code = none ∨ redirectURI = none
      ∨ ∃ r, redirectURI = some r ∧ absoluteURL r = false) :
    c.exchange ctx rw code redirectURI =
      { Header := rw.Header, Status := 400, Calls := [],
        Body := Body.errorMedia
          (if ContextClientID ctx = "" then MissingClientID
           else if code = none then MissingCode
           else if redirectURI = none then MissingRedirect
           else InvalidRedirect) } := by
  unfold ProviderController.exchange
  by_cases h1 : ContextClientID ctx = ""
  · simp [h1, ProviderController.Send, http.StatusBadRequest]
  · cases code with
    | none => simp [h1, ProviderController.Send, http.StatusBadRequest]
    | some code =>
      cases redirectURI with
      | none => simp [h1, ProviderController.Send, http.StatusBadRequest]
      | some r =>
        have h4 : absoluteURL r = false := by
          rcases hfail with h | h | h | ⟨r1, hr, h⟩
          · exact absurd h h1
          · cases h
          · cases h
          · cases hr
            exact h
        cases hp : url.Parse r with
        | none => simp [h1, hp, ProviderController.Send, http.StatusBadRequest]
        | some u =>
          have h5 := not_absoluteURL_parse r h4 u hp
          simp [h1, hp, h5, ProviderController.Send, http.StatusBadRequest]

/-- What `exchange` does with a request that passes its four checks: the one
backend call, and on success the token media. -/
theorem exchange_valid (c : ProviderController) (ctx : Context) (rw : http.ResponseWriter)
    (code redirectURI : String)
    (hid : ContextClientID ctx ≠ "") (habs : absoluteURL redirectURI = true) :
    c.exchange ctx rw (some code) (some redirectURI) =
      match (c.provider.Exchange (ContextClientID ctx) code redirectURI).err with
      | some err =>
        { Header := rw.Header, Status := 400, Body := Body.errorMedia (errorToMedia err),
          Calls := [Call.Exchange (ContextClientID ctx) code redirectURI] }
      | none =>
        { Header := rw.Header.Set "Content-Type" "application/json", Status := 200,
          Body := Body.tokenMedia
            (tokenMediaOf (c.provider.Exchange (ContextClientID ctx) code redirectURI)),
          Calls := [Call.Exchange (ContextClientID ctx) code redirectURI] } := by
  obtain ⟨u, hp, hs, hh⟩ := (absoluteURL_eq_true_iff redirectURI).1 habs
  unfold ProviderController.exchange
  simp only [hid, hp, hs, hh, ProviderController.Send, http.StatusBadRequest, http.StatusOK,
    tokenMediaOf]
  cases (c.provider.Exchange (ContextClientID ctx) code redirectURI).err with
  | some err => simp
  | none =>
    by_cases h1 : (c.provider.Exchange (ContextClientID ctx) code redirectURI).refreshToken = ""
      <;> by_cases h2 : (c.provider.Exchange (ContextClientID ctx) code redirectURI).expiresIn = 0
      <;> simp [h1, h2]

/-- What `refresh` does with a request that has a refresh token: the one backend
call, and on success the token media with the scope of the caller. -/
theorem refresh_valid (c : ProviderController) (ctx : Context) (rw : http.ResponseWriter)
    (refreshToken : String) (scope : Option String) :
    c.refresh ctx rw (some refreshToken) scope =
      match (c.provider.Refresh refreshToken (scope.getD "")).err with
      | some err =>
        { Header := rw.Header, Status := 400, Body := Body.errorMedia (errorToMedia err),
          Calls := [Call.Refresh refreshToken (scope.getD "")] }
      | none =>
        { Header := rw.Header.Set "Content-Type" "application/json", Status := 200,
          Body := Body.tokenMedia
            { tokenMediaOf (c.provider.Refresh refreshToken (scope.getD "")) with Scope := scope },
          Calls := [Call.Refresh refreshToken (scope.getD "")] } := by
  unfold ProviderController.refresh
  cases scope with
  | none =>
    simp only [Option.getD, ProviderController.Send, http.StatusBadRequest, http.StatusOK,
      tokenMediaOf]
    cases (c.provider.Refresh refreshToken "").err with
    | some err => simp
    | none =>
      by_cases h1 : (c.provider.Refresh refreshToken "").refreshToken = ""
        <;> by_cases h2 : (c.provider.Refresh refreshToken "").expiresIn = 0
        <;> simp [h1, h2]
  | some s =>
    simp only [Option.getD, ProviderController.Send, http.StatusBadRequest, http.StatusOK,
      tokenMediaOf]
    cases (c.provider.Refresh refreshToken s).err with
    | some err => simp
    | none =>
      by_cases h1 : (c.provider.Refresh refreshToken s).refreshToken = ""
        <;> by_cases h2 : (c.provider.Refresh refreshToken s).expiresIn = 0
        <;> simp [h1, h2]

/-- C4. A redirect URI that fails to parse, or parses with an empty scheme or
an empty host, is refused by both flows: an authorize request with a client id
and response type `code`, and an exchange request with a code, whatever client
the context holds, are answered 400 with the code `invalid_request` and the
backend is not called; `not a url`, `/relative/path` and the empty string are
such redirect URIs.  For an absolute URL, such as `https://client.example/cb`,
the backend is called with the redirect URI as it was received. -/
theorem redirect_URI_validation (c : ProviderController) (ctx : Context)
    (rw : http.ResponseWriter) (redirectURI : String) :
    (absoluteURL redirectURI = false ↔
      (url.Parse redirectURI = none
        ∨ ∃ u, url.Parse redirectURI = some u ∧ (u.Scheme = "" ∨ u.Host = "")))
    ∧ (absoluteURL redirectURI = false →
        (∀ req : http.Request, req.URL.Query.Get "client_id" ≠ ""
          → req.URL.Query.Get "response_type" = "code"
          → req.URL.Query.Get "redirect_uri" = redirectURI
          → (c.Authorize ctx rw req).Status = 400
            ∧ (∃ m : app.OAuth2ErrorMedia,
                (c.Authorize ctx rw req).Body = Body.errorMedia m ∧ m.Error = "invalid_request")
            ∧ (c.Authorize ctx rw req).Calls = [])
        ∧ (∀ code : String,
            (c.exchange ctx rw (some code) (some redirectURI)).Status = 400
            ∧ (∃ m : app.OAuth2ErrorMedia,
                (c.exchange ctx rw (some code) (some redirectURI)).Body = Body.errorMedia m
                ∧ m.Error = "invalid_request")
            ∧ (c.exchange ctx rw (some code) (some redirectURI)).Calls = []))
    ∧ (absoluteURL redirectURI = true →
        (∀ req : http.Request, req.URL.Query.Get "client_id" ≠ ""
          → req.URL.Query.Get "response_type" = "code"
          → req.URL.Query.Get "redirect_uri" = redirectURI
          → (c.Authorize ctx rw req).Calls
              = [Call.Authorize (req.URL.Query.Get "client_id") (req.URL.Query.Get "scope")
                  redirectURI])
        ∧ (∀ code : String, ContextClientID ctx ≠ ""
          → (c.exchange ctx rw (some code) (some redirectURI)).Calls
              = [Call.Exchange (ContextClientID ctx) code redirectURI]))
    ∧ absoluteURL "not a url" = false
    ∧ absoluteURL "/relative/path" = false
    ∧ absoluteURL "" = false
    ∧ absoluteURL "https://client.example/cb" = true := by
  refine ⟨absoluteURL_eq_false_iff redirectURI, ?_, ?_, by rfl, by rfl, by rfl, by rfl⟩
  · intro hbad
    constructor
    · intro req hid hrt hr
      have hfail : req.URL.Query.Get "client_id" = ""
          ∨ req.URL.Query.Get "response_type" ≠ "code"
          ∨ req.URL.Query.Get "redirect_uri" = ""
          ∨ ∀ u, url.Parse (req.URL.Query.Get "redirect_uri") = some u
              → u.Scheme = "" ∨ u.Host = "" := by
        right; right; right
        rw [hr]
        exact not_absoluteURL_parse redirectURI hbad
      rw [Authorize_invalid c ctx rw req hfail]
      refine ⟨rfl, ?_, rfl⟩
      by_cases h3 : req.URL.Query.Get "redirect_uri" = ""
      · exact ⟨MissingRedirect, by simp [hid, hrt, h3], by decide⟩
      · exact ⟨InvalidRedirect, by simp [hid, hrt, h3], by decide⟩
    · intro code
      rw [exchange_invalid c ctx rw (some code) (some redirectURI)
        (Or.inr (Or.inr (Or.inr ⟨redirectURI, rfl, hbad⟩)))]
      refine ⟨rfl, ?_, rfl⟩
      by_cases h1 : ContextClientID ctx = ""
      · exact ⟨MissingClientID, by simp [h1], by decide⟩
      · exact ⟨InvalidRedirect, by simp [h1], by decide⟩
  · intro habs
    obtain ⟨u, hp, hs, hh⟩ := (absoluteURL_eq_true_iff redirectURI).1 habs
    constructor
    · intro req hid hrt hr
      rw [← hr] at hp
      rw [Authorize_valid c ctx rw req u hid hrt hp hs hh, hr]
      simp only [ProviderController.Send]
      cases (c.provider.Authorize (req.URL.Query.Get "client_id") (req.URL.Query.Get "scope")
        redirectURI).err <;> rfl
    · intro code hid
      rw [exchange_valid c ctx rw code redirectURI hid habs]
      cases (c.provider.Exchange (ContextClientID ctx) code redirectURI).err <;> rfl

/-- C4, at the redirect URI `/relative/path`, refused by both flows, and at
`https://client.example/cb`, handed to the backend as it is. -/
theorem redirect_URI_validation_witness :
    (ProviderController.Authorize { provider := exampleProvider } (WithClientID [] "c1") {}
        exampleRelativeRedirectRequest).Status = 400
    ∧ (ProviderController.exchange { provider := exampleProvider } (WithClientID [] "c1") {}
        (some "ABC123") (some "/relative/path")).Calls = []
    ∧ (ProviderController.exchange { provider := exampleProvider } (WithClientID [] "c1") {}
        (some "ABC123") (some "https://client.example/cb")).Calls
      = [Call.Exchange "c1" "ABC123" "https://client.example/cb"] :=
  have hbad := (redirect_URI_validation { provider := exampleProvider } (WithClientID [] "c1")
    {} "/relative/path").2.1 (by rfl)
  have hgood := (redirect_URI_validation { provider := exampleProvider } (WithClientID [] "c1")
    {} "https://client.example/cb").2.2.1 (by rfl)
  ⟨(hbad.1 exampleRelativeRedirectRequest (by decide) (by decide) (by rfl)).1,
   (hbad.2 "ABC123").2.2,
   hgood.2 "ABC123" (by decide)⟩

/-- C5 as stated fails: the request supplies no state and succeeds, and the
`Location` it is redirected to has the `state` parameter of the redirect URI. -/
theorem Authorize_no_state_counterexample :
    exampleStateInRedirectRequest.URL.Query.Get "state" = ""
    ∧ exampleStateInRedirectRequest.URL.Query.Get "redirect_uri"
        = "https://client.example/cb?state=abc"
    ∧ (ProviderController.Authorize { provider := exampleProvider } [] {}
        exampleStateInRedirectRequest).Status = 302
    ∧ (ProviderController.Authorize { provider := exampleProvider } [] {}
        exampleStateInRedirectRequest).Header.Get "Location"
      = some "https://client.example/cb?code=ABC123&state=abc"
    ∧ (url.Parse "https://client.example/cb?code=ABC123&state=abc").map
        (fun u => u.Query.lookup "state") = some ["abc"] := by
  refine ⟨by rfl, by rfl, by rfl, by rfl, by rfl⟩

/-- C5, amended. A successful authorize request that supplies no state is
redirected to a URL that is the parsed redirect URI but for its query, which is
re-encoded from the values of the redirect URI with `code` set: `Authorize` adds
no `state`, and `state` has in the query of that URL exactly the values it has in
the redirect URI, none when the redirect URI has none. -/
theorem Authorize_no_state (c : ProviderController) (ctx : Context)
    (rw : http.ResponseWriter) (req : http.Request) (u : url.URL) (code : String)
    (hid : req.URL.Query.Get "client_id" ≠ "")
    (hrt : req.URL.Query.Get "response_type" = "code")
    (hparse : url.Parse (req.URL.Query.Get "redirect_uri") = some u)
    (hscheme : u.Scheme ≠ "") (hhost : u.Host ≠ "")
    (hbackend : c.provider.Authorize (req.URL.Query.Get "client_id")
        (req.URL.Query.Get "scope") (req.URL.Query.Get "redirect_uri")
      = { code := code, err := none })
    (hstate : req.URL.Query.Get "state" = "") :
    ∃ location : url.URL,
      (c.Authorize ctx rw req).Header.Get "Location" = some location.String
      ∧ location = { u with RawQuery := (u.Query.Set "code" code).Encode }
      ∧ (u.Query.Set "code" code).lookup "state" = u.Query.lookup "state"
      ∧ (url.isBytes u.RawQuery.data → url.isBytes code.data
          → location.Query.lookup "state" = u.Query.lookup "state"
            ∧ (u.Query.lookup "state" = [] → location.Query.lookup "state" = [])) := by
  have hout := Authorize_valid c ctx rw req u hid hrt hparse hscheme hhost
  simp only [hbackend] at hout
  rw [hout]
  have hq : redirectQuery u code (req.URL.Query.Get "state") = u.Query.Set "code" code := by
    simp [redirectQuery, hstate]
  have hl : (u.Query.Set "code" code).lookup "state" = u.Query.lookup "state" :=
    url.Values.lookup_Set_other u.Query "code" "state" code (by decide)
  refine ⟨{ u with RawQuery := (u.Query.Set "code" code).Encode }, ?_, rfl, hl, ?_⟩
  · simp [ProviderController.Send, http.Header.Get_after_Set, hq]
  · intro hu hcode
    have hwf := redirectQuery_wellFormed u code "" hu hcode (by intro x hx; simp at hx)
    have hq0 : redirectQuery u code "" = u.Query.Set "code" code := by simp [redirectQuery]
    rw [hq0] at hwf
    have hback : (url.ParseQuery (u.Query.Set "code" code).Encode).lookup "state"
        = u.Query.lookup "state" := by
      rw [url.ParseQuery_Encode _ hwf "state", hl]
    exact ⟨hback, fun h0 => hback.trans h0⟩

/-- C5 amended, at a request with no state and redirect URI
`https://client.example/cb`: the URL of the redirect has the query
`code=ABC123`, in which there is no `state`. -/
theorem Authorize_no_state_witness :
    ∃ location : url.URL,
      (ProviderController.Authorize { provider := exampleProvider } [] {}
        exampleNoStateRequest).Header.Get "Location" = some location.String
      ∧ location = { Scheme := "https", Host := "client.example", Path := "/cb",
                     RawQuery := "code=ABC123" }
      ∧ location.Query.lookup "state" = [] :=
  have h := Authorize_no_state { provider := exampleProvider } [] {} exampleNoStateRequest
    { Scheme := "https", Host := "client.example", Path := "/cb" } "ABC123"
    (by decide) (by decide) (by rfl) (by decide) (by decide) (by rfl) (by rfl)
  h.elim fun location hl =>
    ⟨location, hl.1, hl.2.1,
     (hl.2.2.2 (by decide) (by decide)).2 (by rfl)⟩

/-! ## The token flow -/

/-- What `GetToken` does with a grant type that is neither of the two. -/
theorem GetToken_unknown (c : ProviderController) (ctx : Context) (rw : http.ResponseWriter)
    (grantType : String) (code redirectURI refreshToken scope : Option String)
    (h1 : grantType ≠ "authorization_code") (h2 : grantType ≠ "refresh_token") :
    c.GetToken ctx rw grantType code redirectURI refreshToken scope =
      { Header := rw.Header, Status := 400, Body := Body.errorMedia InvalidGrantType,
        Calls := [] } := by
  simp only [ProviderController.GetToken, h1, h2, if_false]
  rfl

/-- C6. `GetToken` dispatches on the grant type only: with `authorization_code`
its result is that of `exchange` on the code and the redirect URI, with
`refresh_token` it is that of `refresh` on the refresh token and the scope, and
with any other value, such as `password` or the empty string, it answers 400
with the code `invalid_grant` and calls no backend operation. -/
theorem GetToken_dispatch (c : ProviderController) (ctx : Context) (rw : http.ResponseWriter)
    (grantType : String) (code redirectURI refreshToken scope : Option String) :
    (grantType = "authorization_code" →
      c.GetToken ctx rw grantType code redirectURI refreshToken scope
        = c.exchange ctx rw code redirectURI)
    ∧ (grantType = "refresh_token" →
      c.GetToken ctx rw grantType code redirectURI refreshToken scope
        = c.refresh ctx rw refreshToken scope)
    ∧ (grantType ≠ "authorization_code" → grantType ≠ "refresh_token" →
      (c.GetToken ctx rw grantType code redirectURI refreshToken scope).Status = 400
      ∧ (∃ m : app.OAuth2ErrorMedia,
          (c.GetToken ctx rw grantType code redirectURI refreshToken scope).Body
            = Body.errorMedia m ∧ m.Error = "invalid_grant")
      ∧ (c.GetToken ctx rw grantType code redirectURI refreshToken scope).Calls = [])
    ∧ (c.GetToken ctx rw "password" code redirectURI refreshToken scope).Status = 400
    ∧ (c.GetToken ctx rw "" code redirectURI refreshToken scope).Status = 400 := by
  refine ⟨?_, ?_, ?_, by rfl, by rfl⟩
  · intro h
    simp [ProviderController.GetToken, h]
  · intro h
    subst h
    simp [ProviderController.GetToken]
  · intro h1 h2
    rw [GetToken_unknown c ctx rw grantType code redirectURI refreshToken scope h1 h2]
    exact ⟨rfl, ⟨InvalidGrantType, rfl, by decide⟩, rfl⟩

/-- C6, at the grant types `authorization_code`, `refresh_token` and
`password`. -/
theorem GetToken_dispatch_witness :
    ProviderController.GetToken { provider := exampleProvider } (WithClientID [] "c1") {}
        "authorization_code" (some "ABC123") (some "https://client.example/cb") none none
      = ProviderController.exchange { provider := exampleProvider } (WithClientID [] "c1") {}
          (some "ABC123") (some "https://client.example/cb")
    ∧ ProviderController.GetToken { provider := exampleProvider } (WithClientID [] "c1") {}
        "refresh_token" none none (some "r1") (some "read")
      = ProviderController.refresh { provider := exampleProvider } (WithClientID [] "c1") {}
          (some "r1") (some "read")
    ∧ (ProviderController.GetToken { provider := exampleProvider } (WithClientID [] "c1") {}
        "password" (some "ABC123") (some "https://client.example/cb") (some "r1") none).Calls
      = [] :=
  ⟨(GetToken_dispatch { provider := exampleProvider } (WithClientID [] "c1") {}
      "authorization_code" (some "ABC123") (some "https://client.example/cb") none none).1 rfl,
   (GetToken_dispatch { provider := exampleProvider } (WithClientID [] "c1") {}
      "refresh_token" none none (some "r1") (some "read")).2.1 rfl,
   ((GetToken_dispatch { provider := exampleProvider } (WithClientID [] "c1") {}
      "password" (some "ABC123") (some "https://client.example/cb") (some "r1") none).2.2.1
      (by decide) (by decide)).2.2⟩

/-- C7 as stated fails: the description sent for the unknown grant type
`password` is not the text without quotation marks. -/
theorem GetToken_invalid_grant_description_counterexample :
    (ProviderController.GetToken { provider := exampleProvider } (WithClientID [] "c1") {}
        "password" none none none none).Body = Body.errorMedia InvalidGrantType
    ∧ InvalidGrantType.ErrorDescription
        ≠ some "invalid grant type, must be authorization_code or refresh_token" := by
  refine ⟨by rfl, by decide⟩

/-- C7, amended. The error body sent by `GetToken` for an unknown grant type has
the description `invalid grant type, must be "authorization_code" or
"refresh_token"`, the two grant types in double quotes. -/
theorem GetToken_invalid_grant_description (c : ProviderController) (ctx : Context)
    (rw : http.ResponseWriter) (grantType : String)
    (code redirectURI refreshToken scope : Option String)
    (h1 : grantType ≠ "authorization_code") (h2 : grantType ≠ "refresh_token") :
    ∃ m : app.OAuth2ErrorMedia,
      (c.GetToken ctx rw grantType code redirectURI refreshToken scope).Body = Body.errorMedia m
      ∧ m.ErrorDescription
          = some "invalid grant type, must be \"authorization_code\" or \"refresh_token\"" := by
  rw [GetToken_unknown c ctx rw grantType code redirectURI refreshToken scope h1 h2]
  exact ⟨InvalidGrantType, rfl, by decide⟩

/-- C7 amended, at the grant type `password`. -/
theorem GetToken_invalid_grant_description_witness :
    ∃ m : app.OAuth2ErrorMedia,
      (ProviderController.GetToken { provider := exampleProvider } (WithClientID [] "c1") {}
        "password" none none none none).Body = Body.errorMedia m
      ∧ m.ErrorDescription
          = some "invalid grant type, must be \"authorization_code\" or \"refresh_token\"" :=
  GetToken_invalid_grant_description { provider := exampleProvider } (WithClientID [] "c1") {}
    "password" none none none none (by decide) (by decide)

/-- C8. `exchange` reports only the first failing check, in the order client id
in the context, code present, redirect URI present, redirect URI absolute: a
request that fails a check is answered 400 with the payload of the first check
it fails, `MissingClientID`, `MissingCode` (`invalid_request` "missing
authorization code"), `MissingRedirect` or `InvalidRedirect`, and the backend is
not called. -/
theorem exchange_first_failing_check (c : ProviderController) (ctx : Context)
    (rw : http.ResponseWriter) (code redirectURI : Option String)
    (hfail : ContextClientID ctx = "" ∨ code = none ∨ redirectURI = none
      ∨ ∃ r, redirectURI = some r ∧ absoluteURL r = false) :
    (c.exchange ctx rw code redirectURI).Status = 400
    ∧ (c.exchange ctx rw code redirectURI).Body = Body.errorMedia
        (if ContextClientID ctx = "" then MissingClientID
         else if code = none then MissingCode
         else if redirectURI = none then MissingRedirect
         else InvalidRedirect)
    ∧ (c.exchange ctx rw code redirectURI).Calls = []
    ∧ MissingClientID = { Error := "invalid_request",
                          ErrorDescription := some "missing client ID" }
    ∧ MissingCode = { Error := "invalid_request",
                      ErrorDescription := some "missing authorization code" }
    ∧ MissingRedirect = { Error := "invalid_request",
                          ErrorDescription := some "missing redirect URI" }
    ∧ InvalidRedirect = { Error := "invalid_request",
                          ErrorDescription := some "redirect URI must be a valid absolute URL" } := by
  rw [exchange_invalid c ctx rw code redirectURI hfail]
  exact ⟨rfl, rfl, rfl, by decide, by decide, by decide, by decide⟩

/-- C8, at a request with a client id and neither code nor redirect URI, where
the missing code is reported, and at a request with no client id either, where
the missing client id is. -/
theorem exchange_first_failing_check_witness :
    (ProviderController.exchange { provider := exampleProvider } (WithClientID [] "c1") {}
        none none).Body = Body.errorMedia MissingCode
    ∧ (ProviderController.exchange { provider := exampleProvider } [] {}
        none none).Body = Body.errorMedia MissingClientID
    ∧ (ProviderController.exchange { provider := exampleProvider } [] {} none none).Calls = [] :=
  ⟨(exchange_first_failing_check { provider := exampleProvider } (WithClientID [] "c1") {}
      none none (Or.inr (Or.inl rfl))).2.1,
   (exchange_first_failing_check { provider := exampleProvider } [] {}
      none none (Or.inl (by rfl))).2.1,
   (exchange_first_failing_check { provider := exampleProvider } [] {}
      none none (Or.inl (by rfl))).2.2.1⟩

/-- C9. An exchange request that passes the four checks, for which the backend
returns a refresh token, an access token and a lifetime with no error, is
answered 200 with a token media whose token type is `Bearer`, whose access token
is that of the backend, whose refresh token is present exactly when that of the
backend is not empty, and is then equal to it, whose lifetime is present exactly
when that of the backend is not zero, and is then equal to it, and whose scope is
absent.  With access token `tok`, an empty refresh token and lifetime 0 the media
has the access token `tok` and the token type `Bearer` only. -/
theorem exchange_success_token_media (c : ProviderController) (ctx : Context)
    (rw : http.ResponseWriter) (code redirectURI refreshToken accessToken : String)
    (expiresIn : Int)
    (hid : ContextClientID ctx ≠ "") (habs : absoluteURL redirectURI = true)
    (hbackend : c.provider.Exchange (ContextClientID ctx) code redirectURI
      = { refreshToken := refreshToken, accessToken := accessToken, expiresIn := expiresIn,
          err := none }) :
    (c.exchange ctx rw (some code) (some redirectURI)).Status = 200
    ∧ (∃ m : app.TokenMedia,
        (c.exchange ctx rw (some code) (some redirectURI)).Body = Body.tokenMedia m
        ∧ m.TokenType = "Bearer"
        ∧ m.AccessToken = accessToken
        ∧ (m.RefreshToken ≠ none ↔ refreshToken ≠ "")
        ∧ (refreshToken ≠ "" → m.RefreshToken = some refreshToken)
        ∧ (m.ExpiresIn ≠ none ↔ expiresIn ≠ 0)
        ∧ (expiresIn ≠ 0 → m.ExpiresIn = some expiresIn)
        ∧ m.Scope = none)
    ∧ (accessToken = "tok" → refreshToken = "" → expiresIn = 0 →
        (c.exchange ctx rw (some code) (some redirectURI)).Body
          = Body.tokenMedia { AccessToken := "tok", TokenType := "Bearer", ExpiresIn := none,
                              RefreshToken := none, Scope := none }) := by
  rw [exchange_valid c ctx rw code redirectURI hid habs, hbackend]
  refine ⟨rfl, ⟨_, rfl, rfl, rfl, ?_, ?_, ?_, ?_, rfl⟩, ?_⟩
  · by_cases h : refreshToken = "" <;> simp [tokenMediaOf, h]
  · intro h
    simp [tokenMediaOf, h]
  · by_cases h : expiresIn = 0 <;> simp [tokenMediaOf, h]
  · intro h
    simp [tokenMediaOf, h]
  · intro h1 h2 h3
    subst h1 h2 h3
    rfl

/-- C9, at the request of the example: code `ABC123`, redirect URI
`https://client.example/cb`, client `c1`, and a backend that returns the access
token `tok`, no refresh token and lifetime 0. -/
theorem exchange_success_token_media_witness :
    (ProviderController.exchange { provider := exampleProvider } (WithClientID [] "c1") {}
        (some "ABC123") (some "https://client.example/cb")).Status = 200
    ∧ (ProviderController.exchange { provider := exampleProvider } (WithClientID [] "c1") {}
        (some "ABC123") (some "https://client.example/cb")).Body
      = Body.tokenMedia { AccessToken := "tok", TokenType := "Bearer", ExpiresIn := none,
                          RefreshToken := none, Scope := none } :=
  have h := exchange_success_token_media { provider := exampleProvider }
    (WithClientID [] "c1") {} "ABC123" "https://client.example/cb" "" "tok" 0
    (by decide) (by rfl) (by rfl)
  ⟨h.1, h.2.2 rfl rfl rfl⟩

/-- C10. A refresh request with a refresh token calls the backend's refresh,
once, with that refresh token and with the scope of the caller, or the empty
string when the caller gave none.  When the backend returns with no error the
answer is 200 with a token media built as `exchange` builds it (token type
`Bearer`, the access token, the refresh token when not empty, the lifetime when
not zero) whose scope is that of the caller, absent when the caller gave none,
whatever the backend returned.  For refresh token `r1`, scope `read` and access
token `tok2` the media has the scope `read`. -/
theorem refresh_calls_backend_echoes_scope (c : ProviderController) (ctx : Context)
    (rw : http.ResponseWriter) (refreshToken : String) (scope : Option String) :
    (c.refresh ctx rw (some refreshToken) scope).Calls
      = [Call.Refresh refreshToken (match scope with | some s => s | none => "")]
    ∧ (∀ (newRefreshToken accessToken : String) (expiresIn : Int),
        c.provider.Refresh refreshToken (match scope with | some s => s | none => "")
          = { refreshToken := newRefreshToken, accessToken := accessToken,
              expiresIn := expiresIn, err := none }
        → (c.refresh ctx rw (some refreshToken) scope).Status = 200
          ∧ (c.refresh ctx rw (some refreshToken) scope).Body = Body.tokenMedia
              { AccessToken := accessToken, TokenType := "Bearer",
                RefreshToken := if newRefreshToken ≠ "" then some newRefreshToken else none,
                ExpiresIn := if expiresIn ≠ 0 then some expiresIn else none,
                Scope := scope })
    ∧ (∀ (newRefreshToken : String) (expiresIn : Int),
        refreshToken = "r1" → scope = some "read"
        → c.provider.Refresh "r1" "read"
          = { refreshToken := newRefreshToken, accessToken := "tok2",
              expiresIn := expiresIn, err := none }
        → ∃ m : app.TokenMedia,
            (c.refresh ctx rw (some refreshToken) scope).Body = Body.tokenMedia m
            ∧ m.AccessToken = "tok2" ∧ m.Scope = some "read") := by
  have hget : (match scope with | some s => s | none => "") = scope.getD "" := by
    cases scope <;> rfl
  rw [hget, refresh_valid c ctx rw refreshToken scope]
  refine ⟨?_, ?_, ?_⟩
  · cases (c.provider.Refresh refreshToken (scope.getD "")).err <;> rfl
  · intro newRefreshToken accessToken expiresIn hbackend
    rw [hbackend]
    exact ⟨rfl, rfl⟩
  · intro newRefreshToken expiresIn hr hs hbackend
    subst hr hs
    simp only [Option.getD]
    rw [hbackend]
    exact ⟨_, rfl, rfl, rfl⟩

/-- C10, at the request of the example: refresh token `r1`, scope `read`, and a
backend that returns the access token `tok2`. -/
theorem refresh_calls_backend_echoes_scope_witness :
    (ProviderController.refresh { provider := exampleProvider } [] {}
        (some "r1") (some "read")).Calls = [Call.Refresh "r1" "read"]
    ∧ (ProviderController.refresh { provider := exampleProvider } [] {}
        (some "r1") none).Calls = [Call.Refresh "r1" ""]
    ∧ ∃ m : app.TokenMedia,
        (ProviderController.refresh { provider := exampleProvider } [] {}
          (some "r1") (some "read")).Body = Body.tokenMedia m
        ∧ m.AccessToken = "tok2" ∧ m.Scope = some "read" :=
  ⟨(refresh_calls_backend_echoes_scope { provider := exampleProvider } [] {} "r1"
      (some "read")).1,
   (refresh_calls_backend_echoes_scope { provider := exampleProvider } [] {} "r1" none).1,
   (refresh_calls_backend_echoes_scope { provider := exampleProvider } [] {} "r1"
      (some "read")).2.2 "" 0 rfl rfl rfl⟩

/-! ## The refresh flow without a refresh token -/

/-- C11. A refresh request with no refresh token is answered 400 with the code
`invalid_grant` and the description `grant type "refresh_token" requires a
"refresh_token" value`, whatever the scope and the context, and the backend is
not called. -/
theorem refresh_missing_refresh_token (c : ProviderController) (ctx : Context)
    (rw : http.ResponseWriter) (scope : Option String) :
    (c.refresh ctx rw none scope).Status = 400
    ∧ (c.refresh ctx rw none scope).Body = Body.errorMedia
        { Error := "invalid_grant",
          ErrorDescription := some "grant type \"refresh_token\" requires a \"refresh_token\" value",
          ErrorURI := none }
    ∧ (c.refresh ctx rw none scope).Calls = []
    ∧ (c.refresh ctx rw none scope).Header = rw.Header := by
  refine ⟨rfl, ?_, rfl, rfl⟩
  show Body.errorMedia MissingRefreshToken = _
  have h : MissingRefreshToken =
      { Error := "invalid_grant",
        ErrorDescription := some "grant type \"refresh_token\" requires a \"refresh_token\" value",
        ErrorURI := none } := by decide
  rw [h]

/-! ## The client authentication gate -/

theorem ContextClientID_WithClientID (ctx : Context) (clientID : String) :
    ContextClientID (WithClientID ctx clientID) = clientID := by
  simp [ContextClientID, WithClientID, Context.Value]

/-- The gate on a request with no Basic credentials. -/
theorem gate_no_credentials {α : Type} (provider : Provider) (h : goa.Handler α)
    (ctx : Context) (rw : http.ResponseWriter) (req : http.Request)
    (hauth : req.BasicAuth = none) :
    NewOAuth2ClientBasicAuthMiddleware provider h ctx rw req =
      { Calls := [], Next := [],
        Returned := .err { Code := "unauthorized", Status := 401, Detail := "missing auth" } } := by
  simp only [NewOAuth2ClientBasicAuthMiddleware, hauth]
  rfl

/-- The gate on a request whose credentials the backend refuses. -/
theorem gate_refused {α : Type} (provider : Provider) (h : goa.Handler α)
    (ctx : Context) (rw : http.ResponseWriter) (req : http.Request)
    (clientID clientSecret : String) (err : error)
    (hauth : req.BasicAuth = some (clientID, clientSecret))
    (hrefused : provider.Authenticate clientID clientSecret = some err) :
    NewOAuth2ClientBasicAuthMiddleware provider h ctx rw req =
      { Calls := [Call.Authenticate clientID clientSecret], Next := [],
        Returned := .err { Code := "unauthorized", Status := 401, Detail := err.Error } } := by
  simp only [NewOAuth2ClientBasicAuthMiddleware, hauth, hrefused]
  rfl

/-- The gate on a request whose credentials the backend accepts. -/
theorem gate_accepted {α : Type} (provider : Provider) (h : goa.Handler α)
    (ctx : Context) (rw : http.ResponseWriter) (req : http.Request)
    (clientID clientSecret : String)
    (hauth : req.BasicAuth = some (clientID, clientSecret))
    (haccepted : provider.Authenticate clientID clientSecret = none) :
    NewOAuth2ClientBasicAuthMiddleware provider h ctx rw req =
      { Calls := [Call.Authenticate clientID clientSecret],
        Next := [(WithClientID ctx clientID, rw, req)],
        Returned := .next (h (WithClientID ctx clientID) rw req) } := by
  simp only [NewOAuth2ClientBasicAuthMiddleware, hauth, haccepted]

/-- C12. The gate invokes the next handler exactly when the request has Basic
credentials and the backend's `Authenticate` returns nil for them.  With no
credentials it returns the error of class `unauthorized`, status 401, with the
message `missing auth`, and does not call `Authenticate`; when `Authenticate`
returns an error it returns the error of the same class with the message of that
error.  In both cases what the gate does and returns is the same for every body
of the request. -/
theorem gate_invokes_next_iff_authenticated {α : Type} (provider : Provider)
    (h : goa.Handler α) (ctx : Context) (rw : http.ResponseWriter) (req : http.Request) :
    ((NewOAuth2ClientBasicAuthMiddleware provider h ctx rw req).Next ≠ [] ↔
      ∃ clientID clientSecret, req.BasicAuth = some (clientID, clientSecret)
        ∧ provider.Authenticate clientID clientSecret = none)
    ∧ (req.BasicAuth = none →
        NewOAuth2ClientBasicAuthMiddleware provider h ctx rw req =
          { Calls := [], Next := [],
            Returned := .err { Code := "unauthorized", Status := 401,
                               Detail := "missing auth" } })
    ∧ (∀ clientID clientSecret err, req.BasicAuth = some (clientID, clientSecret)
        → provider.Authenticate clientID clientSecret = some err
        → NewOAuth2ClientBasicAuthMiddleware provider h ctx rw req =
            { Calls := [Call.Authenticate clientID clientSecret], Next := [],
              Returned := .err { Code := "unauthorized", Status := 401,
                                 Detail := err.Error } })
    ∧ ((NewOAuth2ClientBasicAuthMiddleware provider h ctx rw req).Next = [] →
        ∀ body : String,
          NewOAuth2ClientBasicAuthMiddleware provider h ctx rw { req with Body := body }
            = NewOAuth2ClientBasicAuthMiddleware provider h ctx rw req) := by
  refine ⟨?_, gate_no_credentials provider h ctx rw req, ?_, ?_⟩
  · cases hauth : req.BasicAuth with
    | none => simp [gate_no_credentials provider h ctx rw req hauth]
    | some cred =>
      obtain ⟨clientID, clientSecret⟩ := cred
      cases hres : provider.Authenticate clientID clientSecret with
      | none =>
        rw [gate_accepted provider h ctx rw req clientID clientSecret hauth hres]
        exact ⟨fun _ => ⟨clientID, clientSecret, rfl, hres⟩, fun _ => by simp⟩
      | some err =>
        rw [gate_refused provider h ctx rw req clientID clientSecret err hauth hres]
        constructor
        · intro hne
          exact absurd rfl hne
        · rintro ⟨id1, secret1, heq, hok⟩
          cases heq
          rw [hres] at hok
          cases hok
  · intro clientID clientSecret err hauth hres
    exact gate_refused provider h ctx rw req clientID clientSecret err hauth hres
  · intro hnext body
    cases hauth : req.BasicAuth with
    | none =>
      rw [gate_no_credentials provider h ctx rw req hauth]
      exact gate_no_credentials provider h ctx rw _ rfl
    | some cred =>
      obtain ⟨clientID, clientSecret⟩ := cred
      cases hres : provider.Authenticate clientID clientSecret with
      | none =>
        rw [gate_accepted provider h ctx rw req clientID clientSecret hauth hres] at hnext
        simp at hnext
      | some err =>
        rw [gate_refused provider h ctx rw req clientID clientSecret err hauth hres]
        exact gate_refused provider h ctx rw _ clientID clientSecret err rfl hres

/-- C12, at a request with no credentials and at one with a secret the backend
refuses: both are turned away with status 401, whatever the body. -/
theorem gate_invokes_next_iff_authenticated_witness :
    NewOAuth2ClientBasicAuthMiddleware exampleStrictProvider
        (tokenHandler { provider := exampleStrictProvider } "refresh_token" none none
          (some "r1") none) [] {} exampleNoAuthRequest
      = { Calls := [], Next := [],
          Returned := .err { Code := "unauthorized", Status := 401, Detail := "missing auth" } }
    ∧ NewOAuth2ClientBasicAuthMiddleware exampleStrictProvider
        (tokenHandler { provider := exampleStrictProvider } "refresh_token" none none
          (some "r1") none) [] {} exampleBadSecretRequest
      = { Calls := [Call.Authenticate "c1" "guess"], Next := [],
          Returned := .err { Code := "unauthorized", Status := 401,
                             Detail := "bad credentials" } }
    ∧ NewOAuth2ClientBasicAuthMiddleware exampleStrictProvider
        (tokenHandler { provider := exampleStrictProvider } "refresh_token" none none
          (some "r1") none) [] {} { exampleBadSecretRequest with Body := "grant_type=password" }
      = NewOAuth2ClientBasicAuthMiddleware exampleStrictProvider
        (tokenHandler { provider := exampleStrictProvider } "refresh_token" none none
          (some "r1") none) [] {} exampleBadSecretRequest :=
  have hno := gate_invokes_next_iff_authenticated exampleStrictProvider
    (tokenHandler { provider := exampleStrictProvider } "refresh_token" none none
      (some "r1") none) [] {} exampleNoAuthRequest
  have hbad := gate_invokes_next_iff_authenticated exampleStrictProvider
    (tokenHandler { provider := exampleStrictProvider } "refresh_token" none none
      (some "r1") none) [] {} exampleBadSecretRequest
  ⟨hno.2.1 rfl,
   hbad.2.2.1 "c1" "guess" (.other "bad credentials") rfl (by decide),
   hbad.2.2.2 (by rfl) "grant_type=password"⟩

/-- C13. On a request with Basic credentials that the backend authenticates,
the gate invokes the next handler exactly once, with a context on which
`ContextClientID` returns the client id of the credentials, with the response
writer and the request it received, and returns what the next handler
returns. -/
theorem gate_passes_client_id {α : Type} (provider : Provider) (h : goa.Handler α)
    (ctx : Context) (rw : http.ResponseWriter) (req : http.Request)
    (clientID clientSecret : String)
    (hauth : req.BasicAuth = some (clientID, clientSecret))
    (haccepted : provider.Authenticate clientID clientSecret = none) :
    ∃ next : Context,
      (NewOAuth2ClientBasicAuthMiddleware provider h ctx rw req).Next = [(next, rw, req)]
      ∧ ContextClientID next = clientID
      ∧ (NewOAuth2ClientBasicAuthMiddleware provider h ctx rw req).Returned
          = .next (h next rw req)
      ∧ (NewOAuth2ClientBasicAuthMiddleware provider h ctx rw req).Calls
          = [Call.Authenticate clientID clientSecret] := by
  rw [gate_accepted provider h ctx rw req clientID clientSecret hauth haccepted]
  exact ⟨WithClientID ctx clientID, rfl, ContextClientID_WithClientID ctx clientID, rfl, rfl⟩

/-- C13, at the token request of client `c1`, which the strict backend
authenticates. -/
theorem gate_passes_client_id_witness :
    ∃ next : Context,
      (NewOAuth2ClientBasicAuthMiddleware exampleStrictProvider
        (tokenHandler { provider := exampleProvider } "authorization_code" (some "ABC123")
          (some "https://client.example/cb") none none) [] {} exampleTokenRequest).Next
        = [(next, {}, exampleTokenRequest)]
      ∧ ContextClientID next = "c1" :=
  (gate_passes_client_id exampleStrictProvider
    (tokenHandler { provider := exampleProvider } "authorization_code" (some "ABC123")
      (some "https://client.example/cb") none none) [] {} exampleTokenRequest
    "c1" "s3cret" rfl (by decide)).elim fun next hn => ⟨next, hn.1, hn.2.1⟩

/-- C14 as stated fails: a request with Basic credentials of which the user name
is empty, which the backend authenticates, passes the gate, and the exchange
behind it answers with the error "missing client ID", the backend's `Exchange`
not being called. -/
theorem gate_exchange_missing_client_counterexample :
    exampleEmptyClientRequest.BasicAuth = some ("", "")
    ∧ exampleProvider.Authenticate "" "" = none
    ∧ (NewOAuth2ClientBasicAuthMiddleware exampleProvider
        (tokenHandler { provider := exampleProvider } "authorization_code" (some "ABC123")
          (some "https://client.example/cb") none none) [] {}
        exampleEmptyClientRequest).Returned
      = .next { Header := [], Status := 400, Body := Body.errorMedia MissingClientID,
                Calls := [] }
    ∧ MissingClientID.ErrorDescription = some "missing client ID" := by
  refine ⟨rfl, rfl, by rfl, by decide⟩

/-- C14, amended. When a token request has passed the gate with credentials of
which the client id is not empty, the exchange behind the gate runs on a context
that holds this client id, and its check of the client id passes: it does not
answer with the error "missing client ID" unless that is the error the backend's
`Exchange` returned, after the call. -/
theorem gate_exchange_has_client_id (c : ProviderController) (ctx : Context)
    (rw : http.ResponseWriter) (req : http.Request) (clientID clientSecret : String)
    (code redirectURI refreshToken scope : Option String)
    (hauth : req.BasicAuth = some (clientID, clientSecret))
    (haccepted : c.provider.Authenticate clientID clientSecret = none)
    (hid : clientID ≠ "") :
    ∃ out : Outcome,
      (NewOAuth2ClientBasicAuthMiddleware c.provider
        (tokenHandler c "authorization_code" code redirectURI refreshToken scope)
        ctx rw req).Returned = .next out
      ∧ out = c.exchange (WithClientID ctx clientID) rw code redirectURI
      ∧ ContextClientID (WithClientID ctx clientID) = clientID
      ∧ (out.Calls = [] → out.Body ≠ Body.errorMedia MissingClientID) := by
  rw [gate_accepted c.provider _ ctx rw req clientID clientSecret hauth haccepted]
  have hcid := ContextClientID_WithClientID ctx clientID
  have hcid2 : ContextClientID (WithClientID ctx clientID) ≠ "" := by rw [hcid]; exact hid
  refine ⟨c.exchange (WithClientID ctx clientID) rw code redirectURI, ?_, rfl, hcid, ?_⟩
  · simp [tokenHandler, ProviderController.GetToken]
  · intro hcalls hbody
    by_cases hfail : code = none ∨ redirectURI = none
        ∨ ∃ r, redirectURI = some r ∧ absoluteURL r = false
    · rw [exchange_invalid c _ rw code redirectURI (Or.inr hfail)] at hbody
      simp only [hcid2, if_false] at hbody
      have hm : (if code = none then MissingCode
          else if redirectURI = none then MissingRedirect else InvalidRedirect)
          = MissingClientID := by
        injection hbody
      revert hm
      split
      · decide
      · split <;> decide
    · have h1 : code ≠ none := fun h => hfail (Or.inl h)
      have h2 : redirectURI ≠ none := fun h => hfail (Or.inr (Or.inl h))
      obtain ⟨code1, rfl⟩ := Option.ne_none_iff_exists'.1 h1
      obtain ⟨r, rfl⟩ := Option.ne_none_iff_exists'.1 h2
      have habs : absoluteURL r = true := by
        cases hb : absoluteURL r with
        | true => rfl
        | false => exact absurd (Or.inr (Or.inr ⟨r, rfl, hb⟩)) hfail
      rw [exchange_valid c _ rw code1 r hcid2 habs] at hcalls
      cases herr : (c.provider.Exchange (ContextClientID (WithClientID ctx clientID)) code1 r).err
        <;> simp [herr] at hcalls

/-- C14 amended, at the token request of client `c1`: behind the gate the
exchange of the code `ABC123` is not answered "missing client ID" but with the
tokens. -/
theorem gate_exchange_has_client_id_witness :
    ∃ out : Outcome,
      (NewOAuth2ClientBasicAuthMiddleware exampleProvider
        (tokenHandler { provider := exampleProvider } "authorization_code" (some "ABC123")
          (some "https://client.example/cb") none none) [] {} exampleTokenRequest).Returned
        = .next out
      ∧ out = ProviderController.exchange { provider := exampleProvider }
          (WithClientID [] "c1") {} (some "ABC123") (some "https://client.example/cb")
      ∧ ContextClientID (WithClientID [] "c1") = "c1" :=
  (gate_exchange_has_client_id { provider := exampleProvider } [] {} exampleTokenRequest
    "c1" "s3cret" (some "ABC123") (some "https://client.example/cb") none none
    rfl rfl (by decide)).elim fun out ho => ⟨out, ho.1, ho.2.1, ho.2.2.1⟩

/-! ## The error taxonomy -/

theorem errorToMedia_implementsError (e : Error) :
    errorToMedia (.implementsError e) =
      { Error := e.Code,
        ErrorDescription := if e.Description ≠ "" then some e.Description else none,
        ErrorURI := if e.URI ≠ "" then some e.URI else none } := by
  unfold errorToMedia
  by_cases hd : e.Description = "" <;> by_cases hu : e.URI = "" <;> simp [hd, hu]

/-- C15. `errorToMedia` maps every error.  For an error that implements `Error`
the field `error` of the payload is its code, `error_description` is present
exactly when its description is not empty and is then the description, and
`error_uri` is present exactly when its URI is not empty and is then the URI;
so it is for `NewError(code, description, uri)`.  For an error that does not
implement `Error` the payload is `invalid_request` with no description and no
URI, whatever its message. -/
theorem errorToMedia_maps_every_error (e : Error) (code : ErrorCode)
    (description uri message : String) :
    (errorToMedia (.implementsError e)).Error = e.Code
    ∧ ((errorToMedia (.implementsError e)).ErrorDescription ≠ none ↔ e.Description ≠ "")
    ∧ (errorToMedia (.implementsError e)).ErrorDescription
        = (if e.Description ≠ "" then some e.Description else none)
    ∧ ((errorToMedia (.implementsError e)).ErrorURI ≠ none ↔ e.URI ≠ "")
    ∧ (errorToMedia (.implementsError e)).ErrorURI
        = (if e.URI ≠ "" then some e.URI else none)
    ∧ errorToMedia (.implementsError (NewError code description uri))
        = { Error := code,
            ErrorDescription := if description ≠ "" then some description else none,
            ErrorURI := if uri ≠ "" then some uri else none }
    ∧ errorToMedia (.other message)
        = { Error := "invalid_request", ErrorDescription := none, ErrorURI := none } := by
  rw [errorToMedia_implementsError e, errorToMedia_implementsError (NewError code description uri)]
  refine ⟨rfl, ?_, rfl, ?_, rfl, rfl, rfl⟩
  · by_cases hd : e.Description = "" <;> simp [hd]
  · by_cases hu : e.URI = "" <;> simp [hu]

theorem errorToMedia_inTaxonomy (err : error) (h : err.inTaxonomy) :
    (errorToMedia err).Error ∈ taxonomy := by
  cases err with
  | other message =>
    show "invalid_request" ∈ taxonomy
    decide
  | implementsError e =>
    rw [errorToMedia_implementsError e]
    exact h

theorem constants_inTaxonomy :
    MissingClientID.Error ∈ taxonomy ∧ MissingCode.Error ∈ taxonomy
    ∧ BadResponseType.Error ∈ taxonomy ∧ MissingRedirect.Error ∈ taxonomy
    ∧ InvalidRedirect.Error ∈ taxonomy ∧ InvalidGrantType.Error ∈ taxonomy
    ∧ MissingRefreshToken.Error ∈ taxonomy := by
  decide

/-- The code of the payload of every 400 answer of `Authorize` is in the
taxonomy when the errors of the backend are. -/
theorem Authorize_400_inTaxonomy (c : ProviderController) (hp : c.provider.inTaxonomy)
    (ctx : Context) (rw : http.ResponseWriter) (req : http.Request)
    (hstatus : (c.Authorize ctx rw req).Status = 400) :
    ∃ m : app.OAuth2ErrorMedia,
      (c.Authorize ctx rw req).Body = Body.errorMedia m ∧ m.Error ∈ taxonomy := by
  by_cases hfail : req.URL.Query.Get "client_id" = ""
      ∨ req.URL.Query.Get "response_type" ≠ "code"
      ∨ req.URL.Query.Get "redirect_uri" = ""
      ∨ ∀ u, url.Parse (req.URL.Query.Get "redirect_uri") = some u → u.Scheme = "" ∨ u.Host = ""
  · rw [Authorize_invalid c ctx rw req hfail]
    refine ⟨_, rfl, ?_⟩
    have hc := constants_inTaxonomy
    split
    · exact hc.1
    · split
      · exact hc.2.2.1
      · split
        · exact hc.2.2.2.1
        · exact hc.2.2.2.2.1
  · have hid : req.URL.Query.Get "client_id" ≠ "" := fun h => hfail (Or.inl h)
    have hrt : req.URL.Query.Get "response_type" = "code" := by
      by_contra h
      exact hfail (Or.inr (Or.inl h))
    have hparse : ∃ u, url.Parse (req.URL.Query.Get "redirect_uri") = some u
        ∧ u.Scheme ≠ "" ∧ u.Host ≠ "" := by
      by_contra h
      apply hfail
      right; right; right
      intro u hu
      by_contra hbad
      exact h ⟨u, hu, fun hs => hbad (Or.inl hs), fun hh => hbad (Or.inr hh)⟩
    obtain ⟨u, hu, hs, hh⟩ := hparse
    rw [Authorize_valid c ctx rw req u hid hrt hu hs hh] at hstatus ⊢
    cases herr : (c.provider.Authorize (req.URL.Query.Get "client_id")
        (req.URL.Query.Get "scope") (req.URL.Query.Get "redirect_uri")).err with
    | some err =>
      simp only [herr, ProviderController.Send]
      exact ⟨_, rfl, errorToMedia_inTaxonomy err (hp.1 _ _ _ err herr)⟩
    | none =>
      simp [herr, ProviderController.Send, http.StatusFound] at hstatus

/-- The code of the payload of every 400 answer of `exchange` is in the taxonomy
when the errors of the backend are. -/
theorem exchange_400_inTaxonomy (c : ProviderController) (hp : c.provider.inTaxonomy)
    (ctx : Context) (rw : http.ResponseWriter) (code redirectURI : Option String)
    (hstatus : (c.exchange ctx rw code redirectURI).Status = 400) :
    ∃ m : app.OAuth2ErrorMedia,
      (c.exchange ctx rw code redirectURI).Body = Body.errorMedia m ∧ m.Error ∈ taxonomy := by
  by_cases hfail : ContextClientID ctx = "" ∨ code = none ∨ redirectURI = none
      ∨ ∃ r, redirectURI = some r ∧ absoluteURL r = false
  · rw [exchange_invalid c ctx rw code redirectURI hfail]
    refine ⟨_, rfl, ?_⟩
    have hc := constants_inTaxonomy
    split
    · exact hc.1
    · split
      · exact hc.2.1
      · split
        · exact hc.2.2.2.1
        · exact hc.2.2.2.2.1
  · have hid : ContextClientID ctx ≠ "" := fun h => hfail (Or.inl h)
    have h1 : code ≠ none := fun h => hfail (Or.inr (Or.inl h))
    have h2 : redirectURI ≠ none := fun h => hfail (Or.inr (Or.inr (Or.inl h)))
    obtain ⟨code1, rfl⟩ := Option.ne_none_iff_exists'.1 h1
    obtain ⟨r, rfl⟩ := Option.ne_none_iff_exists'.1 h2
    have habs : absoluteURL r = true := by
      cases hb : absoluteURL r with
      | true => rfl
      | false => exact absurd (Or.inr (Or.inr (Or.inr ⟨r, rfl, hb⟩))) hfail
    rw [exchange_valid c ctx rw code1 r hid habs] at hstatus ⊢
    cases herr : (c.provider.Exchange (ContextClientID ctx) code1 r).err with
    | some err =>
      simp only [herr]
      exact ⟨_, rfl, errorToMedia_inTaxonomy err (hp.2.1 _ _ _ err herr)⟩
    | none =>
      simp [herr] at hstatus

/-- The code of the payload of every 400 answer of `refresh` is in the taxonomy
when the errors of the backend are. -/
theorem refresh_400_inTaxonomy (c : ProviderController) (hp : c.provider.inTaxonomy)
    (ctx : Context) (rw : http.ResponseWriter) (refreshToken scope : Option String)
    (hstatus : (c.refresh ctx rw refreshToken scope).Status = 400) :
    ∃ m : app.OAuth2ErrorMedia,
      (c.refresh ctx rw refreshToken scope).Body = Body.errorMedia m ∧ m.Error ∈ taxonomy := by
  cases refreshToken with
  | none => exact ⟨MissingRefreshToken, rfl, constants_inTaxonomy.2.2.2.2.2.2⟩
  | some token =>
    rw [refresh_valid c ctx rw token scope] at hstatus ⊢
    cases herr : (c.provider.Refresh token (scope.getD "")).err with
    | some err =>
      simp only [herr]
      exact ⟨_, rfl, errorToMedia_inTaxonomy err (hp.2.2 _ _ err herr)⟩
    | none =>
      simp [herr] at hstatus

theorem exampleStrictProvider_inTaxonomy : exampleStrictProvider.inTaxonomy := by
  refine ⟨?_, ?_, ?_⟩
  · intro clientID scope redirectURI err herr
    simp only [exampleStrictProvider, Option.some.injEq] at herr
    subst herr
    show ErrUnauthorizedClient ∈ taxonomy
    decide
  · intro clientID code redirectURI err herr
    simp only [exampleStrictProvider, Option.some.injEq] at herr
    subst herr
    show ErrInvalidGrant ∈ taxonomy
    decide
  · intro refreshToken scope err herr
    simp only [exampleStrictProvider, Option.some.injEq] at herr
    subst herr
    trivial

/-- C16 as stated fails: the backend's `Exchange` returns an error that
implements `Error` with the code `server_error`, and the exchange answers 400
with that code, which is none of the six. -/
theorem flows_error_code_counterexample :
    (exampleRogueProvider.Exchange "c1" "ABC123" "https://client.example/cb").err
      = some (.implementsError (NewError "server_error" "boom" ""))
    ∧ (ProviderController.exchange { provider := exampleRogueProvider } (WithClientID [] "c1") {}
        (some "ABC123") (some "https://client.example/cb")).Status = 400
    ∧ (ProviderController.exchange { provider := exampleRogueProvider } (WithClientID [] "c1") {}
        (some "ABC123") (some "https://client.example/cb")).Body
      = Body.errorMedia { Error := "server_error", ErrorDescription := some "boom",
                          ErrorURI := none }
    ∧ "server_error" ∉ taxonomy
    ∧ "server_error" ≠ "invalid_request" := by
  refine ⟨rfl, by rfl, by rfl, by decide, by decide⟩

/-- C16, amended. For every request and every backend whose errors that
implement `Error` carry one of the six codes of the taxonomy, the payload of
every 400 answer of `Authorize` and of `GetToken` carries one of the six codes.
`errorToMedia` turns an error that does not implement `Error` into
`invalid_request`, and reports for one that implements `Error` the code it
carries, as it is. -/
theorem flows_error_code_in_taxonomy (c : ProviderController) (hp : c.provider.inTaxonomy) :
    (∀ (ctx : Context) (rw : http.ResponseWriter) (req : http.Request),
        (c.Authorize ctx rw req).Status = 400 →
        ∃ m : app.OAuth2ErrorMedia,
          (c.Authorize ctx rw req).Body = Body.errorMedia m ∧ m.Error ∈ taxonomy)
    ∧ (∀ (ctx : Context) (rw : http.ResponseWriter) (grantType : String)
        (code redirectURI refreshToken scope : Option String),
        (c.GetToken ctx rw grantType code redirectURI refreshToken scope).Status = 400 →
        ∃ m : app.OAuth2ErrorMedia,
          (c.GetToken ctx rw grantType code redirectURI refreshToken scope).Body
            = Body.errorMedia m ∧ m.Error ∈ taxonomy)
    ∧ (∀ message : String, (errorToMedia (.other message)).Error = "invalid_request")
    ∧ (∀ e : Error, (errorToMedia (.implementsError e)).Error = e.Code)
    ∧ taxonomy = ["invalid_request", "invalid_client", "invalid_grant", "unauthorized_client",
                  "unsupported_grant_type", "invalid_scope"] := by
  refine ⟨Authorize_400_inTaxonomy c hp, ?_, fun _ => rfl, ?_, rfl⟩
  · intro ctx rw grantType code redirectURI refreshToken scope hstatus
    by_cases h1 : grantType = "authorization_code"
    · subst h1
      have heq : c.GetToken ctx rw "authorization_code" code redirectURI refreshToken scope
          = c.exchange ctx rw code redirectURI := by simp [ProviderController.GetToken]
      rw [heq] at hstatus ⊢
      exact exchange_400_inTaxonomy c hp ctx rw code redirectURI hstatus
    · by_cases h2 : grantType = "refresh_token"
      · subst h2
        have heq : c.GetToken ctx rw "refresh_token" code redirectURI refreshToken scope
            = c.refresh ctx rw refreshToken scope := by simp [ProviderController.GetToken]
        rw [heq] at hstatus ⊢
        exact refresh_400_inTaxonomy c hp ctx rw refreshToken scope hstatus
      · rw [GetToken_unknown c ctx rw grantType code redirectURI refreshToken scope h1 h2]
        exact ⟨InvalidGrantType, rfl, constants_inTaxonomy.2.2.2.2.2.1⟩
  · intro e
    rw [errorToMedia_implementsError e]

/-- C16 amended, at the strict backend, whose errors keep to the taxonomy: the
exchange it refuses is answered 400 with the code `invalid_grant`, the refresh it
fails with `invalid_request`. -/
theorem flows_error_code_in_taxonomy_witness :
    exampleStrictProvider.inTaxonomy
    ∧ (∃ m : app.OAuth2ErrorMedia,
        (ProviderController.GetToken { provider := exampleStrictProvider }
          (WithClientID [] "c1") {} "authorization_code" (some "ABC123")
          (some "https://client.example/cb") none none).Body = Body.errorMedia m
        ∧ m.Error ∈ taxonomy)
    ∧ (∃ m : app.OAuth2ErrorMedia,
        (ProviderController.GetToken { provider := exampleStrictProvider }
          (WithClientID [] "c1") {} "refresh_token" none none (some "r1") none).Body
          = Body.errorMedia m
        ∧ m.Error ∈ taxonomy) :=
  have h := flows_error_code_in_taxonomy { provider := exampleStrictProvider }
    exampleStrictProvider_inTaxonomy
  ⟨exampleStrictProvider_inTaxonomy,
   h.2.1 (WithClientID [] "c1") {} "authorization_code" (some "ABC123")
     (some "https://client.example/cb") none none (by rfl),
   h.2.1 (WithClientID [] "c1") {} "refresh_token" none none (some "r1") none (by rfl)⟩

/-- C17, on the code. `OAuth2ErrorMedia.Validate` returns nil exactly for the
five codes `invalid_request`, `invalid_client`, `invalid_grant`,
`unauthorized_client` and `unsupported_grant_type`: the sixth code of the
taxonomy, the constant `ErrInvalidScope`, is refused as a value outside the
enumeration, and so is the payload `errorToMedia` builds for a backend error
with that code.  The empty string is refused as missing and as outside the
enumeration. -/
theorem OAuth2ErrorMedia_Validate_misses_invalid_scope :
    (∀ mt : app.OAuth2ErrorMedia, mt.Validate = [] ↔
      mt.Error ∈ ["invalid_request", "invalid_client", "invalid_grant", "unauthorized_client",
                  "unsupported_grant_type"])
    ∧ ErrInvalidScope = "invalid_scope"
    ∧ ErrInvalidScope ∈ taxonomy
    ∧ app.OAuth2ErrorMedia.Validate { Error := "invalid_scope" }
        = [.InvalidEnumValueError "response.error" "invalid_scope"
            ["invalid_request", "invalid_client", "invalid_grant", "unauthorized_client",
             "unsupported_grant_type"]]
    ∧ (errorToMedia (.implementsError (NewError ErrInvalidScope "scope not granted" ""))).Validate
        ≠ []
    ∧ app.OAuth2ErrorMedia.Validate { Error := "" }
        = [.MissingAttributeError "response" "error",
           .InvalidEnumValueError "response.error" ""
            ["invalid_request", "invalid_client", "invalid_grant", "unauthorized_client",
             "unsupported_grant_type"]] := by
  refine ⟨?_, rfl, by decide, by decide, by decide, by decide⟩
  intro mt
  unfold app.OAuth2ErrorMedia.Validate goa.MergeErrors
  by_cases h0 : mt.Error = ""
  · simp [h0]
  · by_cases h : mt.Error = "invalid_request" ∨ mt.Error = "invalid_client"
        ∨ mt.Error = "invalid_grant" ∨ mt.Error = "unauthorized_client"
        ∨ mt.Error = "unsupported_grant_type"
    · simp [h0, h]
    · simp only [h0, h, if_false, not_false_eq_true, if_true, List.nil_append]
      simp only [List.mem_cons, List.mem_singleton, List.not_mem_nil, or_false]
      constructor
      · intro hne
        cases hne
      · intro hmem
        exact absurd hmem h

/-! ## The credential context -/

theorem Built_Value_string (raw : RawContext) (hb : raw.Built) :
    ∀ v, raw.Value clientIDKey = some v → ∃ cid, v = ContextValue.string cid := by
  induction hb with
  | background =>
    intro v hv
    simp [RawContext.Value] at hv
  | withClientID ctx clientID _ ih =>
    intro v hv
    simp only [RawContext.WithClientID, RawContext.Value, if_true, Option.some.injEq] at hv
    exact ⟨clientID, hv.symm⟩
  | withValue ctx name v0 _ ih =>
    intro v hv
    have hne : ContextKey.foreign name ≠ clientIDKey := by
      simp [clientIDKey]
    simp only [RawContext.Value, hne, if_false] at hv
    exact ih v hv

theorem toRaw_Value (ctx : Context) (k : ContextKey) :
    ctx.toRaw.Value k = (ctx.Value k).map ContextValue.string := by
  induction ctx with
  | nil => rfl
  | cons kv rest ih =>
    obtain ⟨k1, v⟩ := kv
    by_cases hk : k1 = k
    · simp [Context.toRaw, RawContext.Value, Context.Value, hk]
    · have ih2 : RawContext.Value (List.map (fun kv => (kv.1, ContextValue.string kv.2)) rest) k
          = (Context.Value rest k).map ContextValue.string := ih
      simp [Context.toRaw, RawContext.Value, Context.Value, hk, ih2]

/-- C18. `ContextClientID` of `WithClientID(ctx, id)` is `id`, for every
context and every string, so a later `WithClientID` overrides an earlier one;
of a context in which no client id was set, such as the empty context, or a
context extended under a key of another type, it is the empty string.
`ContextClientID` never fails: on every context a program can build its type
assertion finds a string, and it is the function `ContextClientID` of the
contexts of strings. -/
theorem ContextClientID_WithClientID_roundtrip (ctx : Context) (id earlier : String) :
    ContextClientID (WithClientID ctx id) = id
    ∧ ContextClientID (WithClientID (WithClientID ctx earlier) id) = id
    ∧ (ctx.Value clientIDKey = none → ContextClientID ctx = "")
    ∧ ContextClientID [] = ""
    ∧ (∀ (name value : String),
        ContextClientID ((ContextKey.foreign name, value) :: ctx) = ContextClientID ctx)
    ∧ (∀ raw : RawContext, raw.Built →
        (∃ cid, raw.ContextClientID = some cid)
        ∧ (raw.WithClientID id).ContextClientID = some id
        ∧ (raw.Value clientIDKey = none → raw.ContextClientID = some ""))
    ∧ ctx.toRaw.ContextClientID = some (ContextClientID ctx) := by
  refine ⟨ContextClientID_WithClientID ctx id, ContextClientID_WithClientID _ id, ?_, rfl, ?_,
    ?_, ?_⟩
  · intro hnone
    simp [ContextClientID, hnone]
  · intro name value
    have hne : ContextKey.foreign name ≠ clientIDKey := by simp [clientIDKey]
    simp [ContextClientID, Context.Value, hne]
  · intro raw hb
    refine ⟨?_, ?_, ?_⟩
    · cases hv : raw.Value clientIDKey with
      | none => exact ⟨"", by simp [RawContext.ContextClientID, hv]⟩
      | some v =>
        obtain ⟨cid, rfl⟩ := Built_Value_string raw hb v hv
        exact ⟨cid, by simp [RawContext.ContextClientID, hv]⟩
    · simp [RawContext.ContextClientID, RawContext.WithClientID, RawContext.Value]
    · intro hnone
      simp [RawContext.ContextClientID, hnone]
  · unfold RawContext.ContextClientID ContextClientID
    rw [toRaw_Value]
    cases ctx.Value clientIDKey <;> rfl

/-- C18, at a context that holds a request id under the key of another package:
it has no client id, and the context a program builds from it with two client
ids has the later one. -/
theorem ContextClientID_WithClientID_roundtrip_witness :
    ContextClientID [(ContextKey.foreign "request-id", "42")] = ""
    ∧ ContextClientID
        (WithClientID (WithClientID [(ContextKey.foreign "request-id", "42")] "c0") "c1") = "c1"
    ∧ (∃ cid, RawContext.ContextClientID
        [(ContextKey.foreign "deadline", ContextValue.other "time.Time"),
         (clientIDKey, ContextValue.string "c1")] = some cid) :=
  have h := ContextClientID_WithClientID_roundtrip
    [(ContextKey.foreign "request-id", "42")] "c1" "c0"
  ⟨h.2.2.1 (by rfl), h.2.1,
   (h.2.2.2.2.2.1 _ (RawContext.Built.withValue _ "deadline" (ContextValue.other "time.Time")
      (RawContext.Built.withClientID [] "c1" RawContext.Built.background))).1⟩

/-! ## Errors of the backend -/

/-- C19. When a request passes the checks of its flow and the backend operation
returns an error, the flow answers 400 with the payload `errorToMedia(err)`,
after the one call to the backend, and leaves the headers of the response as
they were: there is no token body and no `Location`.  So it is for `Authorize`,
`exchange` and `refresh`.  When the backend refuses a replayed authorization
code with `NewError(ErrInvalidGrant, d, u)` the exchange is answered 400 with the
code `invalid_grant`. -/
theorem backend_error_surfaced (c : ProviderController) (ctx : Context)
    (rw : http.ResponseWriter) (err : error) :
    (∀ req : http.Request, req.URL.Query.Get "client_id" ≠ ""
      → req.URL.Query.Get "response_type" = "code"
      → absoluteURL (req.URL.Query.Get "redirect_uri") = true
      → (c.provider.Authorize (req.URL.Query.Get "client_id") (req.URL.Query.Get "scope")
          (req.URL.Query.Get "redirect_uri")).err = some err
      → c.Authorize ctx rw req =
          { Header := rw.Header, Status := 400, Body := Body.errorMedia (errorToMedia err),
            Calls := [Call.Authorize (req.URL.Query.Get "client_id")
              (req.URL.Query.Get "scope") (req.URL.Query.Get "redirect_uri")] })
    ∧ (∀ code redirectURI : String, ContextClientID ctx ≠ ""
      → absoluteURL redirectURI = true
      → (c.provider.Exchange (ContextClientID ctx) code redirectURI).err = some err
      → c.exchange ctx rw (some code) (some redirectURI) =
          { Header := rw.Header, Status := 400, Body := Body.errorMedia (errorToMedia err),
            Calls := [Call.Exchange (ContextClientID ctx) code redirectURI] })
    ∧ (∀ (refreshToken : String) (scope : Option String),
      (c.provider.Refresh refreshToken (scope.getD "")).err = some err
      → c.refresh ctx rw (some refreshToken) scope =
          { Header := rw.Header, Status := 400, Body := Body.errorMedia (errorToMedia err),
            Calls := [Call.Refresh refreshToken (scope.getD "")] })
    ∧ (∀ code redirectURI d u : String, ContextClientID ctx ≠ ""
      → absoluteURL redirectURI = true
      → (c.provider.Exchange (ContextClientID ctx) code redirectURI).err
          = some (.implementsError (NewError ErrInvalidGrant d u))
      → (c.exchange ctx rw (some code) (some redirectURI)).Status = 400
        ∧ ∃ m : app.OAuth2ErrorMedia,
            (c.exchange ctx rw (some code) (some redirectURI)).Body = Body.errorMedia m
            ∧ m.Error = "invalid_grant") := by
  refine ⟨?_, ?_, ?_, ?_⟩
  · intro req hid hrt habs herr
    obtain ⟨u, hu, hs, hh⟩ := (absoluteURL_eq_true_iff _).1 habs
    rw [Authorize_valid c ctx rw req u hid hrt hu hs hh]
    simp only [herr, ProviderController.Send, http.StatusBadRequest]
  · intro code redirectURI hid habs herr
    rw [exchange_valid c ctx rw code redirectURI hid habs]
    simp only [herr]
  · intro refreshToken scope herr
    rw [refresh_valid c ctx rw refreshToken scope]
    simp only [herr]
  · intro code redirectURI d u hid habs herr
    have hout : c.exchange ctx rw (some code) (some redirectURI) =
        { Header := rw.Header, Status := 400,
          Body := Body.errorMedia (errorToMedia (.implementsError (NewError ErrInvalidGrant d u))),
          Calls := [Call.Exchange (ContextClientID ctx) code redirectURI] } := by
      rw [exchange_valid c ctx rw code redirectURI hid habs]
      simp only [herr]
    rw [hout]
    refine ⟨rfl, _, rfl, ?_⟩
    rw [errorToMedia_implementsError]
    rfl

/-- C19, at the strict backend, which refuses the code `ABC123` as used
already: the exchange is answered 400 with `invalid_grant` and no header is
written. -/
theorem backend_error_surfaced_witness :
    ProviderController.exchange { provider := exampleStrictProvider } (WithClientID [] "c1") {}
        (some "ABC123") (some "https://client.example/cb")
      = { Header := [], Status := 400,
          Body := Body.errorMedia
            (errorToMedia (.implementsError
              (NewError ErrInvalidGrant "authorization code already used" ""))),
          Calls := [Call.Exchange "c1" "ABC123" "https://client.example/cb"] }
    ∧ ∃ m : app.OAuth2ErrorMedia,
        (ProviderController.exchange { provider := exampleStrictProvider }
          (WithClientID [] "c1") {} (some "ABC123") (some "https://client.example/cb")).Body
          = Body.errorMedia m
        ∧ m.Error = "invalid_grant" :=
  have h := backend_error_surfaced { provider := exampleStrictProvider } (WithClientID [] "c1")
    {} (.implementsError (NewError ErrInvalidGrant "authorization code already used" ""))
  ⟨h.2.1 "ABC123" "https://client.example/cb" (by decide) (by rfl) rfl,
   (h.2.2.2 "ABC123" "https://client.example/cb" "authorization code already used" ""
      (by decide) (by rfl) rfl).2⟩

/-- C20. The value `NewError(code, description, uri)` returns for `Code()` the
code, for `Description()` the description and for `URI()` the URI, and its
`Error()` is the code, one space, and the description; the URI is not in it.
These are the methods of the `oauth2Error` it holds. -/
theorem NewError_methods (code : ErrorCode) (description uri : String) :
    (NewError code description uri).Code = code
    ∧ (NewError code description uri).Description = description
    ∧ (NewError code description uri).URI = uri
    ∧ (NewError code description uri).Error = code ++ " " ++ description
    ∧ (∀ other : String,
        (NewError code description other).Error = (NewError code description uri).Error)
    ∧ NewError code description uri
        = (oauth2Error.mk code description uri).toError
    ∧ (oauth2Error.mk code description uri).Code = code
    ∧ (oauth2Error.mk code description uri).Description = description
    ∧ (oauth2Error.mk code description uri).URI = uri
    ∧ (oauth2Error.mk code description uri).Error = code ++ " " ++ description
    ∧ (NewError ErrInvalidGrant "code expired" "https://example.org/errors").Error
        = "invalid_grant code expired" := by
  refine ⟨rfl, rfl, rfl, rfl, fun _ => rfl, rfl, rfl, rfl, rfl, rfl, by decide⟩

/-! ## The predefined payloads and the payload of the token request -/

/-- C21. Each of the eight predefined payloads has a description that is not
empty, no URI, the code `invalid_request` or `invalid_grant`, and passes
`OAuth2ErrorMedia.Validate`. -/
theorem predefined_payloads_valid :
    ∀ m ∈ [MissingClientID, MissingCode, BadResponseType, MissingRedirect, InvalidRedirect,
           MalformedBody, InvalidGrantType, MissingRefreshToken],
      m.ErrorDescription ≠ none ∧ m.ErrorDescription ≠ some ""
      ∧ m.ErrorURI = none
      ∧ (m.Error = "invalid_request" ∨ m.Error = "invalid_grant")
      ∧ m.Validate = [] := by
  decide

/-- C21, at the payloads `MissingClientID` and `MalformedBody`. -/
theorem predefined_payloads_valid_witness :
    (MissingClientID.ErrorURI = none ∧ MissingClientID.Validate = [])
    ∧ (MalformedBody.ErrorDescription ≠ some "" ∧ MalformedBody.Validate = []) :=
  have h1 := predefined_payloads_valid MissingClientID (by decide)
  have h2 := predefined_payloads_valid MalformedBody (by decide)
  ⟨⟨h1.2.2.1, h1.2.2.2.2⟩, ⟨h2.2.1, h2.2.2.2.2⟩⟩

theorem TokenPayload_Validate_iff (ut : app.TokenPayload) :
    ut.Validate = [] ↔ ut.GrantType = "authorization_code" ∨ ut.GrantType = "refresh_token" := by
  unfold app.TokenPayload.Validate goa.MergeErrors
  by_cases h : ut.GrantType = "authorization_code" ∨ ut.GrantType = "refresh_token"
  · have h0 : ut.GrantType ≠ "" := by
      rcases h with h | h <;> (rw [h]; decide)
    simp [h0, h]
  · simp [h]

theorem tokenPayload_Validate_iff (ut : app.tokenPayload) :
    ut.Validate = [] ↔
      ut.GrantType = some "authorization_code" ∨ ut.GrantType = some "refresh_token" := by
  unfold app.tokenPayload.Validate goa.MergeErrors
  cases hg : ut.GrantType with
  | none => simp
  | some g =>
    by_cases h : g = "authorization_code" ∨ g = "refresh_token"
    · simp [h]
    · simp [h]

/-- With a client id in the context, or without, `exchange` never gives the
answer of `GetToken` to an unknown grant type. -/
theorem exchange_ne_invalidGrantType (c : ProviderController) (ctx : Context)
    (rw : http.ResponseWriter) (code redirectURI : Option String) :
    c.exchange ctx rw code redirectURI ≠ invalidGrantTypeOutcome rw := by
  intro heq
  by_cases hfail : ContextClientID ctx = "" ∨ code = none ∨ redirectURI = none
      ∨ ∃ r, redirectURI = some r ∧ absoluteURL r = false
  · rw [exchange_invalid c ctx rw code redirectURI hfail] at heq
    have hbody := congrArg Outcome.Body heq
    simp only [invalidGrantTypeOutcome, Body.errorMedia.injEq] at hbody
    revert hbody
    split
    · decide
    · split
      · decide
      · split <;> decide
  · have hid : ContextClientID ctx ≠ "" := fun h => hfail (Or.inl h)
    have h1 : code ≠ none := fun h => hfail (Or.inr (Or.inl h))
    have h2 : redirectURI ≠ none := fun h => hfail (Or.inr (Or.inr (Or.inl h)))
    obtain ⟨code1, rfl⟩ := Option.ne_none_iff_exists'.1 h1
    obtain ⟨r, rfl⟩ := Option.ne_none_iff_exists'.1 h2
    have habs : absoluteURL r = true := by
      cases hb : absoluteURL r with
      | true => rfl
      | false => exact absurd (Or.inr (Or.inr (Or.inr ⟨r, rfl, hb⟩))) hfail
    rw [exchange_valid c ctx rw code1 r hid habs] at heq
    have hcalls := congrArg Outcome.Calls heq
    cases herr : (c.provider.Exchange (ContextClientID ctx) code1 r).err
      <;> simp [herr, invalidGrantTypeOutcome] at hcalls

/-- `refresh` never gives the answer of `GetToken` to an unknown grant type. -/
theorem refresh_ne_invalidGrantType (c : ProviderController) (ctx : Context)
    (rw : http.ResponseWriter) (refreshToken scope : Option String) :
    c.refresh ctx rw refreshToken scope ≠ invalidGrantTypeOutcome rw := by
  intro heq
  cases refreshToken with
  | none =>
    have hbody := congrArg Outcome.Body heq
    have hb : Body.errorMedia MissingRefreshToken = Body.errorMedia InvalidGrantType := hbody
    revert hb
    decide
  | some token =>
    rw [refresh_valid c ctx rw token scope] at heq
    have hcalls := congrArg Outcome.Calls heq
    cases herr : (c.provider.Refresh token (scope.getD "")).err
      <;> simp [herr, invalidGrantTypeOutcome] at hcalls

/-- When `exchange` answers without a call to the backend, its payload is not
`InvalidGrantType`. -/
theorem exchange_own_answer_ne_invalidGrantType (c : ProviderController) (ctx : Context)
    (rw : http.ResponseWriter) (code redirectURI : Option String)
    (hcalls : (c.exchange ctx rw code redirectURI).Calls = []) :
    (c.exchange ctx rw code redirectURI).Body ≠ Body.errorMedia InvalidGrantType := by
  intro hbody
  by_cases hfail : ContextClientID ctx = "" ∨ code = none ∨ redirectURI = none
      ∨ ∃ r, redirectURI = some r ∧ absoluteURL r = false
  · rw [exchange_invalid c ctx rw code redirectURI hfail] at hbody
    simp only [Body.errorMedia.injEq] at hbody
    revert hbody
    split
    · decide
    · split
      · decide
      · split <;> decide
  · have hid : ContextClientID ctx ≠ "" := fun h => hfail (Or.inl h)
    have h1 : code ≠ none := fun h => hfail (Or.inr (Or.inl h))
    have h2 : redirectURI ≠ none := fun h => hfail (Or.inr (Or.inr (Or.inl h)))
    obtain ⟨code1, rfl⟩ := Option.ne_none_iff_exists'.1 h1
    obtain ⟨r, rfl⟩ := Option.ne_none_iff_exists'.1 h2
    have habs : absoluteURL r = true := by
      cases hb : absoluteURL r with
      | true => rfl
      | false => exact absurd (Or.inr (Or.inr (Or.inr ⟨r, rfl, hb⟩))) hfail
    rw [exchange_valid c ctx rw code1 r hid habs] at hcalls
    cases herr : (c.provider.Exchange (ContextClientID ctx) code1 r).err
      <;> simp [herr] at hcalls

/-- When `refresh` answers without a call to the backend, its payload is not
`InvalidGrantType`. -/
theorem refresh_own_answer_ne_invalidGrantType (c : ProviderController) (ctx : Context)
    (rw : http.ResponseWriter) (refreshToken scope : Option String)
    (hcalls : (c.refresh ctx rw refreshToken scope).Calls = []) :
    (c.refresh ctx rw refreshToken scope).Body ≠ Body.errorMedia InvalidGrantType := by
  intro hbody
  cases refreshToken with
  | none =>
    have hb : Body.errorMedia MissingRefreshToken = Body.errorMedia InvalidGrantType := hbody
    revert hb
    decide
  | some token =>
    rw [refresh_valid c ctx rw token scope] at hcalls
    cases herr : (c.provider.Refresh token (scope.getD "")).err
      <;> simp [herr] at hcalls

/-- C22 as stated fails: the payload of an exchange passes
`TokenPayload.Validate`, the backend's `Exchange` fails with an error of its own
that has the code and the text of `InvalidGrantType`, and `GetToken` answers 400
with the payload `InvalidGrantType`. -/
theorem TokenPayload_Validate_closed_enum_counterexample :
    exampleExchangePayload.Validate = []
    ∧ (ProviderController.GetToken { provider := exampleEchoProvider } (WithClientID [] "c1") {}
        exampleExchangePayload.GrantType exampleExchangePayload.Code
        exampleExchangePayload.RedirectURI exampleExchangePayload.RefreshToken
        exampleExchangePayload.Scope).Status = 400
    ∧ (ProviderController.GetToken { provider := exampleEchoProvider } (WithClientID [] "c1") {}
        exampleExchangePayload.GrantType exampleExchangePayload.Code
        exampleExchangePayload.RedirectURI exampleExchangePayload.RefreshToken
        exampleExchangePayload.Scope).Body = Body.errorMedia InvalidGrantType
    ∧ (ProviderController.GetToken { provider := exampleEchoProvider } (WithClientID [] "c1") {}
        exampleExchangePayload.GrantType exampleExchangePayload.Code
        exampleExchangePayload.RedirectURI exampleExchangePayload.RefreshToken
        exampleExchangePayload.Scope).Calls
      = [Call.Exchange "c1" "ABC123" "https://client.example/cb"] := by
  refine ⟨by decide, by rfl, by rfl, by rfl⟩

/-- C22, amended. `TokenPayload.Validate` returns nil exactly when the grant
type is `authorization_code` or `refresh_token`.  So for a payload that passes
it `GetToken` is the exchange or the refresh of the fields of the payload, and
never gives the answer of its own to an unknown grant type, the payload
`InvalidGrantType` sent with no call to the backend: when it answers with no
call to the backend its payload is another, and the payload `InvalidGrantType`
is in its answer only as the error the backend returned, after the call. -/
theorem TokenPayload_Validate_closed_enum (c : ProviderController) (ctx : Context)
    (rw : http.ResponseWriter) (payload : app.TokenPayload) :
    (payload.Validate = [] ↔
      payload.GrantType = "authorization_code" ∨ payload.GrantType = "refresh_token")
    ∧ (payload.Validate = [] →
        (c.GetToken ctx rw payload.GrantType payload.Code payload.RedirectURI
            payload.RefreshToken payload.Scope
          = c.exchange ctx rw payload.Code payload.RedirectURI
         ∨ c.GetToken ctx rw payload.GrantType payload.Code payload.RedirectURI
            payload.RefreshToken payload.Scope
          = c.refresh ctx rw payload.RefreshToken payload.Scope)
        ∧ c.GetToken ctx rw payload.GrantType payload.Code payload.RedirectURI
            payload.RefreshToken payload.Scope ≠ invalidGrantTypeOutcome rw
        ∧ ((c.GetToken ctx rw payload.GrantType payload.Code payload.RedirectURI
              payload.RefreshToken payload.Scope).Calls = []
            → (c.GetToken ctx rw payload.GrantType payload.Code payload.RedirectURI
                payload.RefreshToken payload.Scope).Body ≠ Body.errorMedia InvalidGrantType))
    ∧ invalidGrantTypeOutcome rw =
        { Header := rw.Header, Status := 400, Body := Body.errorMedia InvalidGrantType,
          Calls := [] } := by
  refine ⟨TokenPayload_Validate_iff payload, ?_, rfl⟩
  intro hvalid
  rcases (TokenPayload_Validate_iff payload).1 hvalid with hg | hg
  · have heq : c.GetToken ctx rw payload.GrantType payload.Code payload.RedirectURI
        payload.RefreshToken payload.Scope = c.exchange ctx rw payload.Code payload.RedirectURI := by
      simp [ProviderController.GetToken, hg]
    rw [heq]
    exact ⟨Or.inl rfl, exchange_ne_invalidGrantType c ctx rw _ _,
      exchange_own_answer_ne_invalidGrantType c ctx rw _ _⟩
  · have heq : c.GetToken ctx rw payload.GrantType payload.Code payload.RedirectURI
        payload.RefreshToken payload.Scope = c.refresh ctx rw payload.RefreshToken payload.Scope := by
      simp [ProviderController.GetToken, hg]
    rw [heq]
    exact ⟨Or.inr rfl, refresh_ne_invalidGrantType c ctx rw _ _,
      refresh_own_answer_ne_invalidGrantType c ctx rw _ _⟩

/-- C22 amended, at the payload of a refresh, which passes `Validate`: `GetToken`
is not the answer to an unknown grant type; and at the payload of an exchange
with the backend that fails with the text of `InvalidGrantType`: that payload
is sent after the call to the backend. -/
theorem TokenPayload_Validate_closed_enum_witness :
    app.TokenPayload.Validate { GrantType := "refresh_token", RefreshToken := some "r1" } = []
    ∧ ProviderController.GetToken { provider := exampleProvider } (WithClientID [] "c1") {}
        "refresh_token" none none (some "r1") none ≠ invalidGrantTypeOutcome {}
    ∧ ProviderController.GetToken { provider := exampleEchoProvider } (WithClientID [] "c1") {}
        "authorization_code" (some "ABC123") (some "https://client.example/cb") none none
        ≠ invalidGrantTypeOutcome {} :=
  have h := TokenPayload_Validate_closed_enum { provider := exampleProvider }
    (WithClientID [] "c1") {} { GrantType := "refresh_token", RefreshToken := some "r1" }
  have h2 := TokenPayload_Validate_closed_enum { provider := exampleEchoProvider }
    (WithClientID [] "c1") {} exampleExchangePayload
  ⟨by decide, (h.2.1 (by decide)).2.1, (h2.2.1 (by decide)).2.1⟩

/-- C24. The validation of the decoded payload agrees with that of the public
payload: `Validate` of a `tokenPayload` returns nil exactly when `Validate` of
what `Publicize` makes of it does.  `Publicize` copies the code, the redirect
URI, the refresh token and the scope as they are, absent when they are absent,
and the grant type, for which it has the empty string when it is absent. -/
theorem tokenPayload_Validate_agrees_with_public (ut : app.tokenPayload) :
    (ut.Validate = [] ↔ ut.Publicize.Validate = [])
    ∧ ut.Publicize.Code = ut.Code
    ∧ ut.Publicize.RedirectURI = ut.RedirectURI
    ∧ ut.Publicize.RefreshToken = ut.RefreshToken
    ∧ ut.Publicize.Scope = ut.Scope
    ∧ ut.Publicize.GrantType = (match ut.GrantType with
        | some grantType => grantType
        | none => "") := by
  have hpub : ut.Publicize =
      { Code := ut.Code, RedirectURI := ut.RedirectURI, RefreshToken := ut.RefreshToken,
        Scope := ut.Scope,
        GrantType := (match ut.GrantType with
          | some grantType => grantType
          | none => "") } := by
    obtain ⟨code, grantType, redirectURI, refreshToken, scope⟩ := ut
    cases code <;> cases grantType <;> cases redirectURI <;> cases refreshToken <;> cases scope
      <;> rfl
  rw [hpub]
  refine ⟨?_, rfl, rfl, rfl, rfl, rfl⟩
  rw [tokenPayload_Validate_iff, TokenPayload_Validate_iff]
  cases ut.GrantType with
  | none => simp
  | some g => simp

/-! ## The parameters of the redirect URI -/

/-- The text of a URL is its text before the query, the query, and its text
after the query. -/
theorem url.text_parts (u : url.URL) :
    u.String = url.beforeQuery u ++ url.queryText u ++ url.afterQuery u := by
  unfold url.beforeQuery url.queryText url.afterQuery url.URL.String
  simp only [url.URL.EscapedPath, url.URL.EscapedFragment]
  by_cases hq : u.ForceQuery = true ∨ u.RawQuery ≠ "" <;> by_cases hf : u.Fragment ≠ ""
    <;> simp [hq, hf, String.append_assoc]

/-- C23 as stated fails: the redirect URI
`https://client.example/cb?bad=%zz&keep=1` has the parameter `bad`, the request
succeeds, and the URL it is redirected to,
`https://client.example/cb?code=ABC123&keep=1`, has no `bad`. -/
theorem Authorize_keeps_redirect_parameters_counterexample :
    exampleBadEscapeRedirectRequest.URL.Query.Get "redirect_uri"
      = "https://client.example/cb?bad=%zz&keep=1"
    ∧ (ProviderController.Authorize { provider := exampleProvider } [] {}
        exampleBadEscapeRedirectRequest).Status = 302
    ∧ (ProviderController.Authorize { provider := exampleProvider } [] {}
        exampleBadEscapeRedirectRequest).Header.Get "Location"
      = some "https://client.example/cb?code=ABC123&keep=1"
    ∧ (url.Parse "https://client.example/cb?bad=%zz&keep=1").map (fun u => u.RawQuery)
      = some "bad=%zz&keep=1"
    ∧ (url.Parse "https://client.example/cb?bad=%zz&keep=1").map
        (fun u => (u.Query.lookup "bad", u.Query.lookup "keep")) = some ([], ["1"])
    ∧ (url.Parse "https://client.example/cb?code=ABC123&keep=1").map
        (fun u => (u.Query.lookup "bad", u.Query.lookup "keep")) = some ([], ["1"]) := by
  refine ⟨by rfl, by rfl, by rfl, by rfl, by rfl, by rfl⟩

/-- C23, amended. A successful authorize request is redirected to a URL that
is the parsed redirect URI but for its query: it has its scheme, host and path,
and its text is that of the parsed redirect URI before the query and after it.
Of the parameters that `Query` parses from the redirect URI, every one other
than `code`, and other than `state` when a state was supplied, has in the query
of that URL the values it has in the redirect URI, and `code` has exactly one
value, the issued code, whatever values of `code` the redirect URI had.  (The
query of the redirect URI, the code and the state are strings of bytes.) -/
theorem Authorize_keeps_redirect_parameters (c : ProviderController) (ctx : Context)
    (rw : http.ResponseWriter) (req : http.Request) (u : url.URL) (code : String)
    (hid : req.URL.Query.Get "client_id" ≠ "")
    (hrt : req.URL.Query.Get "response_type" = "code")
    (hparse : url.Parse (req.URL.Query.Get "redirect_uri") = some u)
    (hscheme : u.Scheme ≠ "") (hhost : u.Host ≠ "")
    (hbackend : c.provider.Authorize (req.URL.Query.Get "client_id")
        (req.URL.Query.Get "scope") (req.URL.Query.Get "redirect_uri")
      = { code := code, err := none })
    (hquery : url.isBytes u.RawQuery.data) (hcode : url.isBytes code.data)
    (hstate : url.isBytes (req.URL.Query.Get "state").data) :
    ∃ location : url.URL,
      (c.Authorize ctx rw req).Header.Get "Location" = some location.String
      ∧ location.Scheme = u.Scheme ∧ location.Host = u.Host ∧ location.Path = u.Path
      ∧ location = { u with RawQuery := location.RawQuery }
      ∧ (∀ key : String, key ≠ "code"
          → (key ≠ "state" ∨ req.URL.Query.Get "state" = "")
          → location.Query.lookup key = u.Query.lookup key)
      ∧ location.Query.lookup "code" = [code]
      ∧ (req.URL.Query.Get "state" ≠ ""
          → location.Query.lookup "state" = [req.URL.Query.Get "state"])
      ∧ location.String
          = url.beforeQuery u ++ url.queryText location ++ url.afterQuery u
      ∧ u.String = url.beforeQuery u ++ url.queryText u ++ url.afterQuery u := by
  have hout := Authorize_valid c ctx rw req u hid hrt hparse hscheme hhost
  simp only [hbackend] at hout
  rw [hout]
  have hwf := redirectQuery_wellFormed u code _ hquery hcode hstate
  have hback : ∀ key : String,
      (url.ParseQuery (redirectQuery u code (req.URL.Query.Get "state")).Encode).lookup key
        = if key = "code" then [code]
          else if key = "state" ∧ req.URL.Query.Get "state" ≠ ""
            then [req.URL.Query.Get "state"]
          else u.Query.lookup key := by
    intro key
    rw [url.ParseQuery_Encode _ hwf key]
    exact redirectQuery_lookup u code _ key
  refine ⟨{ u with RawQuery := (redirectQuery u code (req.URL.Query.Get "state")).Encode },
    ?_, rfl, rfl, rfl, rfl, ?_, ?_, ?_, ?_, url.text_parts u⟩
  · simp [ProviderController.Send, http.Header.Get_after_Set]
  · intro key hk hs
    show (url.ParseQuery (redirectQuery u code (req.URL.Query.Get "state")).Encode).lookup key = _
    rw [hback key]
    rcases hs with hs | hs
    · simp [hk, hs]
    · simp [hk, hs]
  · show (url.ParseQuery (redirectQuery u code (req.URL.Query.Get "state")).Encode).lookup "code"
      = _
    rw [hback "code"]
    simp
  · intro hs
    show (url.ParseQuery (redirectQuery u code (req.URL.Query.Get "state")).Encode).lookup "state"
      = _
    rw [hback "state"]
    simp [hs]
  · exact url.text_parts _

/-- C23 amended, at a request with state `xyz` and the redirect URI
`https://client.example/cb?code=old&x=1&x=2&state=s0`: the URL of the redirect
has the scheme, host and path of the redirect URI, the two values of `x`, and
the one value `ABC123` of `code`. -/
theorem Authorize_keeps_redirect_parameters_witness :
    (ProviderController.Authorize { provider := exampleProvider } [] {}
        exampleQueryInRedirectRequest).Header.Get "Location"
      = some "https://client.example/cb?code=ABC123&state=xyz&x=1&x=2"
    ∧ ∃ location : url.URL,
        (ProviderController.Authorize { provider := exampleProvider } [] {}
          exampleQueryInRedirectRequest).Header.Get "Location" = some location.String
        ∧ location.Scheme = "https" ∧ location.Host = "client.example" ∧ location.Path = "/cb"
        ∧ location.Query.lookup "x" = ["1", "2"]
        ∧ location.Query.lookup "code" = ["ABC123"] :=
  have h := Authorize_keeps_redirect_parameters { provider := exampleProvider } [] {}
    exampleQueryInRedirectRequest
    { Scheme := "https", Host := "client.example", Path := "/cb",
      RawQuery := "code=old&x=1&x=2&state=s0" }
    "ABC123" (by decide) (by decide) (by rfl) (by decide) (by decide) (by rfl)
    (by decide) (by decide) (by decide)
  ⟨by rfl,
   h.elim fun location hl =>
    ⟨location, hl.1, hl.2.1, hl.2.2.1, hl.2.2.2.1,
     (hl.2.2.2.2.2.1 "x" (by decide) (Or.inl (by decide))).trans (by rfl),
     hl.2.2.2.2.2.2.1⟩⟩

/-! ## Presence of the fields of the token request -/

/-- C25. In the token flow a field is present when it is supplied, empty or
not.  With a client id in the context, an exchange of the code supplied as the
empty string, with an absolute redirect URI, is not refused as a missing code:
the backend's `Exchange` is called with the code `""`.  An exchange of which the
redirect URI is supplied as the empty string is refused with "redirect URI must
be a valid absolute URL", not with "missing redirect URI".  A refresh of which
the refresh token is supplied as the empty string calls the backend's `Refresh`
with `""`.  The answers "missing authorization code", "missing redirect URI" and
the one to a missing refresh token are those to a field that is not supplied. -/
theorem presence_is_being_supplied (c : ProviderController) (ctx : Context)
    (rw : http.ResponseWriter) (code redirectURI : String) (scope : Option String)
    (hid : ContextClientID ctx ≠ "") (habs : absoluteURL redirectURI = true) :
    (c.exchange ctx rw (some "") (some redirectURI)).Calls
      = [Call.Exchange (ContextClientID ctx) "" redirectURI]
    ∧ c.exchange ctx rw (some "") (some redirectURI) ≠
        { Header := rw.Header, Status := 400, Body := Body.errorMedia MissingCode, Calls := [] }
    ∧ c.exchange ctx rw (some code) (some "") =
        { Header := rw.Header, Status := 400, Body := Body.errorMedia InvalidRedirect,
          Calls := [] }
    ∧ InvalidRedirect.ErrorDescription = some "redirect URI must be a valid absolute URL"
    ∧ MissingRedirect.ErrorDescription = some "missing redirect URI"
    ∧ MissingCode.ErrorDescription = some "missing authorization code"
    ∧ InvalidRedirect ≠ MissingRedirect
    ∧ (c.refresh ctx rw (some "") scope).Calls
        = [Call.Refresh "" (match scope with | some s => s | none => "")]
    ∧ c.exchange ctx rw none (some redirectURI) =
        { Header := rw.Header, Status := 400, Body := Body.errorMedia MissingCode, Calls := [] }
    ∧ c.exchange ctx rw (some code) none =
        { Header := rw.Header, Status := 400, Body := Body.errorMedia MissingRedirect,
          Calls := [] }
    ∧ c.refresh ctx rw none scope =
        { Header := rw.Header, Status := 400, Body := Body.errorMedia MissingRefreshToken,
          Calls := [] } := by
  have hcalls : (c.exchange ctx rw (some "") (some redirectURI)).Calls
      = [Call.Exchange (ContextClientID ctx) "" redirectURI] := by
    rw [exchange_valid c ctx rw "" redirectURI hid habs]
    cases (c.provider.Exchange (ContextClientID ctx) "" redirectURI).err <;> rfl
  have hempty : absoluteURL "" = false := by rfl
  have hget : (match scope with | some s => s | none => "") = scope.getD "" := by
    cases scope <;> rfl
  refine ⟨hcalls, ?_, ?_, by decide, by decide, by decide, by decide, ?_, ?_, ?_, rfl⟩
  · intro heq
    rw [heq] at hcalls
    cases hcalls
  · rw [exchange_invalid c ctx rw (some code) (some "")
      (Or.inr (Or.inr (Or.inr ⟨"", rfl, hempty⟩)))]
    simp [hid]
  · rw [hget, refresh_valid c ctx rw "" scope]
    cases (c.provider.Refresh "" (scope.getD "")).err <;> rfl
  · rw [exchange_invalid c ctx rw none (some redirectURI) (Or.inr (Or.inl rfl))]
    simp [hid]
  · rw [exchange_invalid c ctx rw (some code) none (Or.inr (Or.inr (Or.inl rfl)))]
    simp [hid]

/-- C25, for the client `c1` and the redirect URI `https://client.example/cb`:
the empty code and the empty refresh token reach the backend. -/
theorem presence_is_being_supplied_witness :
    (ProviderController.exchange { provider := exampleProvider } (WithClientID [] "c1") {}
        (some "") (some "https://client.example/cb")).Calls
      = [Call.Exchange "c1" "" "https://client.example/cb"]
    ∧ (ProviderController.exchange { provider := exampleProvider } (WithClientID [] "c1") {}
        (some "ABC123") (some "")).Body = Body.errorMedia InvalidRedirect
    ∧ (ProviderController.refresh { provider := exampleProvider } (WithClientID [] "c1") {}
        (some "") none).Calls = [Call.Refresh "" ""] :=
  have h := presence_is_being_supplied { provider := exampleProvider } (WithClientID [] "c1") {}
    "ABC123" "https://client.example/cb" none (by decide) (by rfl)
  ⟨h.1, congrArg Outcome.Body h.2.2.1, h.2.2.2.2.2.2.2.1⟩

/-! ## The token media and its validation -/

theorem TokenMedia_Validate_iff (mt : app.TokenMedia) :
    mt.Validate = [] ↔ mt.AccessToken ≠ "" ∧ mt.TokenType ≠ "" := by
  unfold app.TokenMedia.Validate goa.MergeErrors
  by_cases h1 : mt.AccessToken = "" <;> by_cases h2 : mt.TokenType = "" <;> simp [h1, h2]

/-- C26. When the backend returns with no error, the token media that
`exchange` and `refresh` send with 200 passes `TokenMedia.Validate` exactly when
the access token the backend returned is not empty.  The flows send the media
with 200 in either case: they do not refuse an empty access token. -/
theorem token_media_valid_iff_access_token (c : ProviderController) (ctx : Context)
    (rw : http.ResponseWriter) (code redirectURI refreshToken : String)
    (scope : Option String) :
    (ContextClientID ctx ≠ "" → absoluteURL redirectURI = true
      → (c.provider.Exchange (ContextClientID ctx) code redirectURI).err = none
      → (c.exchange ctx rw (some code) (some redirectURI)).Status = 200
        ∧ ∃ m : app.TokenMedia,
            (c.exchange ctx rw (some code) (some redirectURI)).Body = Body.tokenMedia m
            ∧ m.AccessToken
                = (c.provider.Exchange (ContextClientID ctx) code redirectURI).accessToken
            ∧ (m.Validate = [] ↔
                (c.provider.Exchange (ContextClientID ctx) code redirectURI).accessToken ≠ ""))
    ∧ ((c.provider.Refresh refreshToken (match scope with | some s => s | none => "")).err = none
      → (c.refresh ctx rw (some refreshToken) scope).Status = 200
        ∧ ∃ m : app.TokenMedia,
            (c.refresh ctx rw (some refreshToken) scope).Body = Body.tokenMedia m
            ∧ m.AccessToken
                = (c.provider.Refresh refreshToken
                    (match scope with | some s => s | none => "")).accessToken
            ∧ (m.Validate = [] ↔
                (c.provider.Refresh refreshToken
                  (match scope with | some s => s | none => "")).accessToken ≠ "")) := by
  have hget : (match scope with | some s => s | none => "") = scope.getD "" := by
    cases scope <;> rfl
  rw [hget]
  constructor
  · intro hid habs herr
    have hout : c.exchange ctx rw (some code) (some redirectURI) =
        { Header := rw.Header.Set "Content-Type" "application/json", Status := 200,
          Body := Body.tokenMedia
            (tokenMediaOf (c.provider.Exchange (ContextClientID ctx) code redirectURI)),
          Calls := [Call.Exchange (ContextClientID ctx) code redirectURI] } := by
      rw [exchange_valid c ctx rw code redirectURI hid habs]
      simp only [herr]
    rw [hout]
    refine ⟨rfl, _, rfl, rfl, ?_⟩
    rw [TokenMedia_Validate_iff]
    simp [tokenMediaOf]
  · intro herr
    have hout : c.refresh ctx rw (some refreshToken) scope =
        { Header := rw.Header.Set "Content-Type" "application/json", Status := 200,
          Body := Body.tokenMedia
            { tokenMediaOf (c.provider.Refresh refreshToken (scope.getD "")) with
              Scope := scope },
          Calls := [Call.Refresh refreshToken (scope.getD "")] } := by
      rw [refresh_valid c ctx rw refreshToken scope]
      simp only [herr]
    rw [hout]
    refine ⟨rfl, _, rfl, rfl, ?_⟩
    rw [TokenMedia_Validate_iff]
    simp [tokenMediaOf]

/-- C26, at a backend that returns an empty access token, which is sent with
200 in a media that does not pass `Validate`, and at one that returns the access
token `tok`, whose media passes. -/
theorem token_media_valid_iff_access_token_witness :
    (ProviderController.exchange { provider := exampleEmptyTokenProvider }
        (WithClientID [] "c1") {} (some "ABC123") (some "https://client.example/cb")).Status
      = 200
    ∧ (∃ m : app.TokenMedia,
        (ProviderController.exchange { provider := exampleEmptyTokenProvider }
          (WithClientID [] "c1") {} (some "ABC123") (some "https://client.example/cb")).Body
          = Body.tokenMedia m
        ∧ m.AccessToken = "" ∧ m.Validate ≠ [])
    ∧ (∃ m : app.TokenMedia,
        (ProviderController.refresh { provider := exampleProvider }
          (WithClientID [] "c1") {} (some "r1") none).Body = Body.tokenMedia m
        ∧ m.AccessToken = "tok2" ∧ m.Validate = []) :=
  have hempty := (token_media_valid_iff_access_token { provider := exampleEmptyTokenProvider }
    (WithClientID [] "c1") {} "ABC123" "https://client.example/cb" "r1" none).1
    (by decide) (by rfl) rfl
  have hfull := (token_media_valid_iff_access_token { provider := exampleProvider }
    (WithClientID [] "c1") {} "ABC123" "https://client.example/cb" "r1" none).2 rfl
  ⟨hempty.1,
   hempty.2.elim fun m hm =>
     ⟨m, hm.1, hm.2.1, fun hv => (hm.2.2.1 hv) rfl⟩,
   hfull.2.elim fun m hm =>
     ⟨m, hm.1, hm.2.1, hm.2.2.2 (by decide)⟩⟩

end oauth2
